import Mathlib

/-!
# Datoviz context: thread-safe FIFO queue, transfer engine, buffer allocation

A shallow embedding of `src/src/context.c`.

* Every call on a `VklFifo` runs under the queue's mutex, so a call is one atomic
  step on the queue state and an execution is a sequence of calls.
* `void*` handles are addresses (`Ptr`), `NULL` being the address `0`.
* An `ASSERT` that fails is the fault `Fault.assertion`; a call that waits on the
  condition variable of an empty queue (nobody else can signal it in a sequential
  execution) is the fault `Fault.blocked`; a division by zero is `Fault.undefined`;
  a loop that has not ended when its iteration budget is used up is `Fault.fuel`.
* `int32_t` fields are `Int`: under the range invariant of the queue no operation
  leaves the 32-bit range.
-/

namespace Datoviz

/-- A `void*` handle. -/
abbrev Ptr := Nat

/-- The null handle, which `vkl_fifo_dequeue` returns for "no item". -/
def NULL : Ptr := 0

/-- Ways in which a call does not return normally. -/
inductive Fault where
  | assertion
  | blocked
  | undefined
  | fuel
  deriving DecidableEq, Repr

/-- The `VklFifo` struct: `capacity`, `head`, `tail` and the `items` array
(the lock and the condition variable carry no data). -/
structure VklFifo where
  capacity : Int
  head : Int
  tail : Int
  items : Int → Ptr

/-- `vkl_fifo(capacity)`; the constant `VKL_MAX_FIFO_CAPACITY` is a parameter. -/
def vkl_fifo (VKL_MAX_FIFO_CAPACITY capacity : Int) : Except Fault VklFifo :=
  if ¬ (capacity ≥ 2) then .error .assertion
  else if ¬ (capacity ≤ VKL_MAX_FIFO_CAPACITY) then .error .assertion
  else .ok { capacity := capacity, head := 0, tail := 0, items := fun _ => NULL }

/-- `vkl_fifo_enqueue(fifo, item)`. -/
def vkl_fifo_enqueue (fifo : VklFifo) (item : Ptr) : Except Fault VklFifo :=
  let fifo1 : VklFifo :=
    if (fifo.head + 1).tmod fifo.capacity ≠ fifo.tail then
      let items := fun i => if i = fifo.head then item else fifo.items i
      let head := fifo.head + 1
      let head := if head ≥ fifo.capacity then head - fifo.capacity else head
      { fifo with items := items, head := head }
    else
      { fifo with head := 0, tail := 0 }
  if 0 ≤ fifo1.head ∧ fifo1.head < fifo1.capacity then .ok fifo1 else .error .assertion

/-- `vkl_fifo_dequeue(fifo, wait)`: the queue after the call and the returned handle. -/
def vkl_fifo_dequeue (fifo : VklFifo) (wait : Bool) : Except Fault (VklFifo × Ptr) :=
  if wait = true ∧ fifo.head = fifo.tail then .error .blocked
  else if fifo.head = fifo.tail then .ok (fifo, NULL)
  else if ¬ (0 ≤ fifo.tail ∧ fifo.tail < fifo.capacity) then .error .assertion
  else
    let item := fifo.items fifo.tail
    let tail := fifo.tail + 1
    let tail := if tail ≥ fifo.capacity then tail - fifo.capacity else tail
    if ¬ (0 ≤ tail ∧ tail < fifo.capacity) then .error .assertion
    else .ok ({ fifo with tail := tail }, item)

/-- `vkl_fifo_size(fifo)`. -/
def vkl_fifo_size (fifo : VklFifo) : Except Fault Int :=
  let size := fifo.head - fifo.tail
  let size := if size < 0 then size + fifo.capacity else size
  if 0 ≤ size ∧ size ≤ fifo.capacity then .ok size else .error .assertion

/-- `vkl_fifo_discard(fifo, max_size)`. -/
def vkl_fifo_discard (fifo : VklFifo) (max_size : Int) : Except Fault VklFifo :=
  if max_size = 0 then .ok fifo
  else
    let size := fifo.head - fifo.tail
    let size := if size < 0 then size + fifo.capacity else size
    if ¬ (0 ≤ size ∧ size ≤ fifo.capacity) then .error .assertion
    else if size > max_size then
      let tail := fifo.head - max_size
      let tail := if tail < 0 then tail + fifo.capacity else tail
      .ok { fifo with tail := tail }
    else .ok fifo

/-- `vkl_fifo_reset(fifo)`. -/
def vkl_fifo_reset (fifo : VklFifo) : VklFifo :=
  { fifo with head := 0, tail := 0 }

/-- The range invariant of a queue: `capacity >= 2` and both indices inside the array. -/
def VklFifo.Inv (f : VklFifo) : Prop :=
  2 ≤ f.capacity ∧ 0 ≤ f.head ∧ f.head < f.capacity ∧ 0 ≤ f.tail ∧ f.tail < f.capacity

instance (f : VklFifo) : Decidable f.Inv := by
  unfold VklFifo.Inv; infer_instance

/-- The items a queue stores, oldest first: what non-blocking `vkl_fifo_dequeue`
calls return until the queue is empty (`fuel` bounds the number of calls). -/
def VklFifo.storedUpTo : Nat → VklFifo → List Ptr
  | 0, _ => []
  | fuel + 1, f =>
    if f.head = f.tail then []
    else
      match vkl_fifo_dequeue f false with
      | .ok (f1, item) => item :: VklFifo.storedUpTo fuel f1
      | .error _ => []

/-- The items a queue stores, oldest first (a queue never holds `capacity` items). -/
def VklFifo.stored (f : VklFifo) : List Ptr :=
  VklFifo.storedUpTo f.capacity.toNat f

/-- A call on a queue. -/
inductive FifoCall where
  | enqueue (item : Ptr)
  | dequeue
  | discard (max_size : Int)
  | reset

/-- One call: the queue after it and the handles it returned (one for a dequeue). -/
def FifoCall.apply (f : VklFifo) : FifoCall → Except Fault (VklFifo × List Ptr)
  | .enqueue item =>
    match vkl_fifo_enqueue f item with
    | .ok f1 => .ok (f1, [])
    | .error e => .error e
  | .dequeue =>
    match vkl_fifo_dequeue f false with
    | .ok (f1, item) => .ok (f1, [item])
    | .error e => .error e
  | .discard max_size =>
    match vkl_fifo_discard f max_size with
    | .ok f1 => .ok (f1, [])
    | .error e => .error e
  | .reset => .ok (vkl_fifo_reset f, [])

/-- A sequence of calls: the final queue and the handles returned by the dequeues. -/
def runCalls : VklFifo → List FifoCall → Except Fault (VklFifo × List Ptr)
  | f, [] => .ok (f, [])
  | f, call :: calls =>
    match call.apply f with
    | .ok (f1, r1) =>
      match runCalls f1 calls with
      | .ok (f2, r2) => .ok (f2, r1 ++ r2)
      | .error e => .error e
    | .error e => .error e

/-- The handles passed to the enqueue calls of a sequence, in order. -/
def enqueuedItems : List FifoCall → List Ptr
  | [] => []
  | .enqueue item :: calls => item :: enqueuedItems calls
  | _ :: calls => enqueuedItems calls

/-- Only `vkl_fifo_enqueue` and non-blocking `vkl_fifo_dequeue` calls. -/
def FifoCall.isEnqDeq : FifoCall → Bool
  | .enqueue _ => true
  | .dequeue => true
  | _ => false

/-- No call passes a negative `max_size` to `vkl_fifo_discard`. -/
def FifoCall.maxSizeNonneg : FifoCall → Prop
  | .discard max_size => 0 ≤ max_size
  | _ => True

/-- No overflow: at every enqueue of the sequence fewer than `capacity - 1` items are
stored. -/
def NoOverflow : VklFifo → List FifoCall → Prop
  | _, [] => True
  | f, call :: calls =>
    (match call with
      | .enqueue _ => (f.stored.length : Int) < f.capacity - 1
      | _ => True) ∧
    (match call.apply f with
      | .ok (f1, _) => NoOverflow f1 calls
      | .error _ => True)

/-! ## Proof devices for the queue -/

/-- The index `x` brought back into `[0, c)` by one subtraction, as the code does. -/
def wrapIdx (c x : Int) : Int := if x ≥ c then x - c else x

/-- The value `vkl_fifo_size` computes, without its assertion. -/
def VklFifo.count (f : VklFifo) : Int :=
  if f.head - f.tail < 0 then f.head - f.tail + f.capacity else f.head - f.tail

/-- The `n` array slots from `tail` on, wrapping around. -/
def VklFifo.window (f : VklFifo) (n : Nat) : List Ptr :=
  List.map (fun (i : Nat) => f.items (wrapIdx f.capacity (f.tail + (i : Int)))) (List.range n)

/-- The tail that `vkl_fifo_discard` computes. -/
def discardTail (f : VklFifo) (max_size : Int) : Int :=
  if f.head - max_size < 0 then f.head - max_size + f.capacity else f.head - max_size

/-- The queue as a list of stored items: what a call does to the list (its first
component) and which handles it returns (its second component). -/
def listStep (c : Int) (q : List Ptr) : FifoCall → List Ptr × List Ptr
  | .enqueue x => if (q.length : Int) < c - 1 then (q ++ [x], []) else ([], [])
  | .dequeue =>
    match q with
    | [] => ([], [NULL])
    | y :: q1 => (q1, [y])
  | .discard m =>
    if m ≠ 0 ∧ m < (q.length : Int) then (q.drop ((q.length : Int) - m).toNat, []) else (q, [])
  | .reset => ([], [])

/-- A sequence of calls on the list of stored items. -/
def listRun (c : Int) : List Ptr → List FifoCall → List Ptr × List Ptr
  | q, [] => (q, [])
  | q, call :: calls =>
    ((listRun c (listStep c q call).1 calls).1,
      (listStep c q call).2 ++ (listRun c (listStep c q call).1 calls).2)

/-! ## The context: transfer queue and buffer allocation -/

/-- An unsigned triple (`uvec3`). -/
abbrev uvec3 := Nat × Nat × Nat

/-- Modelled from the spec: the enum `VklDataTransferType` is declared in `context.h`,
which is not in `src/`; the spec lists its tags as none, buffer-upload, buffer-download,
buffer-copy, texture-upload, texture-download, texture-copy. `fifo_dequeue` returns
`(VklTransfer){0}` for "no item", so the none tag is the value 0. -/
abbrev VklDataTransferType := Nat

def VKL_TRANSFER_NONE : VklDataTransferType := 0
def VKL_TRANSFER_BUFFER_UPLOAD : VklDataTransferType := 1
def VKL_TRANSFER_BUFFER_DOWNLOAD : VklDataTransferType := 2
def VKL_TRANSFER_BUFFER_COPY : VklDataTransferType := 3
def VKL_TRANSFER_TEXTURE_UPLOAD : VklDataTransferType := 4
def VKL_TRANSFER_TEXTURE_DOWNLOAD : VklDataTransferType := 5
def VKL_TRANSFER_TEXTURE_COPY : VklDataTransferType := 6

/-- Modelled from the spec: the enum `VklTransferMode` is declared in `context.h`, which
is not in `src/`; the spec names the two modes, synchronous and asynchronous. -/
abbrev VklTransferMode := Nat

def VKL_TRANSFER_MODE_SYNC : VklTransferMode := 0
/-- Modelled from the spec: the buffer roles of `context.h` (not in `src/`), in the
order the spec lists them: staging, vertex, index, storage, uniform. -/
def VKL_DEFAULT_BUFFER_STAGING : Nat := 0
def VKL_DEFAULT_BUFFER_VERTEX : Nat := 1
def VKL_DEFAULT_BUFFER_INDEX : Nat := 2
def VKL_DEFAULT_BUFFER_STORAGE : Nat := 3
def VKL_DEFAULT_BUFFER_UNIFORM : Nat := 4

/-- The number of values of a `VkDeviceSize` (`uint64_t`): its arithmetic is modulo this. -/
def U64 : Nat := 18446744073709551616

/-- The fields of `VklBufferRegions` that `context.c` reads; `buffer` is the index of the
pool buffer the lease points to (`none` for a NULL pointer). -/
structure VklBufferRegions where
  buffer : Option Nat
  count : Nat
  offsets : List Nat
  size : Nat
  aligned_size : Nat
  alignment : Nat
  deriving DecidableEq, Repr

/-- The payload union of a `VklTransfer`; `zero` is the zero-initialised payload. -/
inductive VklTransferUnion where
  | zero
  | buf (regions : VklBufferRegions) (offset size : Nat) (data : Ptr)
  | tex (texture : Ptr) (offset shape : uvec3) (size : Nat) (data : Ptr)
  | buf_copy (src dst : VklBufferRegions) (src_offset dst_offset size : Nat)
  | tex_copy (src dst : Ptr) (src_offset dst_offset shape : uvec3)
  deriving DecidableEq, Repr

/-- A transfer task (`VklTransfer`): the type tag and the payload. -/
structure VklTransfer where
  type : VklDataTransferType
  u : VklTransferUnion
  deriving DecidableEq, Repr

/-- The task `(VklTransfer){0}`. -/
def VklTransfer.zero : VklTransfer := { type := 0, u := .zero }

/-- The fields of a pool `VklBuffer` that the allocator reads: its size and whether the
object is created. -/
structure VklBuffer where
  size : Nat
  created : Bool
  deriving DecidableEq, Repr

/-- The fields of `VklContext` used by the transfer queue and the allocator.
`alignment` is `gpu->device_properties.limits.minUniformBufferOffsetAlignment` and
`texture_shape` gives width, height and depth of the image of the texture at an address.
The last two fields are not in the C struct: `handled` lists the tasks passed to
`process_transfer` and `executed` those dispatched to one of the `process_*` routines,
in call order; the device work of these routines is not modelled further. -/
structure VklContext where
  fifo : VklFifo
  transfers : Int → VklTransfer
  transfer_mode : VklTransferMode
  max_buffers : Nat
  buffers : Nat → VklBuffer
  allocated_sizes : Nat → Nat
  alignment : Nat
  texture_shape : Ptr → uvec3
  handled : List VklTransfer
  executed : List VklTransfer

/-- The device work of one task, common to the six `process_*` routines. -/
def VklContext.execute (context : VklContext) (tr : VklTransfer) : VklContext :=
  { context with executed := context.executed ++ [tr] }

def process_texture_upload (context : VklContext) (tr : VklTransfer) : VklContext :=
  context.execute tr

def process_texture_download (context : VklContext) (tr : VklTransfer) : VklContext :=
  context.execute tr

def process_buffer_upload (context : VklContext) (tr : VklTransfer) : VklContext :=
  context.execute tr

def process_buffer_download (context : VklContext) (tr : VklTransfer) : VklContext :=
  context.execute tr

def process_buffer_copy (context : VklContext) (tr : VklTransfer) : VklContext :=
  context.execute tr

def process_texture_copy (context : VklContext) (tr : VklTransfer) : VklContext :=
  context.execute tr

/-- `process_transfer(context, tr)`: the context afterwards and the returned `int`. -/
def process_transfer (context : VklContext) (tr : VklTransfer) : VklContext × Int :=
  let context := { context with handled := context.handled ++ [tr] }
  if tr.type = VKL_TRANSFER_NONE then (context, 1)
  else if tr.type = VKL_TRANSFER_TEXTURE_UPLOAD then (process_texture_upload context tr, 0)
  else if tr.type = VKL_TRANSFER_TEXTURE_DOWNLOAD then (process_texture_download context tr, 0)
  else if tr.type = VKL_TRANSFER_BUFFER_UPLOAD then (process_buffer_upload context tr, 0)
  else if tr.type = VKL_TRANSFER_BUFFER_DOWNLOAD then (process_buffer_download context tr, 0)
  else if tr.type = VKL_TRANSFER_BUFFER_COPY then (process_buffer_copy context tr, 0)
  else if tr.type = VKL_TRANSFER_TEXTURE_COPY then (process_texture_copy context tr, 0)
  else (context, 0)

/-- The address `&ctx->transfers[i]`: the array starts at address 1, one task per
address. -/
def transfers_addr (i : Int) : Ptr := i.toNat + 1

/-- The task `*item` for a handle into `ctx->transfers`. -/
def VklContext.deref (ctx : VklContext) (item : Ptr) : VklTransfer :=
  ctx.transfers ((item : Int) - 1)

/-- `fifo_enqueue(ctx, transfer)`. -/
def fifo_enqueue (ctx : VklContext) (transfer : VklTransfer) : Except Fault VklContext :=
  if ¬ (0 ≤ ctx.fifo.head ∧ ctx.fifo.head < ctx.fifo.capacity) then .error .assertion
  else
    let head := ctx.fifo.head
    let ctx := { ctx with transfers := fun i => if i = head then transfer else ctx.transfers i }
    match vkl_fifo_enqueue ctx.fifo (transfers_addr head) with
    | .ok fifo => .ok { ctx with fifo := fifo }
    | .error e => .error e

/-- `fifo_dequeue(ctx, wait)`. -/
def fifo_dequeue (ctx : VklContext) (wait : Bool) : Except Fault (VklContext × VklTransfer) :=
  match vkl_fifo_dequeue ctx.fifo wait with
  | .ok (fifo, item) =>
    let ctx := { ctx with fifo := fifo }
    if item = NULL then .ok (ctx, VklTransfer.zero)
    else .ok (ctx, ctx.deref item)
  | .error e => .error e

/-- The part of the `enqueue_*` functions after the task is built: push it, and in
synchronous mode process it. -/
def enqueue_transfer (ctx : VklContext) (tr : VklTransfer) : Except Fault VklContext :=
  match fifo_enqueue ctx tr with
  | .ok ctx =>
    if ctx.transfer_mode = VKL_TRANSFER_MODE_SYNC then .ok (process_transfer ctx tr).1
    else .ok ctx
  | .error e => .error e

/-- `enqueue_texture_transfer(ctx, type, texture, offset, shape, size, data)`: the context
afterwards and the returned task. -/
def enqueue_texture_transfer (ctx : VklContext) (type : VklDataTransferType) (texture : Ptr)
    (offset shape : uvec3) (size : Nat) (data : Ptr) : Except Fault (VklContext × VklTransfer) :=
  let tr : VklTransfer := { type := type, u := .tex texture offset shape size data }
  match enqueue_transfer ctx tr with
  | .ok ctx => .ok (ctx, tr)
  | .error e => .error e

/-- `enqueue_regions_transfer(ctx, type, regions, offset, size, data)`. -/
def enqueue_regions_transfer (ctx : VklContext) (type : VklDataTransferType)
    (regions : VklBufferRegions) (offset size : Nat) (data : Ptr) :
    Except Fault (VklContext × VklTransfer) :=
  let tr : VklTransfer := { type := type, u := .buf regions offset size data }
  match enqueue_transfer ctx tr with
  | .ok ctx => .ok (ctx, tr)
  | .error e => .error e

/-- `vkl_transfer_mode(context, mode)`. -/
def vkl_transfer_mode (context : VklContext) (mode : VklTransferMode) : VklContext :=
  { context with transfer_mode := mode }

/-- The loop of `vkl_transfer_loop`, one iteration per unit of `fuel`; `counter` is the
local variable of that name, the number of dequeues made so far. -/
def vkl_transfer_loop_iter (wait : Bool) :
    Nat → VklContext → Nat → Except Fault (VklContext × Nat)
  | 0, _, _ => .error .fuel
  | fuel + 1, context, counter =>
    match fifo_dequeue context wait with
    | .ok (context, tr) =>
      let r := process_transfer context tr
      if r.2 = 0 then vkl_transfer_loop_iter wait fuel r.1 (counter + 1)
      else .ok (r.1, counter + 1)
    | .error e => .error e

/-- `vkl_transfer_loop(context, wait)` run for at most `fuel` iterations: the context
afterwards and the final value of `counter`. -/
def vkl_transfer_loop (fuel : Nat) (context : VklContext) (wait : Bool) :
    Except Fault (VklContext × Nat) :=
  vkl_transfer_loop_iter wait fuel context 0

/-- `vkl_transfer_reset(context)`. -/
def vkl_transfer_reset (context : VklContext) : VklContext :=
  { context with fifo := vkl_fifo_reset context.fifo }

/-- `vkl_texture_upload_region`. -/
def vkl_texture_upload_region (context : VklContext) (texture : Ptr) (offset shape : uvec3)
    (size : Nat) (data : Ptr) : Except Fault VklContext :=
  if texture = NULL then .error .assertion
  else
    match enqueue_texture_transfer context VKL_TRANSFER_TEXTURE_UPLOAD texture offset shape
        size data with
    | .ok (context, _) => .ok context
    | .error e => .error e

/-- `vkl_texture_upload`. -/
def vkl_texture_upload (context : VklContext) (texture : Ptr) (size : Nat) (data : Ptr) :
    Except Fault VklContext :=
  if texture = NULL then .error .assertion
  else vkl_texture_upload_region context texture (0, 0, 0) (context.texture_shape texture)
    size data

/-- `vkl_texture_download_region`. -/
def vkl_texture_download_region (context : VklContext) (texture : Ptr) (offset shape : uvec3)
    (size : Nat) (data : Ptr) : Except Fault VklContext :=
  if texture = NULL then .error .assertion
  else
    match enqueue_texture_transfer context VKL_TRANSFER_TEXTURE_DOWNLOAD texture offset shape
        size data with
    | .ok (context, _) => .ok context
    | .error e => .error e

/-- `vkl_texture_download`. -/
def vkl_texture_download (context : VklContext) (texture : Ptr) (size : Nat) (data : Ptr) :
    Except Fault VklContext :=
  if texture = NULL then .error .assertion
  else vkl_texture_download_region context texture (0, 0, 0) (context.texture_shape texture)
    size data

/-- `vkl_buffer_regions_upload`; `regions` is a pointer, `none` when NULL. -/
def vkl_buffer_regions_upload (context : VklContext) (regions : Option VklBufferRegions)
    (offset size : Nat) (data : Ptr) : Except Fault VklContext :=
  match regions with
  | none => .error .assertion
  | some regions =>
    match enqueue_regions_transfer context VKL_TRANSFER_BUFFER_UPLOAD regions offset size
        data with
    | .ok (context, _) => .ok context
    | .error e => .error e

/-- `vkl_buffer_regions_download`; `regions` is a pointer, `none` when NULL. -/
def vkl_buffer_regions_download (context : VklContext) (regions : Option VklBufferRegions)
    (offset size : Nat) (data : Ptr) : Except Fault VklContext :=
  match regions with
  | none => .error .assertion
  | some regions =>
    match enqueue_regions_transfer context VKL_TRANSFER_BUFFER_DOWNLOAD regions offset size
        data with
    | .ok (context, _) => .ok context
    | .error e => .error e

/-- `vkl_buffer_regions_copy`. -/
def vkl_buffer_regions_copy (context : VklContext) (src : VklBufferRegions) (src_offset : Nat)
    (dst : VklBufferRegions) (dst_offset size : Nat) : Except Fault VklContext :=
  if src.buffer = none then .error .assertion
  else if dst.buffer = none then .error .assertion
  else
    enqueue_transfer context
      { type := VKL_TRANSFER_BUFFER_COPY, u := .buf_copy src dst src_offset dst_offset size }

/-- `vkl_texture_copy`. -/
def vkl_texture_copy (context : VklContext) (src : Ptr) (src_offset : uvec3) (dst : Ptr)
    (dst_offset shape : uvec3) : Except Fault VklContext :=
  if src = NULL then .error .assertion
  else if dst = NULL then .error .assertion
  else
    enqueue_transfer context
      { type := VKL_TRANSFER_TEXTURE_COPY, u := .tex_copy src dst src_offset dst_offset shape }

/-- A call of the public transfer API that enqueues a task. Pointer arguments to textures
are addresses; `regions` of the upload and download calls is a pointer, `none` when NULL. -/
inductive TransferCall where
  | texture_upload_region (texture : Ptr) (offset shape : uvec3) (size : Nat) (data : Ptr)
  | texture_upload (texture : Ptr) (size : Nat) (data : Ptr)
  | texture_download_region (texture : Ptr) (offset shape : uvec3) (size : Nat) (data : Ptr)
  | texture_download (texture : Ptr) (size : Nat) (data : Ptr)
  | buffer_regions_upload (regions : Option VklBufferRegions) (offset size : Nat) (data : Ptr)
  | buffer_regions_download (regions : Option VklBufferRegions) (offset size : Nat) (data : Ptr)
  | buffer_regions_copy (src : VklBufferRegions) (src_offset : Nat) (dst : VklBufferRegions)
      (dst_offset size : Nat)
  | texture_copy (src : Ptr) (src_offset : uvec3) (dst : Ptr) (dst_offset shape : uvec3)

/-- The code run by a call of the transfer API. -/
def TransferCall.apply (context : VklContext) : TransferCall → Except Fault VklContext
  | .texture_upload_region texture offset shape size data =>
    vkl_texture_upload_region context texture offset shape size data
  | .texture_upload texture size data => vkl_texture_upload context texture size data
  | .texture_download_region texture offset shape size data =>
    vkl_texture_download_region context texture offset shape size data
  | .texture_download texture size data => vkl_texture_download context texture size data
  | .buffer_regions_upload regions offset size data =>
    vkl_buffer_regions_upload context regions offset size data
  | .buffer_regions_download regions offset size data =>
    vkl_buffer_regions_download context regions offset size data
  | .buffer_regions_copy src src_offset dst dst_offset size =>
    vkl_buffer_regions_copy context src src_offset dst dst_offset size
  | .texture_copy src src_offset dst dst_offset shape =>
    vkl_texture_copy context src src_offset dst dst_offset shape

/-- The pointer arguments of a call are not NULL, as its assertions require. -/
def TransferCall.argsOk : TransferCall → Prop
  | .texture_upload_region texture _ _ _ _ => texture ≠ NULL
  | .texture_upload texture _ _ => texture ≠ NULL
  | .texture_download_region texture _ _ _ _ => texture ≠ NULL
  | .texture_download texture _ _ => texture ≠ NULL
  | .buffer_regions_upload regions _ _ _ => regions ≠ none
  | .buffer_regions_download regions _ _ _ => regions ≠ none
  | .buffer_regions_copy src _ dst _ _ => src.buffer ≠ none ∧ dst.buffer ≠ none
  | .texture_copy src _ dst _ _ => src ≠ NULL ∧ dst ≠ NULL

/-- The task a call describes: its type and its arguments (the whole image, of the shape
`texture_shape` gives, for the two calls without a region; the zero lease stands in for a
NULL `regions`). -/
def TransferCall.task (texture_shape : Ptr → uvec3) : TransferCall → VklTransfer
  | .texture_upload_region texture offset shape size data =>
    { type := VKL_TRANSFER_TEXTURE_UPLOAD, u := .tex texture offset shape size data }
  | .texture_upload texture size data =>
    { type := VKL_TRANSFER_TEXTURE_UPLOAD,
      u := .tex texture (0, 0, 0) (texture_shape texture) size data }
  | .texture_download_region texture offset shape size data =>
    { type := VKL_TRANSFER_TEXTURE_DOWNLOAD, u := .tex texture offset shape size data }
  | .texture_download texture size data =>
    { type := VKL_TRANSFER_TEXTURE_DOWNLOAD,
      u := .tex texture (0, 0, 0) (texture_shape texture) size data }
  | .buffer_regions_upload regions offset size data =>
    { type := VKL_TRANSFER_BUFFER_UPLOAD,
      u := .buf (regions.getD ⟨none, 0, [], 0, 0, 0⟩) offset size data }
  | .buffer_regions_download regions offset size data =>
    { type := VKL_TRANSFER_BUFFER_DOWNLOAD,
      u := .buf (regions.getD ⟨none, 0, [], 0, 0, 0⟩) offset size data }
  | .buffer_regions_copy src src_offset dst dst_offset size =>
    { type := VKL_TRANSFER_BUFFER_COPY, u := .buf_copy src dst src_offset dst_offset size }
  | .texture_copy src src_offset dst dst_offset shape =>
    { type := VKL_TRANSFER_TEXTURE_COPY, u := .tex_copy src dst src_offset dst_offset shape }

/-- A sequence of calls of the transfer API. -/
def runTransferCalls : VklContext → List TransferCall → Except Fault VklContext
  | context, [] => .ok context
  | context, call :: calls =>
    match call.apply context with
    | .ok context => runTransferCalls context calls
    | .error e => .error e

/-- The tasks a context has queued, oldest first: the tasks its stored handles point to. -/
def VklContext.queued (ctx : VklContext) : List VklTransfer :=
  ctx.fifo.stored.map ctx.deref

/-- The invariant of the transfer queue of a context: the queue is in range and every
stored handle is the address of the slot of `transfers` with the index of its own slot,
as `fifo_enqueue` stores it. -/
def VklContext.QueueInv (ctx : VklContext) : Prop :=
  ctx.fifo.Inv ∧
  ∀ i : Nat, (i : Int) < ctx.fifo.count →
    ctx.fifo.items (wrapIdx ctx.fifo.capacity (ctx.fifo.tail + (i : Int)))
      = transfers_addr (wrapIdx ctx.fifo.capacity (ctx.fifo.tail + (i : Int)))

/-- The fields of a context outside the transfer queue and the two logs are the same. -/
def VklContext.SameResources (a b : VklContext) : Prop :=
  a.transfer_mode = b.transfer_mode ∧ a.max_buffers = b.max_buffers ∧ a.buffers = b.buffers ∧
  a.allocated_sizes = b.allocated_sizes ∧ a.alignment = b.alignment ∧
  a.texture_shape = b.texture_shape

/-- Modelled from the spec: the number of default buffers, `VKL_DEFAULT_BUFFER_COUNT` of
`context.h` (not in `src/`), one per role the spec lists. -/
def VKL_DEFAULT_BUFFER_COUNT : Nat := 5

/-- `vkl_context(gpu, window)`, for the fields of the model: `calloc` zeroes the struct,
`_context_default_buffers` creates the default buffers with their default sizes, and the
queue is `vkl_fifo(VKL_MAX_FIFO_CAPACITY)`. The constants `VKL_MAX_FIFO_CAPACITY`,
`VKL_MAX_BUFFERS`, the default sizes and the device limits are parameters. -/
def vkl_context (VKL_MAX_FIFO_CAPACITY : Int) (VKL_MAX_BUFFERS : Nat) (default_size : Nat → Nat)
    (alignment : Nat) (texture_shape : Ptr → uvec3) : Except Fault VklContext :=
  match vkl_fifo VKL_MAX_FIFO_CAPACITY VKL_MAX_FIFO_CAPACITY with
  | .ok fifo =>
    .ok { fifo := fifo, transfers := fun _ => VklTransfer.zero, transfer_mode := 0,
          max_buffers := VKL_MAX_BUFFERS,
          buffers := fun i =>
            if i < VKL_DEFAULT_BUFFER_COUNT then { size := default_size i, created := true }
            else { size := 0, created := false },
          allocated_sizes := fun _ => 0, alignment := alignment,
          texture_shape := texture_shape, handled := [], executed := [] }
  | .error e => .error e

/-- The types that `process_transfer` dispatches to a `process_*` routine. -/
def VklTransfer.known (tr : VklTransfer) : Bool :=
  decide (1 ≤ tr.type ∧ tr.type ≤ 6)

/-! ### Proof devices for the transfer queue -/

/-- The context after `fifo_enqueue` on a queue that is not full. -/
def VklContext.pushed (ctx : VklContext) (t : VklTransfer) : VklContext :=
  { ctx with
    transfers := fun i => if i = ctx.fifo.head then t else ctx.transfers i,
    fifo := { ctx.fifo with
      items := fun i => if i = ctx.fifo.head then transfers_addr ctx.fifo.head
        else ctx.fifo.items i,
      head := wrapIdx ctx.fifo.capacity (ctx.fifo.head + 1) } }

/-- The context after `fifo_enqueue` on a full queue. -/
def VklContext.overflowed (ctx : VklContext) (t : VklTransfer) : VklContext :=
  { ctx with
    transfers := fun i => if i = ctx.fifo.head then t else ctx.transfers i,
    fifo := { ctx.fifo with head := 0, tail := 0 } }

/-- The context after `fifo_dequeue` on a non-empty queue. -/
def VklContext.popped (ctx : VklContext) : VklContext :=
  { ctx with fifo := { ctx.fifo with tail := wrapIdx ctx.fifo.capacity (ctx.fifo.tail + 1) } }

/-- The context after `process_transfer`. -/
def VklContext.logged (ctx : VklContext) (tr : VklTransfer) : VklContext :=
  { ctx with handled := ctx.handled ++ [tr],
             executed := ctx.executed ++ (if tr.known = true then [tr] else []) }

/-! ## Buffer allocation -/

/-- Modelled from the spec: `vkl_buffer_regions` (in `vklite2.c`, not in `src/`) builds
the lease of `count` consecutive, equally sized sub-ranges of one buffer starting at
`offset`; the stride `aligned_size` is `size` rounded up to `alignment`, and is left 0
when no alignment is asked for (`vkl_alloc_buffers` then takes `size` as the stride). -/
def vkl_buffer_regions (buffer count offset size alignment : Nat) : VklBufferRegions :=
  let aligned_size :=
    if alignment = 0 then 0 else ((size + alignment - 1) / alignment * alignment) % U64
  let stride := if aligned_size = 0 then size else aligned_size
  { buffer := some buffer, count := count,
    offsets := (List.range count).map (fun (i : Nat) => (offset + i * stride) % U64),
    size := size, aligned_size := aligned_size, alignment := alignment }

/-- Modelled from the spec: `vkl_buffer_resize` (in `vklite2.c`, not in `src/`) grows the
buffer to `new_size`, keeping its contents. -/
def vkl_buffer_resize (buffer : VklBuffer) (new_size : Nat) : VklBuffer :=
  { buffer with size := new_size }

/-- `vkl_alloc_buffers(context, buffer_idx, buffer_count, size)`: the context afterwards
and the returned lease. `VkDeviceSize` arithmetic is modulo `U64`. The array
`allocated_sizes` has `max_buffers` entries (`calloc(context->max_buffers, ...)`), and the
function reads `allocated_sizes[buffer_idx]` right after the assertions on the count and
on the size, before its guard on the range of `buffer_idx`: with `buffer_idx >=
max_buffers` this read is outside the array, which is undefined behaviour. -/
def vkl_alloc_buffers (context : VklContext) (buffer_idx buffer_count size : Nat) :
    Except Fault (VklContext × VklBufferRegions) :=
  if ¬ (buffer_count > 0) then .error .assertion
  else if ¬ (size > 0) then .error .assertion
  else if buffer_idx ≥ context.max_buffers then .error .undefined
  else
    let offset := context.allocated_sizes buffer_idx
    let alignment := if buffer_idx = VKL_DEFAULT_BUFFER_UNIFORM then context.alignment else 0
    if buffer_idx = VKL_DEFAULT_BUFFER_UNIFORM ∧ alignment = 0 then .error .undefined
    else if buffer_idx = VKL_DEFAULT_BUFFER_UNIFORM ∧ ¬ (offset % alignment = 0) then
      .error .assertion
    else
      let regions := vkl_buffer_regions buffer_idx buffer_count offset size alignment
      let alsize := if regions.aligned_size = 0 then size else regions.aligned_size
      if ¬ (alsize > 0) then .error .assertion
      else if buffer_idx ≥ context.max_buffers ∨ (context.buffers buffer_idx).created = false then
        .ok (context, regions)
      else if buffer_idx = VKL_DEFAULT_BUFFER_UNIFORM ∧
          ¬ (alignment > 0 ∧ alsize % alignment = 0 ∧
            ∀ i ∈ List.range buffer_count, regions.offsets.getD i 0 % alignment = 0) then
        .error .assertion
      else
        let buffer := context.buffers buffer_idx
        let buffer :=
          if (offset + alsize * buffer_count) % U64 > buffer.size then
            vkl_buffer_resize buffer ((buffer.size * 2) % U64)
          else buffer
        let context :=
          { context with buffers := fun i => if i = buffer_idx then buffer else context.buffers i }
        if ¬ ((offset + alsize * buffer_count) % U64 ≤ buffer.size) then .error .assertion
        else
          let allocated := (context.allocated_sizes buffer_idx + alsize * buffer_count) % U64
          let context :=
            { context with
              allocated_sizes := fun i => if i = buffer_idx then allocated else
                context.allocated_sizes i }
          if ¬ ((regions.offsets.getD (buffer_count - 1) 0 + alsize) % U64 = allocated) then
            .error .assertion
          else .ok (context, regions)

/-- The stride of a lease: its `aligned_size`, or its `size` when `aligned_size` is 0. -/
def VklBufferRegions.stride (r : VklBufferRegions) : Nat :=
  if r.aligned_size = 0 then r.size else r.aligned_size

/-! ## Sequences of allocations, context reset -/

/-- The least multiple of `alignment` that is at least `size`, as a natural number. -/
def roundUp (size alignment : Nat) : Nat :=
  (size + alignment - 1) / alignment * alignment

/-- A sequence of `vkl_alloc_buffers` calls on the role `b`, one per `(count, size)`:
the context afterwards and the returned leases, in call order. -/
def runAllocs (b : Nat) : VklContext → List (Nat × Nat) →
    Except Fault (VklContext × List VklBufferRegions)
  | context, [] => .ok (context, [])
  | context, (count, size) :: reqs =>
    match vkl_alloc_buffers context b count size with
    | .ok (context, regions) =>
      match runAllocs b context reqs with
      | .ok (context, leases) => .ok (context, regions :: leases)
      | .error e => .error e
    | .error e => .error e

/-- The bytes the requests of a sequence take on a role of alignment `a`. -/
def totalAligned (a : Nat) : List (Nat × Nat) → Nat
  | [] => 0
  | (count, size) :: reqs => roundUp size a * count + totalAligned a reqs

/-- `_destroy_resources(context)`, for the buffers: `vkl_buffer_destroy` on the buffers
of the pool (the loop stops at the first slot never used, which is not created). -/
def _destroy_resources (context : VklContext) : VklContext :=
  { context with
    buffers := fun i =>
      if i < context.max_buffers then { context.buffers i with created := false }
      else context.buffers i }

/-- `_context_default_buffers(context)`: the default buffers are new buffers with their
default sizes (parameters: the constants `VKL_DEFAULT_BUFFER_*_SIZE` are not in `src/`),
created. -/
def _context_default_buffers (default_size : Nat → Nat) (context : VklContext) : VklContext :=
  { context with
    buffers := fun i =>
      if i < VKL_DEFAULT_BUFFER_COUNT then { size := default_size i, created := true }
      else context.buffers i }

/-- `vkl_context_reset(context)`. -/
def vkl_context_reset (default_size : Nat → Nat) (context : VklContext) : VklContext :=
  _context_default_buffers default_size (_destroy_resources context)

/-- The buffer of a role after the reallocation step of `vkl_alloc_buffers`. -/
def grownBuffer (ctx : VklContext) (b need : Nat) : VklBuffer :=
  if need % U64 > (ctx.buffers b).size then
    vkl_buffer_resize (ctx.buffers b) ((ctx.buffers b).size * 2 % U64)
  else ctx.buffers b

/-! ## Textures -/

/-- Vulkan's `VkImageType`. -/
inductive VkImageType where
  | VK_IMAGE_TYPE_1D
  | VK_IMAGE_TYPE_2D
  | VK_IMAGE_TYPE_3D
  deriving DecidableEq, Repr

/-- Vulkan's `VkFilter`. -/
inductive VkFilter where
  | VK_FILTER_NEAREST
  | VK_FILTER_LINEAR
  deriving DecidableEq, Repr

/-- Vulkan's `VkSamplerAddressMode`. -/
inductive VkSamplerAddressMode where
  | VK_SAMPLER_ADDRESS_MODE_REPEAT
  | VK_SAMPLER_ADDRESS_MODE_MIRRORED_REPEAT
  | VK_SAMPLER_ADDRESS_MODE_CLAMP_TO_EDGE
  | VK_SAMPLER_ADDRESS_MODE_CLAMP_TO_BORDER
  deriving DecidableEq, Repr

/-- Modelled from the spec: `VklTextureAxis`, the three axes of a sampler's address modes
(the enumeration is declared outside `context.c`). -/
inductive VklTextureAxis where
  | VKL_TEXTURE_AXIS_U
  | VKL_TEXTURE_AXIS_V
  | VKL_TEXTURE_AXIS_W
  deriving DecidableEq, Repr

/-- The calls that configure a sampler, as `context.c` makes them. -/
inductive SamplerCall where
  | min_filter (filter : VkFilter)
  | mag_filter (filter : VkFilter)
  | address_mode (axis : VklTextureAxis) (address_mode : VkSamplerAddressMode)
  | create
  deriving DecidableEq, Repr

/-- Modelled from the spec: a `VklSampler`, its filters and its address mode per axis.
The field `calls` is not in the C struct: it lists the configuration calls made on the
sampler, in call order. -/
structure VklSampler where
  min_filter : VkFilter
  mag_filter : VkFilter
  address_modes : VklTextureAxis → VkSamplerAddressMode
  created : Bool
  calls : List SamplerCall

/-- Modelled from the spec: `vkl_sampler_min_filter(sampler, filter)` stores the filter. -/
def vkl_sampler_min_filter (sampler : VklSampler) (filter : VkFilter) : VklSampler :=
  { sampler with min_filter := filter, calls := sampler.calls ++ [.min_filter filter] }

/-- Modelled from the spec: `vkl_sampler_mag_filter(sampler, filter)` stores the filter. -/
def vkl_sampler_mag_filter (sampler : VklSampler) (filter : VkFilter) : VklSampler :=
  { sampler with mag_filter := filter, calls := sampler.calls ++ [.mag_filter filter] }

/-- Modelled from the spec: `vkl_sampler_address_mode(sampler, axis, address_mode)` stores
the address mode of that axis and leaves the other axes as they are. -/
def vkl_sampler_address_mode (sampler : VklSampler) (axis : VklTextureAxis)
    (address_mode : VkSamplerAddressMode) : VklSampler :=
  { sampler with
    address_modes := fun a => if a = axis then address_mode else sampler.address_modes a,
    calls := sampler.calls ++ [.address_mode axis address_mode] }

/-- Modelled from the spec: `vkl_sampler_create(sampler)` creates the sampler object from
the stored configuration. -/
def vkl_sampler_create (sampler : VklSampler) : VklSampler :=
  { sampler with created := true, calls := sampler.calls ++ [.create] }

/-- Modelled from the spec: the fields of `VklImages` that `vkl_new_texture` sets from its
arguments: the image type, the number of images, the format and the size. -/
structure VklImages where
  image_type : VkImageType
  count : Nat
  format : Nat
  size : uvec3
  created : Bool
  deriving DecidableEq, Repr

/-- Modelled from the spec: `vkl_images(gpu, type, count)`, a set of `count` images of
the given type, not yet created. -/
def vkl_images (type : VkImageType) (count : Nat) : VklImages :=
  { image_type := type, count := count, format := 0, size := (0, 0, 0), created := false }

/-- Modelled from the spec: `vkl_images_format(images, format)`. -/
def vkl_images_format (images : VklImages) (format : Nat) : VklImages :=
  { images with format := format }

/-- Modelled from the spec: `vkl_images_size(images, width, height, depth)`. -/
def vkl_images_size (images : VklImages) (width height depth : Nat) : VklImages :=
  { images with size := (width, height, depth) }

/-- Modelled from the spec: `vkl_images_create(images)`. -/
def vkl_images_create (images : VklImages) : VklImages :=
  { images with created := true }

/-- A `VklTexture`: the image and the sampler it points to. -/
structure VklTexture where
  image : VklImages
  sampler : VklSampler

/-- `image_type_from_dims(dims)`; in the default case the code logs an error before it
returns the 2D type. -/
def image_type_from_dims (dims : Nat) : VkImageType :=
  match dims with
  | 1 => .VK_IMAGE_TYPE_1D
  | 2 => .VK_IMAGE_TYPE_2D
  | 3 => .VK_IMAGE_TYPE_3D
  | _ => .VK_IMAGE_TYPE_2D

/-- `vkl_new_texture(context, dims, size, format)`, once `INSTANCE_NEW` has taken the three
slots of the pools: `sampler0` is the sampler `vkl_sampler(gpu)` returns. The tiling,
layout, usage, memory and queue-access settings of the image are constants and are left
out. -/
def vkl_new_texture (sampler0 : VklSampler) (dims : Nat) (size : uvec3) (format : Nat) :
    VklTexture :=
  let image := vkl_images (image_type_from_dims dims) 1
  let sampler := sampler0
  let image := vkl_images_format image format
  let image := vkl_images_size image size.1 size.2.1 size.2.2
  let image := vkl_images_create image
  let sampler := vkl_sampler_min_filter sampler .VK_FILTER_NEAREST
  let sampler := vkl_sampler_mag_filter sampler .VK_FILTER_NEAREST
  let sampler := vkl_sampler_address_mode sampler .VKL_TEXTURE_AXIS_U
    .VK_SAMPLER_ADDRESS_MODE_CLAMP_TO_EDGE
  let sampler := vkl_sampler_address_mode sampler .VKL_TEXTURE_AXIS_V
    .VK_SAMPLER_ADDRESS_MODE_CLAMP_TO_EDGE
  let sampler := vkl_sampler_address_mode sampler .VKL_TEXTURE_AXIS_V
    .VK_SAMPLER_ADDRESS_MODE_CLAMP_TO_EDGE
  let sampler := vkl_sampler_create sampler
  { image := image, sampler := sampler }

/-- Modelled from the spec: a sampler as `vkl_sampler(gpu)` returns it when the struct is
zero-initialised: the first value of each enumeration, nothing created, no call made. -/
def zeroSampler : VklSampler :=
  { min_filter := .VK_FILTER_NEAREST, mag_filter := .VK_FILTER_NEAREST,
    address_modes := fun _ => .VK_SAMPLER_ADDRESS_MODE_REPEAT, created := false, calls := [] }

/-! ## Byte-level effect of the buffer transfers -/

/-- The memories a buffer transfer works on, as arrays of bytes: the host memory,
addressed by the caller's pointers, and the memory of each buffer of the pool, addressed
by the index of the buffer and the byte offset. -/
structure Memory where
  host : Nat → Nat
  buffer : Nat → Nat → Nat

/-- The bytes of host memory from the address `data` on. -/
def Memory.bytes (mem : Memory) (data : Ptr) : Nat → Nat := fun k => mem.host (data + k)

/-- An array that a routine allocates in host memory: its size in bytes and its bytes.
A read past its end is undefined behaviour. -/
structure HostArray where
  size : Nat
  bytes : Nat → Nat

/-- Modelled from the spec: `aligned_repeat(size, data, count, alignment)` returns a
zeroed array of `count` times `alsize` bytes holding `count` copies of the `size` bytes of
`data`, one every `alsize` bytes, where `alsize` is `size` rounded up to `alignment`, or
`size` when `alignment` is 0. -/
def aligned_repeat (size : Nat) (data : Nat → Nat) (count alignment : Nat) : HostArray :=
  let alsize := if alignment > 0 then roundUp size alignment % U64 else size
  { size := alsize * count,
    bytes := fun j => if j / alsize < count ∧ j % alsize < size then data (j % alsize) else 0 }

/-- Modelled from the spec: `vkl_buffer_upload(buffer, offset, size, data)` copies `size`
bytes of the host array `data` into the buffer from `offset` on; a read past the end of
the array and a range that ends past the end of the buffer are undefined behaviour. -/
def vkl_buffer_upload (context : VklContext) (mem : Memory) (buffer offset size : Nat)
    (data : HostArray) : Except Fault Memory :=
  if size > data.size then .error .undefined
  else if offset + size > (context.buffers buffer).size then .error .undefined
  else
    .ok { mem with
          buffer := fun b j =>
            if b = buffer ∧ offset ≤ j ∧ j < offset + size then data.bytes (j - offset)
            else mem.buffer b j }

/-- Modelled from the spec: `vkl_buffer_download(buffer, offset, size, data)` copies
`size` bytes of the buffer from `offset` on to the host address `data`; a range that ends
past the end of the buffer is undefined behaviour. -/
def vkl_buffer_download (context : VklContext) (mem : Memory) (buffer offset size : Nat)
    (data : Ptr) : Except Fault Memory :=
  if offset + size > (context.buffers buffer).size then .error .undefined
  else
    .ok { mem with
          host := fun p =>
            if data ≤ p ∧ p < data + size then mem.buffer buffer (offset + (p - data))
            else mem.host p }

/-- Vulkan's `VkBufferCopy`, one region of a buffer copy. -/
structure VkBufferCopy where
  srcOffset : Nat
  dstOffset : Nat
  size : Nat
  deriving DecidableEq, Repr

/-- The copy of one region from the buffer `src` to the buffer `dst`, as a copy of
bytes; a range that ends past the end of its buffer is undefined behaviour. -/
def copyRegion (context : VklContext) (mem : Memory) (src dst : Nat) (r : VkBufferCopy) :
    Except Fault Memory :=
  if r.srcOffset + r.size > (context.buffers src).size
      ∨ r.dstOffset + r.size > (context.buffers dst).size then .error .undefined
  else
    .ok { mem with
          buffer := fun b j =>
            if b = dst ∧ r.dstOffset ≤ j ∧ j < r.dstOffset + r.size then
              mem.buffer src (r.srcOffset + (j - r.dstOffset))
            else mem.buffer b j }

/-- Vulkan's `vkCmdCopyBuffer(cmd, srcBuffer, dstBuffer, regionCount, pRegions)`, as the
device runs it once the command buffer is submitted: the regions are copied one after
the other. -/
def vkCmdCopyBuffer (context : VklContext) (srcBuffer dstBuffer : Nat) :
    Memory → List VkBufferCopy → Except Fault Memory
  | mem, [] => .ok mem
  | mem, r :: rs =>
    match copyRegion context mem srcBuffer dstBuffer r with
    | .ok mem => vkCmdCopyBuffer context srcBuffer dstBuffer mem rs
    | .error e => .error e

/-- Modelled from the spec:
`vkl_cmd_copy_buffer(cmds, idx, src_buf, src_offset, dst_buf, dst_offset, size)` records
the copy of one region, which the device runs once the command buffer is submitted. -/
def vkl_cmd_copy_buffer (context : VklContext) (mem : Memory) (src_buf src_offset dst_buf
    dst_offset size : Nat) : Except Fault Memory :=
  copyRegion context mem src_buf dst_buf
    { srcOffset := src_offset, dstOffset := dst_offset, size := size }

/-- `process_buffer_upload(context, tr)` on the bytes: the memories after the task, the
recorded copy being run at the submission that ends the routine. A lease is read as the
C struct: the entries of `offsets` that were never set are 0. -/
def Memory.process_buffer_upload (mem : Memory) (context : VklContext) (tr : VklTransfer) :
    Except Fault Memory :=
  if tr.type ≠ VKL_TRANSFER_BUFFER_UPLOAD then .error .assertion
  else
    match tr.u with
    | .buf regions offset size data =>
      let staging := VKL_DEFAULT_BUFFER_STAGING
      let region_size := size
      if ¬ (region_size > 0) then .error .assertion
      else
        let alsize := if regions.aligned_size = 0 then region_size else regions.aligned_size
        if ¬ (alsize > 0) then .error .assertion
        else
          let n := regions.count
          let repeated := aligned_repeat region_size (mem.bytes data) n regions.alignment
          let total_size := (alsize * n) % U64
          match vkl_buffer_upload context mem staging 0 total_size repeated with
          | .error e => .error e
          | .ok mem =>
            let init_offset := regions.offsets.getD 0 0
            let sub_offset := offset
            match regions.buffer with
            | none => .error .assertion
            | some buffer =>
              vkCmdCopyBuffer context staging buffer mem
                ((List.range n).map (fun (i : Nat) =>
                  ({ size := region_size,
                     srcOffset := (sub_offset + i * alsize) % U64,
                     dstOffset := (init_offset + sub_offset + i * alsize) % U64 }
                    : VkBufferCopy)))
    | _ => .error .undefined

/-- `process_buffer_download(context, tr)` on the bytes: the memories after the task. -/
def Memory.process_buffer_download (mem : Memory) (context : VklContext) (tr : VklTransfer) :
    Except Fault Memory :=
  if tr.type ≠ VKL_TRANSFER_BUFFER_DOWNLOAD then .error .assertion
  else
    match tr.u with
    | .buf regions offset0 size data =>
      let staging := VKL_DEFAULT_BUFFER_STAGING
      let offset := regions.offsets.getD 0 0
      let n_regions := regions.count
      if ¬ (∀ i ∈ List.range n_regions, 1 ≤ i →
          regions.offsets.getD i 0 = (offset + i * size) % U64) then .error .assertion
      else
        let offset := (offset + offset0) % U64
        match regions.buffer with
        | none => .error .assertion
        | some buffer =>
          match vkl_cmd_copy_buffer context mem buffer offset staging 0
              ((size * n_regions) % U64) with
          | .error e => .error e
          | .ok mem => vkl_buffer_download context mem staging 0 size data
    | _ => .error .undefined

/-- The host memory with the bytes 7 and 9 at the addresses 100 and 101 and zeroes
elsewhere, and zeroed buffers. -/
def mem79 : Memory :=
  { host := fun p => if p = 100 then 7 else if p = 101 then 9 else 0, buffer := fun _ _ => 0 }

/-! ## Canvas -/

/-- Modelled from the spec: the values of `VklObjectStatus` (declared outside `src/`), in
the order the code relies on: `NONE` is the zero of a slot never used, and
`DESTROYED < INIT < CREATED` are below the statuses of a live object. -/
def VKL_OBJECT_STATUS_NONE : Nat := 0
def VKL_OBJECT_STATUS_DESTROYED : Nat := 1
def VKL_OBJECT_STATUS_INIT : Nat := 2
def VKL_OBJECT_STATUS_CREATED : Nat := 3
def VKL_OBJECT_STATUS_NEED_RECREATE : Nat := 4
def VKL_OBJECT_STATUS_NEED_UPDATE : Nat := 5
def VKL_OBJECT_STATUS_NEED_DESTROY : Nat := 6
def VKL_OBJECT_STATUS_INACTIVE : Nat := 7
def VKL_OBJECT_STATUS_INVALID : Nat := 8

/-- Modelled from the spec: the indices of the default queues (declared outside `src/`),
in the order `context.c` requests them. -/
def VKL_DEFAULT_QUEUE_TRANSFER : Nat := 0
def VKL_DEFAULT_QUEUE_COMPUTE : Nat := 1
def VKL_DEFAULT_QUEUE_RENDER : Nat := 2
def VKL_DEFAULT_QUEUE_PRESENT : Nat := 3

/-- Modelled from the spec: the type of the private event sent to the refill callbacks
(declared outside `src/`); only its difference from the other types matters. -/
def VKL_PRIVATE_EVENT_REFILL : Nat := 1

def VKL_SEMAPHORE_IMG_AVAILABLE : Nat := 0
def VKL_SEMAPHORE_RENDER_FINISHED : Nat := 1
def VKL_FENCE_RENDER_FINISHED : Nat := 0
def VKL_FENCES_FLIGHT : Nat := 1
def VKL_MAX_FRAMES_IN_FLIGHT : Nat := 2

/-- The number of values of a `uint32_t`. -/
def U32 : Nat := 4294967296

/-- The fields of a `VklCommands` that `canvas.c` reads: the status of the object, the
queue and the number of command buffers. -/
structure VklCommands where
  status : Nat
  queue_idx : Nat
  count : Nat
  deriving DecidableEq, Repr

/-- An entry of `canvas_callbacks`: the event type, the function and its user data. -/
structure VklCanvasCallbackRegister where
  type : Nat
  callback : Ptr
  user_data : Ptr
  deriving DecidableEq, Repr

/-- The fields of a `VklPrivateEvent` that `canvas.c` sets: `rf_cmds` and `rf_img_idx`
are `u.rf.cmds` and `u.rf.img_idx`; a command set is named by its slot in
`canvas->commands`. -/
structure VklPrivateEvent where
  type : Nat
  user_data : Ptr
  rf_cmds : List Nat
  rf_img_idx : Nat
  deriving DecidableEq, Repr

/-- The calls that `canvas.c` makes outside itself, with the arguments that vary: the
recording calls on a command buffer (`cmds` is the slot of the command set, `idx` the
command buffer; the framebuffers are always those of the canvas), the call of a
registered callback, the calls of a frame submission, those of a frame, of the
recreation and of the destruction of a canvas (an object of an array is named by its
slot, the two image sets of a canvas by the name of the call), and the call of the fill
callback of a visual. -/
inductive CanvasOp where
  | cmd_reset (cmds : Nat)
  | cmd_begin (cmds idx : Nat)
  | cmd_begin_renderpass (cmds idx renderpass : Nat)
  | cmd_end_renderpass (cmds idx : Nat)
  | cmd_end (cmds idx : Nat)
  | callback (callback : Ptr) (event : VklPrivateEvent)
  | fences_copy (src_fences src_idx dst_fences dst_idx : Nat)
  | submit_reset
  | submit_commands (cmds : Nat)
  | submit_wait_semaphores (semaphores idx : Nat)
  | submit_signal_semaphores (semaphores idx : Nat)
  | submit_send (img_idx fences idx : Nat)
  | swapchain_present (queue_idx semaphores idx : Nat)
  | window_poll_events
  | fences_wait (fences idx : Nat)
  | swapchain_acquire (semaphores idx : Nat)
  | gpu_wait
  | app_wait
  | window_get_size
  | framebuffers_destroy
  | images_destroy_depth
  | images_destroy_swapchain
  | swapchain_recreate
  | images_size_depth (width height depth : Nat)
  | images_create_depth
  | framebuffers_create (renderpass : Nat)
  | renderpass_destroy (renderpass : Nat)
  | swapchain_destroy
  | window_destroy
  | commands_destroy (cmds : Nat)
  | semaphores_destroy (semaphores : Nat)
  | fences_destroy (fences : Nat)
  | fill_callback (fill_callback : Ptr) (cmds cmd_idx : Nat) (user_data : Ptr)
  deriving DecidableEq, Repr

/-- The fields of a `VklCanvas` that the model follows. `commands` is the array of
`max_commands` slots, `canvas_callbacks` the first `canvas_callbacks_count` entries of
the table, `img_idx` is `swapchain.img_idx`, and `swapchain_status`, `window_status` are
the statuses of the swapchain and of the window. The field `trace` is not in the C
struct: it lists the outside calls made, in call order; what they do on the device is not
modelled, and a callback is taken not to change the fields of the model. The fields
`renderpasses`, `semaphores` and `fences` are the statuses of the slots in use of these
arrays, and `clear_color` names the clear color of the render pass 0; when they are not
given they are what `vkl_canvas` creates: one created render pass, the two created
semaphore sets, the created render-finished fences and the initialised in-flight fences,
and the default background, named 0. -/
structure VklCanvas where
  status : Nat
  cur_frame : Nat
  frame_idx : Nat
  img_idx : Nat
  swapchain_status : Nat
  window_status : Nat
  commands : List VklCommands
  canvas_callbacks : List VklCanvasCallbackRegister
  trace : List CanvasOp
  renderpasses : List Nat := [VKL_OBJECT_STATUS_CREATED]
  semaphores : List Nat := [VKL_OBJECT_STATUS_CREATED, VKL_OBJECT_STATUS_CREATED]
  fences : List Nat := [VKL_OBJECT_STATUS_CREATED, VKL_OBJECT_STATUS_INIT]
  clear_color : Nat := 0

/-- The loop of `blank_commands`: `n` iterations from the index `i`. -/
def blank_commands_loop (cmds : Nat) : Nat → Nat → List CanvasOp → List CanvasOp
  | 0, _, trace => trace
  | n + 1, i, trace =>
    blank_commands_loop cmds n (i + 1)
      (trace ++ [.cmd_begin cmds i, .cmd_begin_renderpass cmds i 0, .cmd_end_renderpass cmds i,
        .cmd_end cmds i])

/-- `blank_commands(canvas, cmds)`, for the command set in the slot `cmds`. -/
def blank_commands (canvas : VklCanvas) (cmds : Nat) : VklCanvas :=
  let count := (canvas.commands.getD cmds ⟨0, 0, 0⟩).count
  { canvas with
    trace := blank_commands_loop cmds count 0 (canvas.trace ++ [.cmd_reset cmds]) }

/-- The loop of `_canvas_callbacks` over the entries of the table that are left; `n` is
`n_callbacks`. -/
def _canvas_callbacks_loop (event : VklPrivateEvent) :
    List VklCanvasCallbackRegister → VklCanvas → Int → VklCanvas × Int
  | [], canvas, n => (canvas, n)
  | r :: rest, canvas, n =>
    let event := { event with user_data := r.user_data }
    if r.type = event.type then
      _canvas_callbacks_loop event rest
        { canvas with trace := canvas.trace ++ [.callback r.callback event] } (n + 1)
    else _canvas_callbacks_loop event rest canvas n

/-- `_canvas_callbacks(canvas, event)`: the canvas afterwards and the returned count. -/
def _canvas_callbacks (canvas : VklCanvas) (event : VklPrivateEvent) : VklCanvas × Int :=
  _canvas_callbacks_loop event canvas.canvas_callbacks canvas 0

/-- The first loop of `_refill_canvas` from the slot `i` over the slots that are left:
the command sets stored in `ev.u.rf.cmds`, `acc` being those stored so far. -/
def _refill_canvas_loop : Nat → List VklCommands → List Nat → List Nat
  | _, [], acc => acc
  | i, cmds :: rest, acc =>
    if cmds.status = VKL_OBJECT_STATUS_NONE then acc
    else if cmds.queue_idx = VKL_DEFAULT_QUEUE_RENDER ∧ cmds.status ≥ VKL_OBJECT_STATUS_INIT then
      _refill_canvas_loop (i + 1) rest (acc ++ [i])
    else _refill_canvas_loop (i + 1) rest acc

/-- The last loop of `_refill_canvas`: `blank_commands` on each stored command set. -/
def _refill_canvas_blank : List Nat → VklCanvas → VklCanvas
  | [], canvas => canvas
  | cmds :: rest, canvas => _refill_canvas_blank rest (blank_commands canvas cmds)

/-- `_refill_canvas(canvas)`. -/
def _refill_canvas (canvas : VklCanvas) : Except Fault VklCanvas :=
  let ev : VklPrivateEvent :=
    { type := VKL_PRIVATE_EVENT_REFILL, user_data := NULL, rf_cmds := [], rf_img_idx := 0 }
  let cmds := _refill_canvas_loop 0 canvas.commands []
  let k := cmds.length
  if ¬ (k > 0) then .error .assertion
  else
    let ev := { ev with rf_cmds := cmds, rf_img_idx := canvas.img_idx }
    let r := _canvas_callbacks canvas ev
    if r.2 = 0 then .ok (_refill_canvas_blank cmds r.1)
    else .ok r.1

/-- The loop of `vkl_canvas_frame_submit` from the slot `i` over the slots that are
left: the command sets added to the submission. -/
def vkl_canvas_frame_submit_loop : Nat → List VklCommands → List CanvasOp → List CanvasOp
  | _, [], trace => trace
  | i, cmds :: rest, trace =>
    if cmds.status = VKL_OBJECT_STATUS_NONE then trace
    else if cmds.status = VKL_OBJECT_STATUS_INACTIVE then
      vkl_canvas_frame_submit_loop (i + 1) rest trace
    else if cmds.queue_idx = VKL_DEFAULT_QUEUE_RENDER then
      vkl_canvas_frame_submit_loop (i + 1) rest (trace ++ [.submit_commands i])
    else vkl_canvas_frame_submit_loop (i + 1) rest trace

/-- `vkl_canvas_frame_submit(canvas)`; `cur_frame` is a `uint32_t`. -/
def vkl_canvas_frame_submit (canvas : VklCanvas) : VklCanvas :=
  let f := canvas.cur_frame
  let img_idx := canvas.img_idx
  let trace := canvas.trace ++
    [.fences_copy VKL_FENCE_RENDER_FINISHED f VKL_FENCES_FLIGHT img_idx, .submit_reset]
  let trace := vkl_canvas_frame_submit_loop 0 canvas.commands trace
  let trace := trace ++
    [.submit_wait_semaphores VKL_SEMAPHORE_IMG_AVAILABLE f,
     .submit_signal_semaphores VKL_SEMAPHORE_RENDER_FINISHED f,
     .submit_send img_idx VKL_FENCE_RENDER_FINISHED f,
     .swapchain_present 1 VKL_SEMAPHORE_RENDER_FINISHED f]
  { canvas with trace := trace, cur_frame := (f + 1) % U32 % VKL_MAX_FRAMES_IN_FLIGHT }

/-- Modelled from the spec: `vkl_commands(gpu, queue, count)`, a created set of `count`
command buffers for the queue. -/
def vkl_commands (queue count : Nat) : VklCommands :=
  { status := VKL_OBJECT_STATUS_CREATED, queue_idx := queue, count := count }

/-- `vkl_canvas(gpu, width, height)`, for the fields of the model: the slot of the canvas
and its arrays are zeroed memory, the window and the swapchain are created, the default
transfer and render command sets take the first two slots of `commands`, the canvas is
refilled and then marked created. `VKL_MAX_COMMANDS` and the number `img_count` of
swapchain images are parameters. -/
def vkl_canvas (VKL_MAX_COMMANDS img_count : Nat) : Except Fault VklCanvas :=
  if VKL_MAX_COMMANDS < 2 then .error .undefined
  else
    let canvas : VklCanvas :=
      { status := VKL_OBJECT_STATUS_INIT, cur_frame := 0, frame_idx := 0, img_idx := 0,
        swapchain_status := VKL_OBJECT_STATUS_CREATED,
        window_status := VKL_OBJECT_STATUS_CREATED,
        commands := [vkl_commands VKL_DEFAULT_QUEUE_TRANSFER 1,
                     vkl_commands VKL_DEFAULT_QUEUE_RENDER img_count]
          ++ List.replicate (VKL_MAX_COMMANDS - 2) ⟨VKL_OBJECT_STATUS_NONE, 0, 0⟩,
        canvas_callbacks := [], trace := [] }
    match _refill_canvas canvas with
    | .ok canvas => .ok { canvas with status := VKL_OBJECT_STATUS_CREATED }
    | .error e => .error e

/-- `vkl_canvas_callback(canvas, type, param, callback, user_data)`. -/
def vkl_canvas_callback (canvas : VklCanvas) (type : Nat) (callback user_data : Ptr) :
    VklCanvas :=
  { canvas with
    canvas_callbacks := canvas.canvas_callbacks
      ++ [{ type := type, callback := callback, user_data := user_data }] }

/-! ### Proof devices for the canvas -/

/-- The canvas after `n` consecutive calls of `vkl_canvas_frame_submit`. -/
def submits : Nat → VklCanvas → VklCanvas
  | 0, canvas => canvas
  | n + 1, canvas => submits n (vkl_canvas_frame_submit canvas)

/-- The values of `cur_frame` that `n` consecutive calls of `vkl_canvas_frame_submit`
find, in call order. -/
def submitFrames : Nat → VklCanvas → List Nat
  | 0, _ => []
  | n + 1, canvas => canvas.cur_frame :: submitFrames n (vkl_canvas_frame_submit canvas)

/-- The recording of a blank frame in the `count` command buffers of the command set
`cmds`: per command buffer, begin, begin of the render pass 0, end of the render pass,
end. -/
def blankOps (cmds count : Nat) : List CanvasOp :=
  .cmd_reset cmds ::
    ((List.range count).map (fun (i : Nat) =>
      [CanvasOp.cmd_begin cmds i, .cmd_begin_renderpass cmds i 0, .cmd_end_renderpass cmds i,
        .cmd_end cmds i])).flatten

/-- The command sets of a canvas that a refill fills, from the slot `i` on: the slots
before the first slot never used whose queue is the render queue and whose status is at
least `INIT`. -/
def refillSets : Nat → List VklCommands → List Nat
  | _, [] => []
  | i, cmds :: rest =>
    if cmds.status = VKL_OBJECT_STATUS_NONE then []
    else if cmds.queue_idx = VKL_DEFAULT_QUEUE_RENDER ∧ cmds.status ≥ VKL_OBJECT_STATUS_INIT then
      i :: refillSets (i + 1) rest
    else refillSets (i + 1) rest

/-- The calls of the callbacks of one type a table holds, in registration order, for the
event `event`, each with its own user data. -/
def callbackOps (event : VklPrivateEvent) (table : List VklCanvasCallbackRegister) :
    List CanvasOp :=
  (table.filter (fun r => decide (r.type = event.type))).map
    (fun r => CanvasOp.callback r.callback { event with user_data := r.user_data })

/-- The command sets of a canvas that a frame submission submits, from the slot `i` on:
the slots before the first slot never used that are not inactive and whose queue is the
render queue. -/
def submitSets : Nat → List VklCommands → List Nat
  | _, [] => []
  | i, cmds :: rest =>
    if cmds.status = VKL_OBJECT_STATUS_NONE then []
    else if cmds.status = VKL_OBJECT_STATUS_INACTIVE then submitSets (i + 1) rest
    else if cmds.queue_idx = VKL_DEFAULT_QUEUE_RENDER then i :: submitSets (i + 1) rest
    else submitSets (i + 1) rest

/-! ## Visuals -/

/-- Modelled from the spec: the enumeration `VklDataType` (declared outside `src/`), by
the names that `_get_dtype_size` lists; `other` stands for every value without a case. -/
inductive VklDataType where
  | VKL_DTYPE_CHAR
  | VKL_DTYPE_CVEC2
  | VKL_DTYPE_CVEC3
  | VKL_DTYPE_CVEC4
  | VKL_DTYPE_FLOAT
  | VKL_DTYPE_UINT
  | VKL_DTYPE_INT
  | VKL_DTYPE_VEC2
  | VKL_DTYPE_UVEC2
  | VKL_DTYPE_IVEC2
  | VKL_DTYPE_VEC3
  | VKL_DTYPE_UVEC3
  | VKL_DTYPE_IVEC3
  | VKL_DTYPE_VEC4
  | VKL_DTYPE_UVEC4
  | VKL_DTYPE_IVEC4
  | VKL_DTYPE_DOUBLE
  | VKL_DTYPE_DVEC2
  | VKL_DTYPE_DVEC3
  | VKL_DTYPE_DVEC4
  | other (value : Nat)
  deriving DecidableEq, Repr

/-- `_get_dtype_size(dtype)`; in the default case the code logs an error before it
returns 0. -/
def _get_dtype_size (dtype : VklDataType) : Nat :=
  match dtype with
  | .VKL_DTYPE_CHAR => 1
  | .VKL_DTYPE_CVEC2 => 1 * 2
  | .VKL_DTYPE_CVEC3 => 2 * 3
  | .VKL_DTYPE_CVEC4 => 3 * 4
  | .VKL_DTYPE_FLOAT => 4
  | .VKL_DTYPE_UINT => 4
  | .VKL_DTYPE_INT => 4
  | .VKL_DTYPE_VEC2 => 4 * 2
  | .VKL_DTYPE_UVEC2 => 4 * 2
  | .VKL_DTYPE_IVEC2 => 4 * 2
  | .VKL_DTYPE_VEC3 => 4 * 3
  | .VKL_DTYPE_UVEC3 => 4 * 3
  | .VKL_DTYPE_IVEC3 => 4 * 3
  | .VKL_DTYPE_VEC4 => 4 * 4
  | .VKL_DTYPE_UVEC4 => 4 * 4
  | .VKL_DTYPE_IVEC4 => 4 * 4
  | .VKL_DTYPE_DOUBLE => 8
  | .VKL_DTYPE_DVEC2 => 8 * 2
  | .VKL_DTYPE_DVEC3 => 8 * 3
  | .VKL_DTYPE_DVEC4 => 8 * 4
  | .other _ => 0

/-- Modelled from the spec: the binding `VKL_PROP_BINDING_CPU` of a source (declared
outside `src/`); only its difference from the zero of a new source matters. -/
def VKL_PROP_BINDING_CPU : Nat := 1

/-- The fields of a `VklSource` that `visuals2.c` sets; `a_offset`, `a_size` and `a_data`
are `u.a.offset`, `u.a.size` and `u.a.data`. -/
structure VklSource where
  prop : Nat
  prop_idx : Nat
  dtype : VklDataType
  dtype_size : Nat
  loc : Nat
  binding_idx : Nat
  field_idx : Nat
  offset : Nat
  binding : Nat
  a_offset : Nat
  a_size : Nat
  a_data : Ptr
  deriving DecidableEq, Repr

/-- The sources of a `VklVisual`: the first `source_count` entries of `sources`. -/
structure VklVisual where
  sources : List VklSource
  deriving DecidableEq, Repr

/-- `vkl_visual_prop(visual, prop, idx, dtype, loc, binding_idx, field_idx, offset)`;
the capacity `VKL_MAX_VISUAL_SOURCES` is a parameter. -/
def vkl_visual_prop (VKL_MAX_VISUAL_SOURCES : Nat) (visual : VklVisual) (prop idx : Nat)
    (dtype : VklDataType) (loc binding_idx field_idx offset : Nat) : VklVisual :=
  if visual.sources.length ≥ VKL_MAX_VISUAL_SOURCES then visual
  else
    let source : VklSource :=
      { prop := prop, prop_idx := idx, dtype := dtype, dtype_size := _get_dtype_size dtype,
        loc := loc, binding_idx := binding_idx, field_idx := field_idx, offset := offset,
        binding := 0, a_offset := 0, a_size := 0, a_data := NULL }
    { visual with sources := visual.sources ++ [source] }

/-- The loop of `_get_source` from the index `i` over the sources that are left. -/
def _get_source_loop (type idx : Nat) : Nat → List VklSource → Option Nat
  | _, [] => none
  | i, source :: rest =>
    if source.prop = type ∧ source.prop_idx = idx then some i
    else _get_source_loop type idx (i + 1) rest

/-- `_get_source(visual, type, idx)`: the index of the source found, `none` for NULL. -/
def _get_source (visual : VklVisual) (type idx : Nat) : Option Nat :=
  _get_source_loop type idx 0 visual.sources

/-- `vkl_visual_data_partial(visual, type, idx, first_item, item_count, data)`;
`first_item` and `item_count` are `uint32_t`, the products are `VkDeviceSize`. -/
def vkl_visual_data_partial (visual : VklVisual) (type idx first_item item_count : Nat)
    (data : Ptr) : Except Fault VklVisual :=
  match _get_source visual type idx with
  | none => .error .assertion
  | some i =>
    match visual.sources[i]? with
    | none => .error .undefined
    | some source =>
      if ¬ (source.dtype_size > 0) then .error .assertion
      else
        let source :=
          { source with
            binding := VKL_PROP_BINDING_CPU,
            a_offset := (first_item * source.dtype_size) % U64,
            a_size := (item_count * source.dtype_size) % U64,
            a_data := data }
        .ok { visual with sources := visual.sources.set i source }

/-- The number of components of a data type, by its name. -/
def VklDataType.components : VklDataType → Nat
  | .VKL_DTYPE_CHAR | .VKL_DTYPE_FLOAT | .VKL_DTYPE_UINT | .VKL_DTYPE_INT
  | .VKL_DTYPE_DOUBLE => 1
  | .VKL_DTYPE_CVEC2 | .VKL_DTYPE_VEC2 | .VKL_DTYPE_UVEC2 | .VKL_DTYPE_IVEC2
  | .VKL_DTYPE_DVEC2 => 2
  | .VKL_DTYPE_CVEC3 | .VKL_DTYPE_VEC3 | .VKL_DTYPE_UVEC3 | .VKL_DTYPE_IVEC3
  | .VKL_DTYPE_DVEC3 => 3
  | .VKL_DTYPE_CVEC4 | .VKL_DTYPE_VEC4 | .VKL_DTYPE_UVEC4 | .VKL_DTYPE_IVEC4
  | .VKL_DTYPE_DVEC4 => 4
  | .other _ => 0

/-- The bytes per component of a data type, by its name: 1 for the char types, 4 for
the float, unsigned and int types, 8 for the double types. -/
def VklDataType.componentBytes : VklDataType → Nat
  | .VKL_DTYPE_CHAR | .VKL_DTYPE_CVEC2 | .VKL_DTYPE_CVEC3 | .VKL_DTYPE_CVEC4 => 1
  | .VKL_DTYPE_FLOAT | .VKL_DTYPE_UINT | .VKL_DTYPE_INT
  | .VKL_DTYPE_VEC2 | .VKL_DTYPE_UVEC2 | .VKL_DTYPE_IVEC2
  | .VKL_DTYPE_VEC3 | .VKL_DTYPE_UVEC3 | .VKL_DTYPE_IVEC3
  | .VKL_DTYPE_VEC4 | .VKL_DTYPE_UVEC4 | .VKL_DTYPE_IVEC4 => 4
  | .VKL_DTYPE_DOUBLE | .VKL_DTYPE_DVEC2 | .VKL_DTYPE_DVEC3 | .VKL_DTYPE_DVEC4 => 8
  | .other _ => 0

/-- The byte size of a data type as the specification words it: the number of
components times the bytes per component, 0 for a value without a case. -/
def specDtypeSize (dtype : VklDataType) : Nat := dtype.components * dtype.componentBytes

/-! ## Sequences of calls on the transfer queue of a context -/

/-- A call on the transfer queue of a context: `fifo_enqueue(ctx, transfer)` or the
non-blocking `fifo_dequeue(ctx, false)`. -/
inductive QueueCall where
  | enqueue (transfer : VklTransfer)
  | dequeue

/-- One call: the context after it and the tasks it returned (one for a dequeue). -/
def QueueCall.apply (ctx : VklContext) : QueueCall → Except Fault (VklContext × List VklTransfer)
  | .enqueue transfer =>
    match fifo_enqueue ctx transfer with
    | .ok ctx => .ok (ctx, [])
    | .error e => .error e
  | .dequeue =>
    match fifo_dequeue ctx false with
    | .ok (ctx, tr) => .ok (ctx, [tr])
    | .error e => .error e

/-- A sequence of calls: the final context and the tasks returned by the dequeues. -/
def runQueueCalls : VklContext → List QueueCall → Except Fault (VklContext × List VklTransfer)
  | ctx, [] => .ok (ctx, [])
  | ctx, call :: calls =>
    match call.apply ctx with
    | .ok (ctx1, r1) =>
      match runQueueCalls ctx1 calls with
      | .ok (ctx2, r2) => .ok (ctx2, r1 ++ r2)
      | .error e => .error e
    | .error e => .error e

/-- The tasks passed to the enqueue calls of a sequence, in order. -/
def enqueuedTasks : List QueueCall → List VklTransfer
  | [] => []
  | .enqueue transfer :: calls => transfer :: enqueuedTasks calls
  | .dequeue :: calls => enqueuedTasks calls

/-- The queue as a list of task values, as the specification words it: an enqueue adds
the task at the end; a dequeue on a non-empty list removes the first task and returns
it, marked `true`; a dequeue on the empty list returns the all-zero task, marked
`false`. -/
def taskQueueStep (q : List VklTransfer) :
    QueueCall → List VklTransfer × List (Bool × VklTransfer)
  | .enqueue transfer => (q ++ [transfer], [])
  | .dequeue =>
    match q with
    | [] => ([], [(false, VklTransfer.zero)])
    | tr :: q1 => (q1, [(true, tr)])

/-- A sequence of calls on the list of task values. -/
def taskQueueRun : List VklTransfer → List QueueCall →
    List VklTransfer × List (Bool × VklTransfer)
  | q, [] => (q, [])
  | q, call :: calls =>
    ((taskQueueRun (taskQueueStep q call).1 calls).1,
      (taskQueueStep q call).2 ++ (taskQueueRun (taskQueueStep q call).1 calls).2)

/-- No overflow of a queue of capacity `c`: at every enqueue of the sequence fewer than
`c - 1` tasks are queued. -/
def QueueNoOverflow (c : Int) : List VklTransfer → List QueueCall → Prop
  | _, [] => True
  | q, call :: calls =>
    (match call with
      | .enqueue _ => (q.length : Int) < c - 1
      | .dequeue => True) ∧
    QueueNoOverflow c (taskQueueStep q call).1 calls

/-! ## Canvas: state changes, frame, recreation, destruction, run loop -/

/-- `vkl_canvas_clear_color(canvas, color)`; the color is named by a number. -/
def vkl_canvas_clear_color (canvas : VklCanvas) (color : Nat) : VklCanvas :=
  { canvas with clear_color := color, status := VKL_OBJECT_STATUS_NEED_UPDATE }

/-- `vkl_canvas_to_refill(canvas, value)`. -/
def vkl_canvas_to_refill (canvas : VklCanvas) (_value : Bool) : VklCanvas :=
  { canvas with status := VKL_OBJECT_STATUS_NEED_UPDATE }

/-- `vkl_canvas_to_close(canvas, value)`. -/
def vkl_canvas_to_close (canvas : VklCanvas) (_value : Bool) : VklCanvas :=
  { canvas with status := VKL_OBJECT_STATUS_NEED_DESTROY }

/-- `vkl_visual_fill_event(visual, clear_color, cmds, cmd_idx, viewport, user_data)` of
`visuals2.c`, on the canvas `visual->canvas`: `fill_callback` is `visual->fill_callback`,
whose call is logged. -/
def vkl_visual_fill_event (canvas : VklCanvas) (fill_callback : Ptr) (cmds cmd_idx : Nat)
    (user_data : Ptr) : Except Fault VklCanvas :=
  if fill_callback = NULL then .error .assertion
  else
    .ok { canvas with
          trace := canvas.trace ++ [.fill_callback fill_callback cmds cmd_idx user_data],
          status := VKL_OBJECT_STATUS_NEED_UPDATE }

/-- `vkl_canvas_frame(canvas)`. What `vkl_swapchain_acquire` leaves in the swapchain is
given by `acquire`: the status of the swapchain and the index of the image. -/
def vkl_canvas_frame (canvas : VklCanvas) (acquire : Nat × Nat) : Except Fault VklCanvas :=
  let canvas :=
    { canvas with
      trace := canvas.trace ++ [.fences_wait VKL_FENCE_RENDER_FINISHED canvas.cur_frame] }
  let refilled :=
    if canvas.status = VKL_OBJECT_STATUS_NEED_UPDATE then _refill_canvas canvas else .ok canvas
  match refilled with
  | .error e => .error e
  | .ok canvas =>
    .ok { canvas with
          trace := canvas.trace
            ++ [.swapchain_acquire VKL_SEMAPHORE_IMG_AVAILABLE canvas.cur_frame],
          swapchain_status := acquire.1, img_idx := acquire.2 }

/-- `vkl_canvas_recreate(canvas)`. What `vkl_swapchain_recreate` leaves is given by
`size`, the width and height of the new swapchain images, and by `same_images`, whether
`swapchain->images` still is `framebuffers->attachments[0]`; the status it leaves in the
swapchain is not followed (it is read only after the next acquisition). -/
def vkl_canvas_recreate (canvas : VklCanvas) (size : Nat × Nat) (same_images : Bool) :
    Except Fault VklCanvas :=
  let canvas :=
    { canvas with
      trace := canvas.trace ++
        [CanvasOp.window_get_size, CanvasOp.gpu_wait, CanvasOp.framebuffers_destroy,
         CanvasOp.images_destroy_depth, CanvasOp.images_destroy_swapchain,
         CanvasOp.swapchain_recreate] }
  let width := size.1
  let height := size.2
  if same_images = false then .error .assertion
  else
    let canvas :=
      { canvas with
        trace := canvas.trace ++
          [CanvasOp.images_size_depth width height 1, CanvasOp.images_create_depth,
           CanvasOp.framebuffers_create 0] }
    _refill_canvas canvas

/-- A destruction loop of `vkl_canvas_destroy` from the slot `i` over the statuses of
the slots that are left: it stops at the first slot never used. -/
def vkl_canvas_destroy_loop (destroy : Nat → CanvasOp) :
    Nat → List Nat → List CanvasOp → List CanvasOp
  | _, [], trace => trace
  | i, status :: rest, trace =>
    if status = VKL_OBJECT_STATUS_NONE then trace
    else vkl_canvas_destroy_loop destroy (i + 1) rest (trace ++ [destroy i])

/-- `vkl_canvas_destroy(canvas)`; `none` is the NULL pointer. Modelled from the spec: the
destruction of the swapchain and of the window marks them destroyed, `INSTANCES_DESTROY`
frees an array, of which no slot is left, and `obj_destroyed` marks the canvas
destroyed. -/
def vkl_canvas_destroy (canvas : Option VklCanvas) : Option VklCanvas :=
  match canvas with
  | none => none
  | some canvas =>
    if canvas.status = VKL_OBJECT_STATUS_DESTROYED then some canvas
    else
      let trace := canvas.trace ++ [.images_destroy_depth]
      let trace := vkl_canvas_destroy_loop .renderpass_destroy 0 canvas.renderpasses trace
      let trace := trace ++ [.swapchain_destroy]
      let trace := trace ++ [.framebuffers_destroy]
      let trace := trace ++ [.window_destroy]
      let trace := vkl_canvas_destroy_loop .commands_destroy 0
        (canvas.commands.map (fun c => c.status)) trace
      let trace := vkl_canvas_destroy_loop .semaphores_destroy 0 canvas.semaphores trace
      let trace := vkl_canvas_destroy_loop .fences_destroy 0 canvas.fences trace
      some { canvas with
             trace := trace, renderpasses := [], commands := [], semaphores := [],
             fences := [], swapchain_status := VKL_OBJECT_STATUS_DESTROYED,
             window_status := VKL_OBJECT_STATUS_DESTROYED,
             status := VKL_OBJECT_STATUS_DESTROYED }

/-- What the outside world gives to the processing of one canvas in one tick of the run
loop: what the acquisition leaves in the swapchain, whether the window should close, and
what a recreation of the swapchain leaves. -/
structure CanvasEnv where
  acquire : Nat × Nat
  should_close : Bool
  recreate_size : Nat × Nat
  same_images : Bool

/-- The fields of a `VklGpu` that the run loop reads: its status, the status of its
context, and whether its present queue is its render queue. -/
structure VklGpu where
  status : Nat
  context_status : Nat
  present_is_render : Bool
  deriving DecidableEq, Repr

/-- The calls of the run loop that are not on a canvas. -/
inductive AppOp where
  | transfer_loop (gpu_idx : Nat)
  | gpu_queue_wait (gpu_idx queue_idx : Nat)
  | app_wait
  deriving DecidableEq, Repr

/-- The fields of a `VklApp` that the run loop follows: the array of `max_canvases`
canvas slots and the GPUs. The field `trace` is not in the C struct: it lists the calls
of the run loop that are not on a canvas, in call order. -/
structure VklApp where
  canvases : List VklCanvas
  gpus : List VklGpu
  trace : List AppOp

/-- The body of the canvas loop of `vkl_app_run` for a live canvas, from the polling of
the events on: the canvas afterwards and what is added to `n_canvas_active`. The events
polled are taken not to change the fields of the model. -/
def vkl_app_run_canvas (e : CanvasEnv) (canvas : VklCanvas) : Except Fault (VklCanvas × Nat) :=
  let canvas := { canvas with trace := canvas.trace ++ [.window_poll_events] }
  match vkl_canvas_frame canvas e.acquire with
  | .error err => .error err
  | .ok canvas =>
    if canvas.swapchain_status = VKL_OBJECT_STATUS_INVALID then
      .ok ({ canvas with trace := canvas.trace ++ [.gpu_wait] }, 0)
    else if canvas.swapchain_status = VKL_OBJECT_STATUS_NEED_RECREATE then
      match vkl_canvas_recreate canvas e.recreate_size e.same_images with
      | .error err => .error err
      | .ok canvas => .ok (canvas, 1)
    else
      let canvas :=
        if e.should_close = true then
          { canvas with window_status := VKL_OBJECT_STATUS_NEED_DESTROY }
        else canvas
      let canvas :=
        if canvas.window_status = VKL_OBJECT_STATUS_NEED_DESTROY then
          { canvas with status := VKL_OBJECT_STATUS_NEED_DESTROY }
        else canvas
      if canvas.status = VKL_OBJECT_STATUS_NEED_DESTROY then
        let canvas := { canvas with trace := canvas.trace ++ [.app_wait] }
        match vkl_canvas_destroy (some canvas) with
        | some canvas => .ok (canvas, 0)
        | none => .ok (canvas, 0)
      else
        let canvas := vkl_canvas_frame_submit canvas
        .ok ({ canvas with frame_idx := canvas.frame_idx + 1 }, 1)

/-- The canvas loop of `vkl_app_run` from the slot `canvas_idx` over the slots that are
left: the slots afterwards and `n_canvas_active`, which is `n` before. -/
def vkl_app_run_canvases (env : Nat → CanvasEnv) :
    Nat → List VklCanvas → Nat → Except Fault (List VklCanvas × Nat)
  | _, [], n => .ok ([], n)
  | canvas_idx, canvas :: rest, n =>
    if canvas.status = VKL_OBJECT_STATUS_NONE then .ok (canvas :: rest, n)
    else if canvas.status < VKL_OBJECT_STATUS_CREATED then
      match vkl_app_run_canvases env (canvas_idx + 1) rest n with
      | .ok (rest, n) => .ok (canvas :: rest, n)
      | .error err => .error err
    else
      match vkl_app_run_canvas (env canvas_idx) canvas with
      | .error err => .error err
      | .ok (canvas, k) =>
        match vkl_app_run_canvases env (canvas_idx + 1) rest (n + k) with
        | .ok (rest, n) => .ok (canvas :: rest, n)
        | .error err => .error err

/-- The GPU loop of `vkl_app_run` from the index `gpu_idx` over the GPUs that are left;
the transfer loop is the non-blocking `vkl_transfer_loop(ctx, false)`, logged. -/
def vkl_app_run_gpus : Nat → List VklGpu → List AppOp → List AppOp
  | _, [], trace => trace
  | gpu_idx, gpu :: rest, trace =>
    if gpu.status < VKL_OBJECT_STATUS_CREATED then trace
    else
      let trace :=
        if gpu.context_status ≥ VKL_OBJECT_STATUS_CREATED then
          trace ++ [.transfer_loop gpu_idx]
        else trace
      let trace :=
        if gpu.present_is_render = false then
          trace ++ [.gpu_queue_wait gpu_idx VKL_DEFAULT_QUEUE_PRESENT]
        else trace
      vkl_app_run_gpus (gpu_idx + 1) rest trace

/-- One iteration of the main loop of `vkl_app_run`: the application afterwards and
`n_canvas_active` at the end of the iteration. -/
def vkl_app_run_tick (env : Nat → CanvasEnv) (app : VklApp) : Except Fault (VklApp × Nat) :=
  match vkl_app_run_canvases env 0 app.canvases 0 with
  | .error err => .error err
  | .ok (canvases, n_canvas_active) =>
    .ok ({ app with canvases := canvases, trace := vkl_app_run_gpus 0 app.gpus app.trace },
      n_canvas_active)

/-- The main loop of `vkl_app_run` with `k` iterations left before `iter` reaches
`frame_count`: the application afterwards and, not in the C code, the value of
`n_canvas_active` at the end of each iteration run, in order. -/
def vkl_app_run_loop (env : Nat → Nat → CanvasEnv) :
    Nat → Nat → VklApp → Except Fault (VklApp × List Nat)
  | 0, _, app => .ok (app, [])
  | k + 1, iter, app =>
    match vkl_app_run_tick (env iter) app with
    | .error err => .error err
    | .ok (app, n_canvas_active) =>
      if n_canvas_active = 0 then .ok (app, [n_canvas_active])
      else
        match vkl_app_run_loop env k (iter + 1) app with
        | .ok (app, counts) => .ok (app, n_canvas_active :: counts)
        | .error err => .error err

/-- The largest `uint64_t`. -/
def UINT64_MAX : Nat := 18446744073709551615

/-- `vkl_app_run(app, frame_count)`; `env iter canvas_idx` is what the outside world
gives to the canvas `canvas_idx` in the iteration `iter`. The second component, not in
the C code, lists `n_canvas_active` at the end of each iteration run. -/
def vkl_app_run (env : Nat → Nat → CanvasEnv) (app : VklApp) (frame_count : Nat) :
    Except Fault (VklApp × List Nat) :=
  let frame_count := if frame_count = 0 then UINT64_MAX else frame_count
  if ¬ (frame_count > 0) then .error .assertion
  else
    match vkl_app_run_loop env frame_count 0 app with
    | .error err => .error err
    | .ok (app, counts) => .ok ({ app with trace := app.trace ++ [.app_wait] }, counts)

/-! ### Proof devices for the run loop -/

/-- The kinds of the outside calls of a canvas. -/
inductive OpKind where
  | record
  | callback
  | frame
  | submit
  | swapchain_recreate
  | setup
  | teardown
  | wait
  deriving DecidableEq, Repr

/-- The kind of an outside call: a recording call on a command buffer, the call of a
callback, a call of `vkl_canvas_frame` or the polling of the events, a call of
`vkl_canvas_frame_submit`, the recreation of the swapchain, a call that sizes or creates
an object, a call that destroys one, or a wait. -/
def CanvasOp.kind : CanvasOp → OpKind
  | .cmd_reset _ | .cmd_begin _ _ | .cmd_begin_renderpass _ _ _ | .cmd_end_renderpass _ _
  | .cmd_end _ _ => .record
  | .callback _ _ | .fill_callback _ _ _ _ => .callback
  | .window_poll_events | .fences_wait _ _ | .swapchain_acquire _ _ => .frame
  | .fences_copy _ _ _ _ | .submit_reset | .submit_commands _ | .submit_wait_semaphores _ _
  | .submit_signal_semaphores _ _ | .submit_send _ _ _ | .swapchain_present _ _ _ => .submit
  | .swapchain_recreate => .swapchain_recreate
  | .window_get_size | .images_size_depth _ _ _ | .images_create_depth
  | .framebuffers_create _ => .setup
  | .framebuffers_destroy | .images_destroy_depth | .images_destroy_swapchain
  | .renderpass_destroy _ | .swapchain_destroy | .window_destroy | .commands_destroy _
  | .semaphores_destroy _ | .fences_destroy _ => .teardown
  | .gpu_wait | .app_wait => .wait

/-- The calls a refill makes on a canvas: the calls of the refill callbacks when there
are some, the blank frames of the command sets it fills when there are none. -/
def refillOps (canvas : VklCanvas) : List CanvasOp :=
  if canvas.canvas_callbacks.filter
      (fun r => decide (r.type = VKL_PRIVATE_EVENT_REFILL)) = [] then
    ((refillSets 0 canvas.commands).map (fun c =>
      blankOps c (canvas.commands.getD c ⟨0, 0, 0⟩).count)).flatten
  else
    callbackOps
      { type := VKL_PRIVATE_EVENT_REFILL, user_data := NULL,
        rf_cmds := refillSets 0 canvas.commands, rf_img_idx := canvas.img_idx }
      canvas.canvas_callbacks

/-- The slots a destruction loop of `vkl_canvas_destroy` destroys, from the slot `i`
on: those before the first slot never used. -/
def destroyedSlots : Nat → List Nat → List Nat
  | _, [] => []
  | i, status :: rest =>
    if status = VKL_OBJECT_STATUS_NONE then [] else i :: destroyedSlots (i + 1) rest

/-- The calls `vkl_canvas_frame` makes on a canvas. -/
def frameOps (canvas : VklCanvas) : List CanvasOp :=
  [CanvasOp.fences_wait VKL_FENCE_RENDER_FINISHED canvas.cur_frame]
    ++ (if canvas.status = VKL_OBJECT_STATUS_NEED_UPDATE then refillOps canvas else [])
    ++ [CanvasOp.swapchain_acquire VKL_SEMAPHORE_IMG_AVAILABLE canvas.cur_frame]

/-- The calls `vkl_canvas_frame_submit` makes on a canvas. -/
def submitOps (canvas : VklCanvas) : List CanvasOp :=
  [CanvasOp.fences_copy VKL_FENCE_RENDER_FINISHED canvas.cur_frame VKL_FENCES_FLIGHT
      canvas.img_idx,
    CanvasOp.submit_reset]
    ++ (submitSets 0 canvas.commands).map CanvasOp.submit_commands
    ++ [CanvasOp.submit_wait_semaphores VKL_SEMAPHORE_IMG_AVAILABLE canvas.cur_frame,
        CanvasOp.submit_signal_semaphores VKL_SEMAPHORE_RENDER_FINISHED canvas.cur_frame,
        CanvasOp.submit_send canvas.img_idx VKL_FENCE_RENDER_FINISHED canvas.cur_frame,
        CanvasOp.swapchain_present 1 VKL_SEMAPHORE_RENDER_FINISHED canvas.cur_frame]

/-- The calls `vkl_canvas_recreate` makes on a canvas when the swapchain images come back
with the width and height `size`. -/
def recreateOps (canvas : VklCanvas) (size : Nat × Nat) : List CanvasOp :=
  [CanvasOp.window_get_size, CanvasOp.gpu_wait, CanvasOp.framebuffers_destroy,
    CanvasOp.images_destroy_depth, CanvasOp.images_destroy_swapchain,
    CanvasOp.swapchain_recreate, CanvasOp.images_size_depth size.1 size.2 1,
    CanvasOp.images_create_depth, CanvasOp.framebuffers_create 0]
    ++ refillOps canvas

/-- The calls `vkl_canvas_destroy` makes on a canvas that is not destroyed yet. -/
def destroyOps (canvas : VklCanvas) : List CanvasOp :=
  [CanvasOp.images_destroy_depth]
    ++ (destroyedSlots 0 canvas.renderpasses).map CanvasOp.renderpass_destroy
    ++ [CanvasOp.swapchain_destroy, CanvasOp.framebuffers_destroy, CanvasOp.window_destroy]
    ++ (destroyedSlots 0 (canvas.commands.map (fun c => c.status))).map
        CanvasOp.commands_destroy
    ++ (destroyedSlots 0 canvas.semaphores).map CanvasOp.semaphores_destroy
    ++ (destroyedSlots 0 canvas.fences).map CanvasOp.fences_destroy

/-- The canvas after the polling of the events and `vkl_canvas_frame`, in a tick that
gets `e` from the outside world. -/
def VklCanvas.framed (canvas : VklCanvas) (e : CanvasEnv) : VklCanvas :=
  { canvas with
    trace := canvas.trace ++ [CanvasOp.window_poll_events] ++ frameOps canvas,
    swapchain_status := e.acquire.1, img_idx := e.acquire.2 }

/-- Whether the tick of a canvas that gets past the acquisition destroys it: the window
should close, or the window or the canvas is marked for destruction. -/
@[reducible] def VklCanvas.closing (canvas : VklCanvas) (e : CanvasEnv) : Prop :=
  e.should_close = true ∨ canvas.window_status = VKL_OBJECT_STATUS_NEED_DESTROY ∨
    canvas.status = VKL_OBJECT_STATUS_NEED_DESTROY

theorem VklFifo.window_length (f : VklFifo) (n : Nat) : (f.window n).length = n := by
  simp [VklFifo.window]

theorem VklFifo.window_getElem (f : VklFifo) (n i : Nat) (h : i < (f.window n).length) :
    (f.window n)[i] = f.items (wrapIdx f.capacity (f.tail + (i : Int))) := by
  simp [VklFifo.window]

theorem tmod_succ_eq {c h : Int} (h0 : 0 ≤ h) (hc : h < c) :
    (h + 1).tmod c = if h + 1 = c then 0 else h + 1 := by
  by_cases hh : h + 1 = c
  · rw [if_pos hh, hh]; exact Int.tmod_self
  · rw [if_neg hh]; exact Int.tmod_eq_of_lt (by omega) (by omega)

theorem VklFifo.count_bounds {f : VklFifo} (h : f.Inv) :
    0 ≤ f.count ∧ f.count ≤ f.capacity - 1 := by
  unfold VklFifo.Inv at h
  unfold VklFifo.count
  split <;> omega

theorem VklFifo.count_eq_zero_iff {f : VklFifo} (h : f.Inv) :
    f.count = 0 ↔ f.head = f.tail := by
  unfold VklFifo.Inv at h
  unfold VklFifo.count
  split <;> omega

theorem vkl_fifo_size_eq {f : VklFifo} (h : f.Inv) : vkl_fifo_size f = .ok f.count := by
  have hb := VklFifo.count_bounds h
  unfold VklFifo.count at hb
  unfold vkl_fifo_size VklFifo.count
  rw [if_pos (by omega)]

theorem VklFifo.full_iff {f : VklFifo} (h : f.Inv) :
    (f.head + 1).tmod f.capacity = f.tail ↔ f.count = f.capacity - 1 := by
  unfold VklFifo.Inv at h
  rw [tmod_succ_eq h.2.1 h.2.2.1]
  unfold VklFifo.count
  split <;> split <;> omega

/-- A dequeue on a non-empty queue. -/
theorem vkl_fifo_dequeue_nonempty {f : VklFifo} (h : f.Inv) (hne : f.head ≠ f.tail) (w : Bool) :
    vkl_fifo_dequeue f w
      = .ok ({ f with tail := wrapIdx f.capacity (f.tail + 1) }, f.items f.tail) := by
  unfold VklFifo.Inv at h
  unfold vkl_fifo_dequeue wrapIdx
  simp only [hne, and_false, if_false]
  rw [if_neg (by omega), if_neg (by split <;> omega)]

theorem vkl_fifo_dequeue_empty {f : VklFifo} (he : f.head = f.tail) :
    vkl_fifo_dequeue f false = .ok (f, NULL) := by
  unfold vkl_fifo_dequeue
  simp [he]

theorem VklFifo.storedUpTo_eq_window (n : Nat) :
    ∀ f : VklFifo, f.Inv → f.count ≤ n → VklFifo.storedUpTo n f = f.window f.count.toNat := by
  induction n with
  | zero =>
    intro f h hn
    have := VklFifo.count_bounds h
    have h0 : f.count = 0 := by omega
    simp [VklFifo.storedUpTo, VklFifo.window, h0]
  | succ n ih =>
    intro f h hn
    by_cases he : f.head = f.tail
    · have h0 : f.count = 0 := (VklFifo.count_eq_zero_iff h).2 he
      simp [VklFifo.storedUpTo, VklFifo.window, h0, he]
    · rw [VklFifo.storedUpTo, if_neg he, vkl_fifo_dequeue_nonempty h he]
      simp only []
      have hI : f.Inv := h
      unfold VklFifo.Inv at h
      have hinv1 : VklFifo.Inv { f with tail := wrapIdx f.capacity (f.tail + 1) } := by
        unfold VklFifo.Inv wrapIdx; simp only []; split <;> omega
      have hb := VklFifo.count_bounds hI
      have hnz : f.count ≠ 0 := fun h0 => he ((VklFifo.count_eq_zero_iff hI).1 h0)
      have hc1 : VklFifo.count { f with tail := wrapIdx f.capacity (f.tail + 1) } = f.count - 1 := by
        unfold VklFifo.count wrapIdx; simp only []
        split <;> split <;> split <;> omega
      rw [ih _ hinv1 (by omega), hc1]
      apply List.ext_getElem
      · simp only [List.length_cons, VklFifo.window_length]; omega
      · intro i h1 h2
        simp only [List.length_cons, VklFifo.window_length] at h1 h2
        cases i with
        | zero =>
          rw [List.getElem_cons_zero, VklFifo.window_getElem]
          apply congrArg
          unfold wrapIdx; simp only [Nat.cast_zero, add_zero]; rw [if_neg (by omega)]
        | succ i =>
          rw [List.getElem_cons_succ, VklFifo.window_getElem, VklFifo.window_getElem]
          dsimp only
          have hi : ((i + 1 : Nat) : Int) = (i : Int) + 1 := by push_cast; rfl
          rw [hi]
          apply congrArg
          unfold wrapIdx
          split_ifs <;> omega

theorem VklFifo.stored_eq_window {f : VklFifo} (h : f.Inv) :
    f.stored = f.window f.count.toNat := by
  have hb := VklFifo.count_bounds h
  exact VklFifo.storedUpTo_eq_window _ f h (by omega)

theorem VklFifo.stored_length {f : VklFifo} (h : f.Inv) : (f.stored.length : Int) = f.count := by
  have hb := VklFifo.count_bounds h
  rw [VklFifo.stored_eq_window h, VklFifo.window_length]
  omega

/-- An enqueue on a queue that is not full. -/
theorem vkl_fifo_enqueue_notfull {f : VklFifo} (h : f.Inv) (hnf : f.count < f.capacity - 1)
    (x : Ptr) :
    vkl_fifo_enqueue f x
      = .ok { f with items := fun i => if i = f.head then x else f.items i,
                     head := wrapIdx f.capacity (f.head + 1) } := by
  have hfull := VklFifo.full_iff h
  unfold VklFifo.Inv at h
  have hne : (f.head + 1).tmod f.capacity ≠ f.tail := fun e => by
    have := hfull.1 e; omega
  unfold vkl_fifo_enqueue wrapIdx
  simp only [hne, ne_eq, not_false_eq_true, if_true]
  rw [if_pos (by split <;> omega)]

/-- An enqueue on a full queue. -/
theorem vkl_fifo_enqueue_full {f : VklFifo} (hc : 2 ≤ f.capacity)
    (hfull : (f.head + 1).tmod f.capacity = f.tail) (x : Ptr) :
    vkl_fifo_enqueue f x = .ok { f with head := 0, tail := 0 } := by
  unfold vkl_fifo_enqueue
  simp only [hfull, ne_eq, not_true_eq_false, if_false]
  rw [if_pos (by constructor <;> omega)]

theorem VklFifo.enqueue_inv {f : VklFifo} (h : f.Inv) (x : Ptr) :
    VklFifo.Inv { f with items := fun i => if i = f.head then x else f.items i,
                         head := wrapIdx f.capacity (f.head + 1) } := by
  unfold VklFifo.Inv at h ⊢
  unfold wrapIdx; dsimp only
  split <;> omega

theorem VklFifo.enqueue_count {f : VklFifo} (h : f.Inv) (hnf : f.count < f.capacity - 1)
    (x : Ptr) :
    VklFifo.count { f with items := fun i => if i = f.head then x else f.items i,
                           head := wrapIdx f.capacity (f.head + 1) } = f.count + 1 := by
  unfold VklFifo.Inv at h
  unfold VklFifo.count wrapIdx at *
  dsimp only
  split_ifs at hnf ⊢ <;> omega

theorem VklFifo.enqueue_stored {f : VklFifo} (h : f.Inv) (hnf : f.count < f.capacity - 1)
    (x : Ptr) :
    VklFifo.stored { f with items := fun i => if i = f.head then x else f.items i,
                            head := wrapIdx f.capacity (f.head + 1) } = f.stored ++ [x] := by
  have hb := VklFifo.count_bounds h
  rw [VklFifo.stored_eq_window (VklFifo.enqueue_inv h x), VklFifo.stored_eq_window h,
    VklFifo.enqueue_count h hnf x]
  unfold VklFifo.Inv at h
  apply List.ext_getElem
  · simp only [List.length_append, VklFifo.window_length, List.length_singleton]; omega
  · intro i h1 h2
    simp only [List.length_append, VklFifo.window_length, List.length_singleton] at h1 h2
    rw [VklFifo.window_getElem]
    dsimp only
    by_cases hi : i < f.count.toNat
    · rw [List.getElem_append_left (by rw [VklFifo.window_length]; exact hi),
        VklFifo.window_getElem]
      have hne : wrapIdx f.capacity (f.tail + (i : Int)) ≠ f.head := by
        unfold VklFifo.count at hi hnf hb
        unfold wrapIdx
        split_ifs at hi hnf hb ⊢ <;> omega
      rw [if_neg hne]
    · have hi2 : i = f.count.toNat := by omega
      rw [List.getElem_append_right (by rw [VklFifo.window_length]; omega)]
      simp only [List.getElem_singleton]
      have heq : wrapIdx f.capacity (f.tail + (i : Int)) = f.head := by
        unfold VklFifo.count at hi2 hnf hb
        unfold wrapIdx
        split_ifs at hi2 hnf hb ⊢ <;> omega
      rw [if_pos heq]

theorem VklFifo.stored_of_empty {f : VklFifo} (h : f.Inv) (he : f.head = f.tail) :
    f.stored = [] := by
  rw [VklFifo.stored_eq_window h, (VklFifo.count_eq_zero_iff h).2 he]
  rfl

theorem vkl_fifo_discard_drop {f : VklFifo} (h : f.Inv) (m : Int) (hm0 : m ≠ 0)
    (hm : m < f.count) :
    vkl_fifo_discard f m = .ok { f with tail := discardTail f m } := by
  have hb := VklFifo.count_bounds h
  unfold VklFifo.count at hb hm
  unfold vkl_fifo_discard discardTail
  rw [if_neg hm0]
  dsimp only
  rw [if_neg (by omega), if_pos (by omega)]

theorem vkl_fifo_discard_keep {f : VklFifo} (h : f.Inv) (m : Int)
    (hm : m = 0 ∨ f.count ≤ m) :
    vkl_fifo_discard f m = .ok f := by
  have hb := VklFifo.count_bounds h
  unfold VklFifo.count at hb hm
  unfold vkl_fifo_discard
  by_cases hm0 : m = 0
  · rw [if_pos hm0]
  · rw [if_neg hm0]
    dsimp only
    rw [if_neg (by omega), if_neg (by omega)]

theorem VklFifo.discard_inv {f : VklFifo} (h : f.Inv) (m : Int) (h0 : 0 ≤ m)
    (hm : m < f.count) : VklFifo.Inv { f with tail := discardTail f m } := by
  unfold VklFifo.Inv at h ⊢
  unfold VklFifo.count at hm
  unfold discardTail; dsimp only
  split_ifs at hm ⊢ <;> omega

theorem VklFifo.discard_count {f : VklFifo} (h : f.Inv) (m : Int) (h0 : 0 ≤ m)
    (hm : m < f.count) : VklFifo.count { f with tail := discardTail f m } = m := by
  unfold VklFifo.Inv at h
  unfold VklFifo.count at hm ⊢
  unfold discardTail; dsimp only
  split_ifs at hm ⊢ <;> omega

theorem VklFifo.discard_stored {f : VklFifo} (h : f.Inv) (m : Int) (h0 : 0 ≤ m)
    (hm : m < f.count) :
    VklFifo.stored { f with tail := discardTail f m }
      = f.stored.drop (f.count - m).toNat := by
  rw [VklFifo.stored_eq_window (VklFifo.discard_inv h m h0 hm), VklFifo.stored_eq_window h,
    VklFifo.discard_count h m h0 hm]
  have hb := VklFifo.count_bounds h
  unfold VklFifo.Inv at h
  apply List.ext_getElem
  · simp only [List.length_drop, VklFifo.window_length]; omega
  · intro i h1 h2
    simp only [List.length_drop, VklFifo.window_length] at h1 h2
    rw [List.getElem_drop, VklFifo.window_getElem, VklFifo.window_getElem]
    dsimp only
    apply congrArg
    have hcast : (((f.count - m).toNat + i : Nat) : Int) = f.count - m + (i : Int) := by
      push_cast; omega
    rw [hcast]
    unfold VklFifo.count at hm h2 hb ⊢
    unfold discardTail wrapIdx
    split_ifs at hm h2 hb ⊢ <;> omega

theorem VklFifo.reset_inv {f : VklFifo} (hc : 2 ≤ f.capacity) : (vkl_fifo_reset f).Inv := by
  unfold VklFifo.Inv vkl_fifo_reset; dsimp only; omega

theorem VklFifo.dequeue_stored {f : VklFifo} (h : f.Inv) (hne : f.head ≠ f.tail) :
    f.stored
      = f.items f.tail :: VklFifo.stored { f with tail := wrapIdx f.capacity (f.tail + 1) } := by
  have hI := h
  unfold VklFifo.Inv at h
  have hinv1 : VklFifo.Inv { f with tail := wrapIdx f.capacity (f.tail + 1) } := by
    unfold VklFifo.Inv wrapIdx; dsimp only; split <;> omega
  have hb := VklFifo.count_bounds hI
  have hnz : f.count ≠ 0 := fun h0 => hne ((VklFifo.count_eq_zero_iff hI).1 h0)
  have hc1 : VklFifo.count { f with tail := wrapIdx f.capacity (f.tail + 1) } = f.count - 1 := by
    unfold VklFifo.count wrapIdx; dsimp only
    split_ifs <;> omega
  obtain ⟨n, hn⟩ : ∃ n : Nat, f.capacity.toNat = n + 1 := ⟨f.capacity.toNat - 1, by omega⟩
  have e1 : f.stored = VklFifo.storedUpTo (n + 1) f := by unfold VklFifo.stored; rw [hn]
  rw [e1, VklFifo.storedUpTo, if_neg hne, vkl_fifo_dequeue_nonempty hI hne]
  dsimp only
  rw [VklFifo.storedUpTo_eq_window n _ hinv1 (by omega), VklFifo.stored_eq_window hinv1]

theorem VklFifo.dequeue_inv {f : VklFifo} (h : f.Inv) :
    VklFifo.Inv { f with tail := wrapIdx f.capacity (f.tail + 1) } := by
  unfold VklFifo.Inv at h ⊢
  unfold wrapIdx; dsimp only; split <;> omega

/-- Every call of the code acts on the stored items as `listStep` does, and keeps the
range invariant. -/
theorem FifoCall.apply_refines {f : VklFifo} (h : f.Inv) (call : FifoCall)
    (hm : call.maxSizeNonneg) :
    ∃ f1, call.apply f = .ok (f1, (listStep f.capacity f.stored call).2) ∧ f1.Inv ∧
      f1.capacity = f.capacity ∧ f1.stored = (listStep f.capacity f.stored call).1 := by
  have hlen := VklFifo.stored_length h
  have hb := VklFifo.count_bounds h
  cases call with
  | enqueue x =>
    by_cases hnf : f.count < f.capacity - 1
    · refine ⟨_, ?_, VklFifo.enqueue_inv h x, rfl, ?_⟩
      · simp only [FifoCall.apply, vkl_fifo_enqueue_notfull h hnf x, listStep, hlen, hnf,
          if_true]
      · simp only [listStep, hlen, hnf, if_true]
        exact VklFifo.enqueue_stored h hnf x
    · have hfull : (f.head + 1).tmod f.capacity = f.tail :=
        (VklFifo.full_iff h).2 (by omega)
      have hinv1 : VklFifo.Inv { f with head := 0, tail := 0 } := by
        unfold VklFifo.Inv at h ⊢; dsimp only; omega
      refine ⟨_, ?_, hinv1, rfl, ?_⟩
      · simp only [FifoCall.apply, vkl_fifo_enqueue_full h.1 hfull x, listStep, hlen, hnf,
          if_false]
      · simp only [listStep, hlen, hnf, if_false]
        exact VklFifo.stored_of_empty hinv1 rfl
  | dequeue =>
    by_cases he : f.head = f.tail
    · have hs := VklFifo.stored_of_empty h he
      refine ⟨f, ?_, h, rfl, ?_⟩
      · simp only [FifoCall.apply, vkl_fifo_dequeue_empty he, hs, listStep]
      · simp only [hs, listStep]
    · have hs := VklFifo.dequeue_stored h he
      refine ⟨_, ?_, VklFifo.dequeue_inv h, rfl, ?_⟩
      · simp only [FifoCall.apply, vkl_fifo_dequeue_nonempty h he, hs, listStep]
      · rw [hs]; simp only [listStep]
  | discard m =>
    have h0 : 0 ≤ m := hm
    by_cases hd : m ≠ 0 ∧ m < f.count
    · refine ⟨_, ?_, VklFifo.discard_inv h m h0 hd.2, rfl, ?_⟩
      · simp only [FifoCall.apply, vkl_fifo_discard_drop h m hd.1 hd.2, listStep, hlen, hd,
          ne_eq, not_false_eq_true, and_self, if_true]
      · simp only [listStep, hlen, hd, ne_eq, not_false_eq_true, and_self, if_true]
        exact VklFifo.discard_stored h m h0 hd.2
    · have hk : m = 0 ∨ f.count ≤ m := by
        by_cases hm0 : m = 0
        · exact Or.inl hm0
        · right
          by_contra hlt
          exact hd ⟨hm0, by omega⟩
      refine ⟨f, ?_, h, rfl, ?_⟩
      · simp only [FifoCall.apply, vkl_fifo_discard_keep h m hk, listStep, hlen, hd, if_false]
      · simp only [listStep, hlen, hd, if_false]
  | reset =>
    have hinv1 := VklFifo.reset_inv h.1
    refine ⟨_, ?_, hinv1, rfl, ?_⟩
    · simp only [FifoCall.apply, listStep]
    · simp only [listStep]
      exact VklFifo.stored_of_empty hinv1 rfl

/-- Any sequence of calls (no negative `max_size`) from a queue in range returns, the
final queue is in range with the same capacity, and the stored items and the returned
handles are those of `listRun`. -/
theorem runCalls_refines (calls : List FifoCall) :
    ∀ f : VklFifo, f.Inv → (∀ call ∈ calls, call.maxSizeNonneg) →
      ∃ f1, runCalls f calls = .ok (f1, (listRun f.capacity f.stored calls).2) ∧ f1.Inv ∧
        f1.capacity = f.capacity ∧ f1.stored = (listRun f.capacity f.stored calls).1 := by
  induction calls with
  | nil => intro f h _; exact ⟨f, rfl, h, rfl, rfl⟩
  | cons call calls ih =>
    intro f h hm
    obtain ⟨f1, e1, hinv1, hc1, hs1⟩ :=
      FifoCall.apply_refines h call (hm call (List.mem_cons_self _ _))
    obtain ⟨f2, e2, hinv2, hc2, hs2⟩ :=
      ih f1 hinv1 (fun c hc => hm c (List.mem_cons_of_mem _ hc))
    rw [hc1, hs1] at e2 hs2
    refine ⟨f2, ?_, hinv2, hc2.trans hc1, ?_⟩
    · simp only [runCalls, e1, e2, listRun]
    · simp only [listRun, hs2]

theorem vkl_fifo_ok {MAX c : Int} (h2 : 2 ≤ c) (hM : c ≤ MAX) :
    vkl_fifo MAX c = .ok { capacity := c, head := 0, tail := 0, items := fun _ => NULL } := by
  unfold vkl_fifo
  rw [if_neg (by omega), if_neg (by omega)]

theorem runCalls_fifo_aux (calls : List FifoCall) :
    ∀ f : VklFifo, f.Inv → (∀ call ∈ calls, call.isEnqDeq = true) → NoOverflow f calls →
      ∃ f1 rets, runCalls f calls = .ok (f1, rets) ∧ f1.Inv ∧ f1.capacity = f.capacity ∧
        rets.filter (fun p => decide (p ≠ NULL)) ++ f1.stored.filter (fun p => decide (p ≠ NULL))
          = (f.stored ++ enqueuedItems calls).filter (fun p => decide (p ≠ NULL)) := by
  induction calls with
  | nil => intro f h _ _; exact ⟨f, [], rfl, h, rfl, by simp [enqueuedItems]⟩
  | cons call calls ih =>
    intro f h hed hno
    have hcall := hed call (List.mem_cons_self _ _)
    have hrest : ∀ c ∈ calls, c.isEnqDeq = true := fun c hc => hed c (List.mem_cons_of_mem _ hc)
    cases call with
    | enqueue x =>
      obtain ⟨f1, e1, hinv1, hc1, hs1⟩ := FifoCall.apply_refines h (.enqueue x) trivial
      have hlt : (f.stored.length : Int) < f.capacity - 1 := hno.1
      simp only [listStep, hlt, if_true] at e1 hs1
      have hno1 : NoOverflow f1 calls := by
        have := hno.2; simp only [e1] at this; exact this
      obtain ⟨f2, r2, e2, hinv2, hc2, hp⟩ := ih f1 hinv1 hrest hno1
      refine ⟨f2, [] ++ r2, ?_, hinv2, hc2.trans hc1, ?_⟩
      · simp only [runCalls, e1, e2]
      · rw [hs1] at hp
        simpa [enqueuedItems, List.append_assoc] using hp
    | dequeue =>
      obtain ⟨f1, e1, hinv1, hc1, hs1⟩ := FifoCall.apply_refines h .dequeue trivial
      have hno1 : NoOverflow f1 calls := by
        have := hno.2; simp only [e1] at this; exact this
      obtain ⟨f2, r2, e2, hinv2, hc2, hp⟩ := ih f1 hinv1 hrest hno1
      refine ⟨f2, (listStep f.capacity f.stored .dequeue).2 ++ r2, ?_, hinv2,
        hc2.trans hc1, ?_⟩
      · simp only [runCalls, e1, e2]
      · rw [hs1] at hp
        cases hq : f.stored with
        | nil =>
          rw [hq] at hp
          simp only [listStep] at hp ⊢
          simpa [enqueuedItems, NULL] using hp
        | cons y q1 =>
          rw [hq] at hp
          simp only [listStep] at hp ⊢
          by_cases hy : y = NULL
          · simpa [enqueuedItems, hy, List.filter_cons] using hp
          · simp only [enqueuedItems, List.cons_append, List.nil_append, List.filter_cons, hy,
              ne_eq, not_false_eq_true, decide_True, if_true, List.cons.injEq, true_and]
            exact hp
    | discard m => simp [FifoCall.isEnqDeq] at hcall
    | reset => simp [FifoCall.isEnqDeq] at hcall

theorem runCalls_append (a b : List FifoCall) :
    ∀ f : VklFifo, runCalls f (a ++ b)
      = match runCalls f a with
        | .ok (f1, r1) =>
          match runCalls f1 b with
          | .ok (f2, r2) => .ok (f2, r1 ++ r2)
          | .error e => .error e
        | .error e => .error e := by
  induction a with
  | nil =>
    intro f
    simp only [List.nil_append, runCalls]
    cases runCalls f b with
    | ok p => rfl
    | error e => rfl
  | cons call a ih =>
    intro f
    simp only [List.cons_append, runCalls]
    cases hc : call.apply f with
    | error e => rfl
    | ok p =>
      obtain ⟨f1, r1⟩ := p
      dsimp only
      rw [show a.append b = a ++ b from rfl, ih f1]
      cases runCalls f1 a with
      | error e => rfl
      | ok p1 =>
        obtain ⟨f2, r2⟩ := p1
        dsimp only
        cases runCalls f2 b with
        | error e => rfl
        | ok p2 => simp

/-- Enqueuing the items `xs` one after the other when they all fit. -/
theorem runCalls_enqueues (xs : List Ptr) :
    ∀ f : VklFifo, f.Inv → (f.stored.length : Int) + xs.length ≤ f.capacity - 1 →
      ∃ f1, runCalls f (xs.map FifoCall.enqueue) = .ok (f1, []) ∧ f1.Inv ∧
        f1.capacity = f.capacity ∧ f1.stored = f.stored ++ xs := by
  induction xs with
  | nil => intro f h _; exact ⟨f, rfl, h, rfl, by simp⟩
  | cons x xs ih =>
    intro f h hfit
    simp only [List.length_cons, Nat.cast_add, Nat.cast_one] at hfit
    obtain ⟨f1, e1, hinv1, hc1, hs1⟩ := FifoCall.apply_refines h (.enqueue x) trivial
    have hlt : (f.stored.length : Int) < f.capacity - 1 := by omega
    simp only [listStep, hlt, if_true] at e1 hs1
    obtain ⟨f2, e2, hinv2, hc2, hs2⟩ := ih f1 hinv1 (by
      rw [hs1, hc1]; simp only [List.length_append, List.length_singleton, Nat.cast_add,
        Nat.cast_one]; omega)
    refine ⟨f2, ?_, hinv2, hc2.trans hc1, ?_⟩
    · simp only [List.map_cons, runCalls, e1, e2, List.append_nil]
    · rw [hs2, hs1]; simp

/-- Dequeuing `n` times when at least `n` items are stored. -/
theorem runCalls_dequeues (n : Nat) :
    ∀ f : VklFifo, f.Inv → n ≤ f.stored.length →
      ∃ f1, runCalls f (List.replicate n FifoCall.dequeue) = .ok (f1, f.stored.take n) ∧
        f1.Inv ∧ f1.capacity = f.capacity ∧ f1.stored = f.stored.drop n := by
  induction n with
  | zero => intro f h _; exact ⟨f, rfl, h, rfl, rfl⟩
  | succ n ih =>
    intro f h hn
    obtain ⟨f1, e1, hinv1, hc1, hs1⟩ := FifoCall.apply_refines h .dequeue trivial
    cases hq : f.stored with
    | nil => rw [hq] at hn; simp at hn
    | cons y q1 =>
      rw [hq] at e1 hs1 hn
      simp only [listStep] at e1 hs1
      simp only [List.length_cons] at hn
      obtain ⟨f2, e2, hinv2, hc2, hs2⟩ := ih f1 hinv1 (by rw [hs1]; omega)
      refine ⟨f2, ?_, hinv2, hc2.trans hc1, ?_⟩
      · simp only [List.replicate_succ, runCalls, e1, e2, hs1, List.take_succ_cons,
          List.singleton_append]
      · rw [hs2, hs1]; rfl

theorem emod_succ_eq {c t : Int} (h0 : 0 ≤ t) (hc : t < c) :
    (t + 1) % c = wrapIdx c (t + 1) := by
  unfold wrapIdx
  by_cases hh : t + 1 = c
  · rw [if_pos (by omega), hh, Int.emod_self]; omega
  · rw [if_neg (by omega)]; exact Int.emod_eq_of_lt (by omega) (by omega)

theorem tmod_succ_eq_emod {c t : Int} (h0 : 0 ≤ t) (hc : t < c) :
    (t + 1).tmod c = (t + 1) % c := by
  rw [emod_succ_eq h0 hc, tmod_succ_eq h0 hc]
  unfold wrapIdx
  split_ifs <;> omega

theorem VklFifo.count_eq_emod {f : VklFifo} (h : f.Inv) :
    f.count = (f.head - f.tail) % f.capacity := by
  unfold VklFifo.Inv at h
  unfold VklFifo.count
  split
  · rw [← Int.add_emod_self, Int.emod_eq_of_lt (by omega) (by omega)]
  · rw [Int.emod_eq_of_lt (by omega) (by omega)]

/-! ## Claims on the queue -/

/-- C1. FIFO order: on a queue created with capacity `c`, `2 ≤ c ≤ VKL_MAX_FIFO_CAPACITY`,
every sequence of enqueue and non-blocking dequeue calls without overflow returns, and the
non-NULL handles returned by its dequeues are the first ones of the non-NULL handles
enqueued, in the same order (of all handles enqueued when none of them is NULL);
enqueuing `n ≤ c - 1` items into an empty queue and dequeuing `n` times returns exactly
those items in enqueue order and leaves the queue empty. -/
theorem fifo_order (MAX c : Int) (h2 : 2 ≤ c) (hM : c ≤ MAX) :
    ∃ f0, vkl_fifo MAX c = .ok f0 ∧ f0.Inv ∧ f0.capacity = c ∧ f0.head = f0.tail ∧
      (∀ calls : List FifoCall, (∀ call ∈ calls, call.isEnqDeq = true) → NoOverflow f0 calls →
        ∃ f rets, runCalls f0 calls = .ok (f, rets) ∧
          rets.filter (fun p => decide (p ≠ NULL))
            <+: (enqueuedItems calls).filter (fun p => decide (p ≠ NULL)) ∧
          ((∀ x ∈ enqueuedItems calls, x ≠ NULL) →
            rets.filter (fun p => decide (p ≠ NULL)) <+: enqueuedItems calls)) ∧
      (∀ f : VklFifo, f.Inv → f.capacity = c → f.head = f.tail →
        ∀ xs : List Ptr, (xs.length : Int) ≤ c - 1 →
          ∃ f1, runCalls f (xs.map FifoCall.enqueue ++ List.replicate xs.length FifoCall.dequeue)
              = .ok (f1, xs) ∧ f1.head = f1.tail) := by
  have hinv0 : VklFifo.Inv { capacity := c, head := 0, tail := 0, items := fun _ => NULL } := by
    unfold VklFifo.Inv; dsimp only; omega
  refine ⟨_, vkl_fifo_ok h2 hM, hinv0, rfl, rfl, ?_, ?_⟩
  · intro calls hed hno
    obtain ⟨f, rets, e, _, _, hp⟩ := runCalls_fifo_aux calls _ hinv0 hed hno
    rw [VklFifo.stored_of_empty hinv0 rfl, List.nil_append] at hp
    refine ⟨f, rets, e, ⟨_, hp⟩, fun hnn => ?_⟩
    have hall : (enqueuedItems calls).filter (fun p => decide (p ≠ NULL)) = enqueuedItems calls :=
      List.filter_eq_self.2 (fun x hx => by simpa using hnn x hx)
    rw [hall] at hp
    exact ⟨_, hp⟩
  · intro f hinv hcap hemp xs hlen
    have hs0 := VklFifo.stored_of_empty hinv hemp
    obtain ⟨f1, e1, hinv1, hc1, hs1⟩ := runCalls_enqueues xs f hinv (by
      rw [hs0, hcap]; simpa using hlen)
    rw [hs0, List.nil_append] at hs1
    obtain ⟨f2, e2, hinv2, hc2, hs2⟩ := runCalls_dequeues xs.length f1 hinv1 (by rw [hs1])
    rw [hs1, List.take_length] at e2
    rw [hs1, List.drop_length] at hs2
    refine ⟨f2, ?_, ?_⟩
    · rw [runCalls_append, e1]; dsimp only; rw [e2]; rfl
    · have := VklFifo.stored_length hinv2
      rw [hs2] at this
      exact (VklFifo.count_eq_zero_iff hinv2).1 this.symm

theorem fifo_order_witness :
    (2 : Int) ≤ 3 ∧ (3 : Int) ≤ 8 ∧
    (∃ f rets, runCalls { capacity := 3, head := 0, tail := 0, items := fun _ => NULL }
        [.enqueue 5, .dequeue, .dequeue, .enqueue 6, .enqueue 7, .dequeue] = .ok (f, rets) ∧
      rets.filter (fun p => decide (p ≠ NULL)) <+: [5, 6, 7]) ∧
    ∃ f1, runCalls { capacity := 3, head := 1, tail := 1, items := fun _ => NULL }
        ([5, 6].map FifoCall.enqueue ++ List.replicate 2 FifoCall.dequeue)
      = .ok (f1, [5, 6]) ∧ f1.head = f1.tail := by
  obtain ⟨f0, e0, _, _, _, h1, h2⟩ := fifo_order 8 3 (by decide) (by decide)
  have hf0 : f0 = { capacity := 3, head := 0, tail := 0, items := fun _ => NULL } := by
    have e : vkl_fifo 8 3
        = .ok { capacity := 3, head := 0, tail := 0, items := fun _ => NULL } := rfl
    rw [e] at e0
    injection e0 with e0
    exact e0.symm
  subst hf0
  refine ⟨by decide, by decide, ?_, ?_⟩
  · obtain ⟨f, rets, e, _, hp⟩ := h1
      [.enqueue 5, .dequeue, .dequeue, .enqueue 6, .enqueue 7, .dequeue]
      (by decide)
      (And.intro (by decide) (And.intro trivial (And.intro trivial
        (And.intro (by decide) (And.intro (by decide) (And.intro trivial trivial))))))
    exact ⟨f, rets, e, hp (by decide)⟩
  · exact h2 { capacity := 3, head := 1, tail := 1, items := fun _ => NULL } (by decide) rfl rfl
      [5, 6] (by decide)

/-- C2. Overflow policy: a queue in range stores `capacity - 1` items exactly when
`(head + 1) mod capacity = tail`, which is the test the code makes; the next enqueue then
stores nothing, sets `head = tail = 0`, after which `vkl_fifo_size` returns 0 (neither
`capacity` nor `capacity - 1`), no item is stored any more and a dequeue returns NULL. -/
theorem fifo_overflow_resets (f : VklFifo) (item : Ptr) (h : f.Inv) :
    (((f.head + 1) % f.capacity = f.tail) ↔ (f.stored.length : Int) = f.capacity - 1) ∧
    ((f.head + 1).tmod f.capacity = (f.head + 1) % f.capacity) ∧
    ((f.head + 1) % f.capacity = f.tail →
      ∃ f1, vkl_fifo_enqueue f item = .ok f1 ∧ f1.head = 0 ∧ f1.tail = 0 ∧
        f1.items = f.items ∧ f1.capacity = f.capacity ∧
        vkl_fifo_size f1 = .ok 0 ∧ (0 : Int) ≠ f.capacity ∧ (0 : Int) ≠ f.capacity - 1 ∧
        f1.stored = [] ∧ vkl_fifo_dequeue f1 false = .ok (f1, NULL)) := by
  have het := tmod_succ_eq_emod h.2.1 h.2.2.1
  refine ⟨?_, het, ?_⟩
  · rw [← het, VklFifo.full_iff h, VklFifo.stored_length h]
  · intro hfull
    rw [← het] at hfull
    have hinv1 : VklFifo.Inv { f with head := 0, tail := 0 } := by
      unfold VklFifo.Inv at h ⊢; dsimp only; omega
    refine ⟨_, vkl_fifo_enqueue_full h.1 hfull item, rfl, rfl, rfl, rfl, ?_, ?_, ?_,
      VklFifo.stored_of_empty hinv1 rfl, vkl_fifo_dequeue_empty rfl⟩
    · rw [vkl_fifo_size_eq hinv1]; rfl
    · have := h.1; omega
    · have := h.1; omega

theorem fifo_overflow_resets_witness :
    ∃ f1, vkl_fifo_enqueue { capacity := 4, head := 1, tail := 2, items := fun i => i.toNat + 10 } 9
        = .ok f1 ∧ f1.head = 0 ∧ f1.tail = 0 ∧ vkl_fifo_size f1 = .ok 0 ∧ f1.stored = [] := by
  obtain ⟨f1, e, hh, ht, _, _, hs, _, _, hst, _⟩ :=
    (fifo_overflow_resets { capacity := 4, head := 1, tail := 2, items := fun i => i.toNat + 10 }
      9 (by decide)).2.2 (by decide)
  exact ⟨f1, e, hh, ht, hs, hst⟩

/-- C3. Capacity invariant: on a queue created with capacity `c`,
`2 ≤ c ≤ VKL_MAX_FIFO_CAPACITY`, every finite sequence of enqueue, non-blocking dequeue,
discard (`max_size ≥ 0`) and reset calls returns without a failed assertion; afterwards
`0 ≤ head < c`, `0 ≤ tail < c`, and `vkl_fifo_size` returns `(head - tail) mod c`, a
value in `[0, c]` that is the number of items stored. -/
theorem fifo_capacity_invariant (MAX c : Int) (h2 : 2 ≤ c) (hM : c ≤ MAX)
    (calls : List FifoCall) (hcalls : ∀ call ∈ calls, call.maxSizeNonneg) :
    ∃ f0 f rets, vkl_fifo MAX c = .ok f0 ∧ runCalls f0 calls = .ok (f, rets) ∧
      f.capacity = c ∧ 0 ≤ f.head ∧ f.head < c ∧ 0 ≤ f.tail ∧ f.tail < c ∧
      ∃ s, vkl_fifo_size f = .ok s ∧ s = (f.head - f.tail) % c ∧ 0 ≤ s ∧ s ≤ c ∧
        s = (f.stored.length : Int) := by
  have hinv0 : VklFifo.Inv { capacity := c, head := 0, tail := 0, items := fun _ => NULL } := by
    unfold VklFifo.Inv; dsimp only; omega
  obtain ⟨f, e, hinv, hcap, _⟩ := runCalls_refines calls _ hinv0 hcalls
  have hcap1 : f.capacity = c := hcap
  have hb := VklFifo.count_bounds hinv
  have hI := hinv
  unfold VklFifo.Inv at hinv
  refine ⟨_, f, _, vkl_fifo_ok h2 hM, e, hcap1, ?_, ?_, ?_, ?_, f.count, vkl_fifo_size_eq hI,
    ?_, ?_, ?_, (VklFifo.stored_length hI).symm⟩
  · exact hinv.2.1
  · omega
  · exact hinv.2.2.2.1
  · omega
  · rw [← hcap1]; exact VklFifo.count_eq_emod hI
  · exact hb.1
  · omega

theorem fifo_capacity_invariant_witness :
    (2 : Int) ≤ 3 ∧ (3 : Int) ≤ 8 ∧
    ∃ f0 f rets, vkl_fifo 8 3 = .ok f0 ∧
      runCalls f0 [.enqueue 5, .enqueue 6, .discard 1, .dequeue, .enqueue 7, .enqueue 8,
        .enqueue 9, .reset, .dequeue] = .ok (f, rets) ∧
      f.capacity = 3 ∧ 0 ≤ f.head ∧ f.head < 3 ∧ 0 ≤ f.tail ∧ f.tail < 3 ∧
      ∃ s, vkl_fifo_size f = .ok s ∧ s = (f.head - f.tail) % 3 ∧ 0 ≤ s ∧ s ≤ 3 ∧
        s = (f.stored.length : Int) :=
  ⟨by decide, by decide, fifo_capacity_invariant 8 3 (by decide) (by decide) _ (by
    intro call hc
    simp only [List.mem_cons, List.mem_singleton, List.not_mem_nil, or_false] at hc
    rcases hc with h | h | h | h | h | h | h | h | h <;> subst h <;>
      simp [FifoCall.maxSizeNonneg])⟩

/-- C4, as the claim states it, fails for `max_size = 0`: with capacity 4, after the
three items 5, 6, 7 are enqueued into the fresh queue, `vkl_fifo_discard(fifo, 0)` returns
at once and `vkl_fifo_size` is still 3, not 0; all three items remain stored. -/
theorem fifo_discard_zero_keeps_all :
    ∃ f0 f1 f2, vkl_fifo 8 4 = .ok f0 ∧
      runCalls f0 [.enqueue 5, .enqueue 6, .enqueue 7] = .ok (f1, []) ∧
      vkl_fifo_discard f1 0 = .ok f2 ∧
      vkl_fifo_size f2 = .ok 3 ∧ vkl_fifo_size f2 ≠ .ok 0 ∧ f2.stored = [5, 6, 7] := by
  have h3 : vkl_fifo_size
      { capacity := 4, head := 3, tail := 0,
        items := fun i => if i = 2 then 7 else if i = 1 then 6 else if i = 0 then 5 else NULL }
      = .ok 3 := rfl
  refine ⟨{ capacity := 4, head := 0, tail := 0, items := fun _ => NULL },
    { capacity := 4, head := 3, tail := 0,
      items := fun i => if i = 2 then 7 else if i = 1 then 6 else if i = 0 then 5 else NULL },
    { capacity := 4, head := 3, tail := 0,
      items := fun i => if i = 2 then 7 else if i = 1 then 6 else if i = 0 then 5 else NULL },
    rfl, rfl, rfl, h3, ?_, rfl⟩
  rw [h3]
  intro h
  injection h with h
  exact absurd h (by decide)

/-- C4, amended. Discard policy: after `k` items (`1 ≤ k ≤ capacity - 1`) are enqueued
into an empty queue, `vkl_fifo_discard(max_size)` with `1 ≤ max_size < k` leaves
`vkl_fifo_size = max_size`, and the next `max_size` dequeues return the `max_size` most
recently enqueued items in enqueue order and empty the queue; with `max_size = 0` the call
returns at once and the queue is unchanged; and on any queue in range whose size does not
exceed `max_size`, discard leaves the queue unchanged. -/
theorem fifo_discard_keeps_newest (f : VklFifo) (xs : List Ptr) (h : f.Inv)
    (hemp : f.head = f.tail) (hk : (xs.length : Int) ≤ f.capacity - 1) :
    ∃ f1, runCalls f (xs.map FifoCall.enqueue) = .ok (f1, []) ∧ f1.stored = xs ∧
      (∀ max_size : Int, 1 ≤ max_size → max_size < xs.length →
        ∃ f2 f3, vkl_fifo_discard f1 max_size = .ok f2 ∧ vkl_fifo_size f2 = .ok max_size ∧
          runCalls f2 (List.replicate max_size.toNat FifoCall.dequeue)
            = .ok (f3, xs.drop (xs.length - max_size.toNat)) ∧
          (xs.drop (xs.length - max_size.toNat)).length = max_size.toNat ∧
          f3.head = f3.tail) ∧
      vkl_fifo_discard f1 0 = .ok f1 ∧
      (∀ (g : VklFifo) (max_size s : Int), g.Inv → vkl_fifo_size g = .ok s → s ≤ max_size →
        vkl_fifo_discard g max_size = .ok g) := by
  have hs0 := VklFifo.stored_of_empty h hemp
  obtain ⟨f1, e1, hinv1, hc1, hs1⟩ := runCalls_enqueues xs f h (by rw [hs0]; simpa using hk)
  rw [hs0, List.nil_append] at hs1
  have hlen1 := VklFifo.stored_length hinv1
  rw [hs1] at hlen1
  refine ⟨f1, e1, hs1, ?_, vkl_fifo_discard_keep hinv1 0 (Or.inl rfl), ?_⟩
  · intro m hm1 hmk
    have hmc : m < f1.count := by omega
    have hinv2 := VklFifo.discard_inv hinv1 m (by omega) hmc
    have hcnt2 := VklFifo.discard_count hinv1 m (by omega) hmc
    have hst2 := VklFifo.discard_stored hinv1 m (by omega) hmc
    rw [hs1, ← hlen1] at hst2
    have hidx : ((xs.length : Int) - m).toNat = xs.length - m.toNat := by omega
    rw [hidx] at hst2
    have hlen2 : (xs.drop (xs.length - m.toNat)).length = m.toNat := by
      rw [List.length_drop]; omega
    obtain ⟨f3, e3, hinv3, _, hs3⟩ := runCalls_dequeues m.toNat _ hinv2 (by rw [hst2, hlen2])
    rw [hst2] at e3 hs3
    rw [List.take_of_length_le (by omega)] at e3
    rw [List.drop_eq_nil_of_le (by omega)] at hs3
    refine ⟨_, f3, vkl_fifo_discard_drop hinv1 m (by omega) hmc, ?_, ?_, hlen2, ?_⟩
    · rw [vkl_fifo_size_eq hinv2, hcnt2]
    · exact e3
    · have := VklFifo.stored_length hinv3
      rw [hs3] at this
      exact (VklFifo.count_eq_zero_iff hinv3).1 this.symm
  · intro g m s hg hs hle
    rw [vkl_fifo_size_eq hg] at hs
    injection hs with hs
    exact vkl_fifo_discard_keep hg m (Or.inr (by omega))

theorem fifo_discard_keeps_newest_witness :
    ∃ f1 f2 f3,
      runCalls { capacity := 4, head := 2, tail := 2, items := fun _ => NULL }
        ([5, 6, 7].map FifoCall.enqueue) = .ok (f1, []) ∧
      vkl_fifo_discard f1 2 = .ok f2 ∧ vkl_fifo_size f2 = .ok 2 ∧
      runCalls f2 (List.replicate 2 FifoCall.dequeue) = .ok (f3, [6, 7]) := by
  obtain ⟨f1, e1, _, hd, _, _⟩ :=
    fifo_discard_keeps_newest { capacity := 4, head := 2, tail := 2, items := fun _ => NULL }
      [5, 6, 7] (by decide) rfl (by decide)
  obtain ⟨f2, f3, e2, hs, e3, _, _⟩ := hd 2 (by decide) (by decide)
  exact ⟨f1, f2, f3, e1, e2, hs, e3⟩

/-- C5. Empty dequeue is not an error: a non-blocking dequeue on an empty queue
(`head = tail`) returns NULL and leaves the queue as it is; on a non-empty queue in range
it returns `items[tail]`, advances `tail` by one modulo `capacity`, leaves `head`, the
items and the capacity unchanged, and `vkl_fifo_size` decreases by exactly one. -/
theorem fifo_dequeue_nonblocking (f : VklFifo) :
    (f.head = f.tail → vkl_fifo_dequeue f false = .ok (f, NULL)) ∧
    (f.Inv → f.head ≠ f.tail →
      ∃ f1 s, vkl_fifo_dequeue f false = .ok (f1, f.items f.tail) ∧
        f1.tail = (f.tail + 1) % f.capacity ∧ f1.head = f.head ∧ f1.items = f.items ∧
        f1.capacity = f.capacity ∧
        vkl_fifo_size f = .ok s ∧ vkl_fifo_size f1 = .ok (s - 1)) := by
  refine ⟨fun he => vkl_fifo_dequeue_empty he, fun h hne => ?_⟩
  have hinv1 := VklFifo.dequeue_inv h
  have hc1 : VklFifo.count { f with tail := wrapIdx f.capacity (f.tail + 1) } = f.count - 1 := by
    have hnz : f.count ≠ 0 := fun h0 => hne ((VklFifo.count_eq_zero_iff h).1 h0)
    unfold VklFifo.Inv at h
    unfold VklFifo.count wrapIdx at *; dsimp only
    split_ifs at hnz ⊢ <;> omega
  refine ⟨_, f.count, vkl_fifo_dequeue_nonempty h hne false, ?_, rfl, rfl, rfl,
    vkl_fifo_size_eq h, ?_⟩
  · exact (emod_succ_eq h.2.2.2.1 h.2.2.2.2).symm
  · rw [vkl_fifo_size_eq hinv1, hc1]

theorem fifo_dequeue_nonblocking_witness :
    vkl_fifo_dequeue { capacity := 4, head := 1, tail := 1, items := fun _ => 7 } false
      = .ok ({ capacity := 4, head := 1, tail := 1, items := fun _ => 7 }, NULL) ∧
    ∃ f1 s, vkl_fifo_dequeue { capacity := 4, head := 1, tail := 3, items := fun i => i.toNat + 10 }
        false = .ok (f1, 13) ∧ f1.tail = 0 ∧ f1.head = 1 ∧
      vkl_fifo_size { capacity := 4, head := 1, tail := 3, items := fun i => i.toNat + 10 }
        = .ok s ∧ vkl_fifo_size f1 = .ok (s - 1) := by
  refine ⟨(fifo_dequeue_nonblocking _).1 rfl, ?_⟩
  obtain ⟨f1, s, e, ht, hh, _, _, hs, hs1⟩ :=
    (fifo_dequeue_nonblocking
      { capacity := 4, head := 1, tail := 3, items := fun i => i.toNat + 10 }).2
      (by decide) (by decide)
  exact ⟨f1, s, e, ht, hh, hs, hs1⟩

/-! ## Lemmas on the transfer queue of a context -/

theorem VklFifo.mem_stored {f : VklFifo} (h : f.Inv) {p : Ptr} (hp : p ∈ f.stored) :
    ∃ i : Nat, (i : Int) < f.count ∧ p = f.items (wrapIdx f.capacity (f.tail + (i : Int))) := by
  have hb := VklFifo.count_bounds h
  rw [VklFifo.stored_eq_window h] at hp
  unfold VklFifo.window at hp
  rw [List.mem_map] at hp
  obtain ⟨i, hi, e⟩ := hp
  rw [List.mem_range] at hi
  exact ⟨i, by omega, e.symm⟩

theorem VklFifo.slot_ne_head {f : VklFifo} (h : f.Inv) {i : Nat} (hi : (i : Int) < f.count) :
    wrapIdx f.capacity (f.tail + (i : Int)) ≠ f.head ∧
      0 ≤ wrapIdx f.capacity (f.tail + (i : Int)) := by
  unfold VklFifo.Inv at h
  unfold VklFifo.count at hi
  unfold wrapIdx
  split_ifs at hi ⊢ <;> constructor <;> omega

theorem transfers_addr_sub (j : Int) (h : 0 ≤ j) : ((transfers_addr j : Nat) : Int) - 1 = j := by
  unfold transfers_addr; push_cast; omega

theorem transfers_addr_ne_null (j : Int) : transfers_addr j ≠ NULL := by
  exact Nat.succ_ne_zero _

theorem VklContext.queued_length {ctx : VklContext} (h : ctx.QueueInv) :
    (ctx.queued.length : Int) = ctx.fifo.count := by
  unfold VklContext.queued
  rw [List.length_map]
  exact VklFifo.stored_length h.1

theorem fifo_enqueue_notfull {ctx : VklContext} (h : ctx.QueueInv)
    (hnf : ctx.fifo.count < ctx.fifo.capacity - 1) (t : VklTransfer) :
    fifo_enqueue ctx t = .ok (ctx.pushed t) := by
  have hI := h.1
  unfold VklFifo.Inv at hI
  unfold fifo_enqueue
  rw [if_neg (by omega)]
  dsimp only
  rw [vkl_fifo_enqueue_notfull h.1 hnf]
  rfl

theorem VklContext.pushed_inv {ctx : VklContext} (h : ctx.QueueInv)
    (hnf : ctx.fifo.count < ctx.fifo.capacity - 1) (t : VklTransfer) :
    (ctx.pushed t).QueueInv := by
  refine ⟨VklFifo.enqueue_inv h.1 _, ?_⟩
  intro i hi
  have hc : (ctx.pushed t).fifo.count = ctx.fifo.count + 1 := VklFifo.enqueue_count h.1 hnf _
  rw [hc] at hi
  show (if wrapIdx ctx.fifo.capacity (ctx.fifo.tail + (i : Int)) = ctx.fifo.head
      then transfers_addr ctx.fifo.head
      else ctx.fifo.items (wrapIdx ctx.fifo.capacity (ctx.fifo.tail + (i : Int))))
    = transfers_addr (wrapIdx ctx.fifo.capacity (ctx.fifo.tail + (i : Int)))
  by_cases hs : wrapIdx ctx.fifo.capacity (ctx.fifo.tail + (i : Int)) = ctx.fifo.head
  · rw [if_pos hs, hs]
  · rw [if_neg hs]
    apply h.2 i
    have hI := h.1
    unfold VklFifo.Inv at hI
    unfold VklFifo.count at hi hnf ⊢
    unfold wrapIdx at hs
    split_ifs at hi hnf hs ⊢ <;> omega

theorem VklContext.pushed_queued {ctx : VklContext} (h : ctx.QueueInv)
    (hnf : ctx.fifo.count < ctx.fifo.capacity - 1) (t : VklTransfer) :
    (ctx.pushed t).queued = ctx.queued ++ [t] := by
  have hst : (ctx.pushed t).fifo.stored = ctx.fifo.stored ++ [transfers_addr ctx.fifo.head] :=
    VklFifo.enqueue_stored h.1 hnf _
  unfold VklContext.queued
  rw [hst, List.map_append]
  congr 1
  · apply List.map_congr_left
    intro p hp
    obtain ⟨i, hi, e⟩ := VklFifo.mem_stored h.1 hp
    have hne := VklFifo.slot_ne_head h.1 hi
    rw [e, h.2 i hi]
    unfold VklContext.deref
    rw [transfers_addr_sub _ hne.2]
    show (if wrapIdx ctx.fifo.capacity (ctx.fifo.tail + (i : Int)) = ctx.fifo.head then t
      else ctx.transfers (wrapIdx ctx.fifo.capacity (ctx.fifo.tail + (i : Int)))) = _
    rw [if_neg hne.1]
  · unfold VklContext.deref
    rw [List.map_singleton, transfers_addr_sub _ h.1.2.1]
    show [if ctx.fifo.head = ctx.fifo.head then t else ctx.transfers ctx.fifo.head] = [t]
    rw [if_pos rfl]

theorem fifo_enqueue_full {ctx : VklContext} (h : ctx.QueueInv)
    (hf : ctx.fifo.count = ctx.fifo.capacity - 1) (t : VklTransfer) :
    fifo_enqueue ctx t = .ok (ctx.overflowed t) := by
  have hI := h.1
  unfold VklFifo.Inv at hI
  unfold fifo_enqueue
  rw [if_neg (by omega)]
  dsimp only
  rw [vkl_fifo_enqueue_full h.1.1 ((VklFifo.full_iff h.1).2 hf)]
  rfl

theorem VklContext.overflowed_inv {ctx : VklContext} (h : ctx.QueueInv) (t : VklTransfer) :
    (ctx.overflowed t).QueueInv ∧ (ctx.overflowed t).queued = [] := by
  have hinv1 : VklFifo.Inv { ctx.fifo with head := 0, tail := 0 } := by
    have hI := h.1
    unfold VklFifo.Inv at hI ⊢; dsimp only; omega
  refine ⟨⟨hinv1, ?_⟩, ?_⟩
  · intro i hi
    have h0 : (ctx.overflowed t).fifo.count = 0 := (VklFifo.count_eq_zero_iff hinv1).2 rfl
    rw [h0] at hi; omega
  · unfold VklContext.queued
    have : (ctx.overflowed t).fifo.stored = [] := VklFifo.stored_of_empty hinv1 rfl
    rw [this]; rfl

theorem fifo_dequeue_empty {ctx : VklContext} (he : ctx.fifo.head = ctx.fifo.tail) :
    fifo_dequeue ctx false = .ok (ctx, VklTransfer.zero) := by
  unfold fifo_dequeue
  rw [vkl_fifo_dequeue_empty he]
  simp

theorem fifo_dequeue_nonempty {ctx : VklContext} (h : ctx.QueueInv)
    (hne : ctx.fifo.head ≠ ctx.fifo.tail) (w : Bool) :
    fifo_dequeue ctx w = .ok (ctx.popped, ctx.transfers ctx.fifo.tail) ∧
      ctx.queued = ctx.transfers ctx.fifo.tail :: ctx.popped.queued ∧ ctx.popped.QueueInv := by
  have hI := h.1
  have hnz : ctx.fifo.count ≠ 0 := fun h0 => hne ((VklFifo.count_eq_zero_iff hI).1 h0)
  have hb := VklFifo.count_bounds hI
  have h0 := h.2 0 (by simp only [Nat.cast_zero]; omega)
  have hw0 : wrapIdx ctx.fifo.capacity (ctx.fifo.tail + ((0 : Nat) : Int)) = ctx.fifo.tail := by
    unfold VklFifo.Inv at hI
    unfold wrapIdx; simp only [Nat.cast_zero, add_zero]; rw [if_neg (by omega)]
  rw [hw0] at h0
  refine ⟨?_, ?_, VklFifo.dequeue_inv hI, ?_⟩
  · unfold fifo_dequeue
    rw [vkl_fifo_dequeue_nonempty hI hne]
    dsimp only
    rw [h0, if_neg (transfers_addr_ne_null _)]
    unfold VklContext.deref
    dsimp only
    rw [transfers_addr_sub _ hI.2.2.2.1]
    rfl
  · unfold VklContext.queued
    rw [VklFifo.dequeue_stored hI hne, List.map_cons, h0]
    congr 1
    unfold VklContext.deref
    rw [transfers_addr_sub _ hI.2.2.2.1]
  · intro i hi
    have hc1 : ctx.popped.fifo.count = ctx.fifo.count - 1 := by
      unfold VklFifo.Inv at hI
      unfold VklContext.popped VklFifo.count wrapIdx at *; dsimp only
      split_ifs at hnz ⊢ <;> omega
    rw [hc1] at hi
    have hidx : wrapIdx ctx.popped.fifo.capacity (ctx.popped.fifo.tail + (i : Int))
        = wrapIdx ctx.fifo.capacity (ctx.fifo.tail + ((i + 1 : Nat) : Int)) := by
      unfold VklFifo.Inv at hI
      unfold VklFifo.count at hi
      unfold VklContext.popped wrapIdx; dsimp only; push_cast
      split_ifs at hi ⊢ <;> omega
    rw [hidx]
    exact h.2 (i + 1) (by push_cast; omega)

theorem process_transfer_eq (ctx : VklContext) (tr : VklTransfer) :
    process_transfer ctx tr
      = (ctx.logged tr, if tr.type = VKL_TRANSFER_NONE then 1 else 0) := by
  unfold process_transfer VklContext.logged VklTransfer.known
  simp only [VKL_TRANSFER_NONE, VKL_TRANSFER_TEXTURE_UPLOAD, VKL_TRANSFER_TEXTURE_DOWNLOAD,
    VKL_TRANSFER_BUFFER_UPLOAD, VKL_TRANSFER_BUFFER_DOWNLOAD, VKL_TRANSFER_BUFFER_COPY,
    VKL_TRANSFER_TEXTURE_COPY, process_texture_upload, process_texture_download,
    process_buffer_upload, process_buffer_download, process_buffer_copy, process_texture_copy,
    VklContext.execute, decide_eq_true_eq]
  by_cases h0 : tr.type = 0
  · simp [h0]
  by_cases h4 : tr.type = 4
  · simp [h4]
  by_cases h5 : tr.type = 5
  · simp [h5]
  by_cases h1 : tr.type = 1
  · simp [h1]
  by_cases h2 : tr.type = 2
  · simp [h2]
  by_cases h3 : tr.type = 3
  · simp [h3]
  by_cases h6 : tr.type = 6
  · simp [h6]
  have hnat : ∀ n : Nat, n ≠ 0 → n ≠ 1 → n ≠ 2 → n ≠ 3 → n ≠ 4 → n ≠ 5 → n ≠ 6 →
      ¬ (1 ≤ n ∧ n ≤ 6) := by
    intro n; omega
  have hk : ¬ (1 ≤ tr.type ∧ tr.type ≤ 6) := hnat tr.type h0 h1 h2 h3 h4 h5 h6
  simp [h0, h1, h2, h3, h4, h5, h6, hk]

/-- The non-blocking drain: from a context whose queue holds the tasks `q`, with at least
`q.length + 1` iterations allowed. -/
theorem vkl_transfer_loop_iter_spec (q : List VklTransfer) :
    ∀ (ctx : VklContext) (counter fuel : Nat), ctx.QueueInv → ctx.queued = q →
      q.length + 1 ≤ fuel →
      ∃ ctx1, vkl_transfer_loop_iter false fuel ctx counter
          = .ok (ctx1,
              counter + (q.takeWhile (fun t => decide (t.type ≠ VKL_TRANSFER_NONE))).length + 1) ∧
        ctx1.QueueInv ∧
        ctx1.queued
          = q.drop ((q.takeWhile (fun t => decide (t.type ≠ VKL_TRANSFER_NONE))).length + 1) ∧
        ctx1.handled
          = ctx.handled ++ q.takeWhile (fun t => decide (t.type ≠ VKL_TRANSFER_NONE))
            ++ [(q.drop (q.takeWhile (fun t => decide (t.type ≠ VKL_TRANSFER_NONE))).length).headD
                  VklTransfer.zero] ∧
        ctx1.executed
          = ctx.executed ++ (q.takeWhile (fun t => decide (t.type ≠ VKL_TRANSFER_NONE))).filter
              VklTransfer.known ∧
        ctx.SameResources ctx1 := by
  induction q with
  | nil =>
    intro ctx counter fuel h hq hf
    obtain ⟨k, rfl⟩ : ∃ k, fuel = k + 1 := ⟨fuel - 1, by simp at hf; omega⟩
    have hcnt := VklContext.queued_length h
    rw [hq] at hcnt
    have he : ctx.fifo.head = ctx.fifo.tail :=
      (VklFifo.count_eq_zero_iff h.1).1 (by simpa using hcnt.symm)
    refine ⟨ctx.logged VklTransfer.zero, ?_, h, hq, ?_, ?_, ⟨rfl, rfl, rfl, rfl, rfl, rfl⟩⟩
    · simp only [vkl_transfer_loop_iter, fifo_dequeue_empty he, process_transfer_eq]
      simp [VklTransfer.zero, VKL_TRANSFER_NONE]
    · simp [VklContext.logged]
    · simp [VklContext.logged, VklTransfer.zero, VklTransfer.known]
  | cons t rest ih =>
    intro ctx counter fuel h hq hf
    obtain ⟨k, rfl⟩ : ∃ k, fuel = k + 1 := ⟨fuel - 1, by simp at hf; omega⟩
    have hcnt := VklContext.queued_length h
    rw [hq] at hcnt
    have hne : ctx.fifo.head ≠ ctx.fifo.tail := fun he => by
      have := (VklFifo.count_eq_zero_iff h.1).2 he
      rw [this, List.length_cons] at hcnt; omega
    obtain ⟨hd, hqq, hinv1⟩ := fifo_dequeue_nonempty h hne false
    rw [hq] at hqq
    injection hqq with ht hrest
    rw [← ht] at hd
    by_cases hnone : t.type = VKL_TRANSFER_NONE
    · have htw0 : List.takeWhile (fun t => decide (t.type ≠ VKL_TRANSFER_NONE)) (t :: rest)
          = [] := by
        rw [List.takeWhile_cons]; simp [hnone]
      have hk : t.known = false := by
        unfold VklTransfer.known; rw [hnone]; simp [VKL_TRANSFER_NONE]
      rw [htw0]
      refine ⟨ctx.popped.logged t, ?_, hinv1, ?_, ?_, ?_, ⟨rfl, rfl, rfl, rfl, rfl, rfl⟩⟩
      · simp only [vkl_transfer_loop_iter, hd, process_transfer_eq]
        simp [hnone]
      · simp only [List.length_nil, zero_add, List.drop_succ_cons, List.drop_zero]
        exact hrest.symm
      · simp only [List.length_nil, List.drop_zero, List.headD_cons, List.append_nil]
        rfl
      · show ctx.executed ++ (if t.known = true then [t] else []) = _
        rw [hk]; simp
    · have hinv2 : (ctx.popped.logged t).QueueInv := hinv1
      have hq2 : (ctx.popped.logged t).queued = rest := hrest.symm
      obtain ⟨ctx2, e2, hinv3, hq3, hh3, he3, hs3⟩ :=
        ih (ctx.popped.logged t) (counter + 1) k hinv2 hq2 (by
          simp only [List.length_cons] at hf; omega)
      have htw : List.takeWhile (fun t => decide (t.type ≠ VKL_TRANSFER_NONE)) (t :: rest)
          = t :: List.takeWhile (fun t => decide (t.type ≠ VKL_TRANSFER_NONE)) rest := by
        rw [List.takeWhile_cons]; simp [hnone]
      rw [htw]
      refine ⟨ctx2, ?_, hinv3, ?_, ?_, ?_, hs3⟩
      · simp only [vkl_transfer_loop_iter, hd, process_transfer_eq]
        simp only [hnone, if_false, if_true]
        rw [e2]
        simp only [List.length_cons]
        congr 2
        omega
      · rw [hq3]; simp
      · rw [hh3]; simp only [VklContext.logged, List.append_assoc, List.singleton_append,
          List.cons_append, List.length_cons, List.drop_succ_cons]
        rfl
      · rw [he3]
        show ctx.executed ++ (if t.known = true then [t] else []) ++ _ = _
        by_cases hk : t.known = true
        · simp [List.filter_cons, hk]
        · simp [List.filter_cons, hk]

theorem TransferCall.apply_eq (ctx : VklContext) (call : TransferCall) (hargs : call.argsOk) :
    call.apply ctx = enqueue_transfer ctx (call.task ctx.texture_shape) := by
  cases call with
  | texture_upload_region texture offset shape size data =>
    have h : texture ≠ NULL := hargs
    simp only [TransferCall.apply, vkl_texture_upload_region, h, if_false,
      enqueue_texture_transfer, TransferCall.task]
    cases enqueue_transfer ctx _ <;> rfl
  | texture_upload texture size data =>
    have h : texture ≠ NULL := hargs
    simp only [TransferCall.apply, vkl_texture_upload, vkl_texture_upload_region, h, if_false,
      enqueue_texture_transfer, TransferCall.task]
    cases enqueue_transfer ctx _ <;> rfl
  | texture_download_region texture offset shape size data =>
    have h : texture ≠ NULL := hargs
    simp only [TransferCall.apply, vkl_texture_download_region, h, if_false,
      enqueue_texture_transfer, TransferCall.task]
    cases enqueue_transfer ctx _ <;> rfl
  | texture_download texture size data =>
    have h : texture ≠ NULL := hargs
    simp only [TransferCall.apply, vkl_texture_download, vkl_texture_download_region, h,
      if_false, enqueue_texture_transfer, TransferCall.task]
    cases enqueue_transfer ctx _ <;> rfl
  | buffer_regions_upload regions offset size data =>
    cases regions with
    | none => exact absurd rfl hargs
    | some r =>
      simp only [TransferCall.apply, vkl_buffer_regions_upload, enqueue_regions_transfer,
        TransferCall.task, Option.getD_some]
      cases enqueue_transfer ctx _ <;> rfl
  | buffer_regions_download regions offset size data =>
    cases regions with
    | none => exact absurd rfl hargs
    | some r =>
      simp only [TransferCall.apply, vkl_buffer_regions_download, enqueue_regions_transfer,
        TransferCall.task, Option.getD_some]
      cases enqueue_transfer ctx _ <;> rfl
  | buffer_regions_copy src src_offset dst dst_offset size =>
    have h : src.buffer ≠ none ∧ dst.buffer ≠ none := hargs
    simp only [TransferCall.apply, vkl_buffer_regions_copy, h.1, h.2, if_false,
      TransferCall.task]
  | texture_copy src src_offset dst dst_offset shape =>
    have h : src ≠ NULL ∧ dst ≠ NULL := hargs
    simp only [TransferCall.apply, vkl_texture_copy, h.1, h.2, if_false, TransferCall.task]

theorem TransferCall.task_known (shape : Ptr → uvec3) (call : TransferCall) :
    (call.task shape).known = true ∧ (call.task shape).type ≠ VKL_TRANSFER_NONE := by
  cases call <;> refine ⟨rfl, ?_⟩ <;>
    simp [TransferCall.task, VKL_TRANSFER_NONE, VKL_TRANSFER_TEXTURE_UPLOAD,
      VKL_TRANSFER_TEXTURE_DOWNLOAD, VKL_TRANSFER_BUFFER_UPLOAD, VKL_TRANSFER_BUFFER_DOWNLOAD,
      VKL_TRANSFER_BUFFER_COPY, VKL_TRANSFER_TEXTURE_COPY]

theorem enqueue_transfer_notfull {ctx : VklContext} (h : ctx.QueueInv)
    (hnf : ctx.fifo.count < ctx.fifo.capacity - 1) (t : VklTransfer) :
    enqueue_transfer ctx t
      = .ok (if ctx.transfer_mode = VKL_TRANSFER_MODE_SYNC then (ctx.pushed t).logged t
             else ctx.pushed t) := by
  unfold enqueue_transfer
  rw [fifo_enqueue_notfull h hnf]
  dsimp only
  have hm : (ctx.pushed t).transfer_mode = ctx.transfer_mode := rfl
  rw [hm, process_transfer_eq]
  split <;> rfl

theorem enqueue_transfer_full {ctx : VklContext} (h : ctx.QueueInv)
    (hf : ctx.fifo.count = ctx.fifo.capacity - 1) (t : VklTransfer) :
    enqueue_transfer ctx t
      = .ok (if ctx.transfer_mode = VKL_TRANSFER_MODE_SYNC then (ctx.overflowed t).logged t
             else ctx.overflowed t) := by
  unfold enqueue_transfer
  rw [fifo_enqueue_full h hf]
  dsimp only
  have hm : (ctx.overflowed t).transfer_mode = ctx.transfer_mode := rfl
  rw [hm, process_transfer_eq]
  split <;> rfl

/-- A sequence of API calls that fits in the queue: every call pushes its task, and in
synchronous mode also processes it. -/
theorem runTransferCalls_spec (calls : List TransferCall) :
    ∀ ctx : VklContext, ctx.QueueInv → (∀ call ∈ calls, call.argsOk) →
      (ctx.queued.length : Int) + calls.length ≤ ctx.fifo.capacity - 1 →
      ∃ ctx1, runTransferCalls ctx calls = .ok ctx1 ∧ ctx1.QueueInv ∧
        ctx1.fifo.capacity = ctx.fifo.capacity ∧
        ctx1.queued = ctx.queued ++ calls.map (TransferCall.task ctx.texture_shape) ∧
        ctx.SameResources ctx1 ∧
        ctx1.handled = ctx.handled ++
          (if ctx.transfer_mode = VKL_TRANSFER_MODE_SYNC
            then calls.map (TransferCall.task ctx.texture_shape) else []) ∧
        ctx1.executed = ctx.executed ++
          (if ctx.transfer_mode = VKL_TRANSFER_MODE_SYNC
            then calls.map (TransferCall.task ctx.texture_shape) else []) := by
  induction calls with
  | nil =>
    intro ctx h _ _
    exact ⟨ctx, rfl, h, rfl, by simp, ⟨rfl, rfl, rfl, rfl, rfl, rfl⟩, by simp, by simp⟩
  | cons call calls ih =>
    intro ctx h hargs hfit
    have hlen := VklContext.queued_length h
    simp only [List.length_cons, Nat.cast_add, Nat.cast_one] at hfit
    have hnf : ctx.fifo.count < ctx.fifo.capacity - 1 := by omega
    have hk := (TransferCall.task_known ctx.texture_shape call).1
    have hpi := VklContext.pushed_inv h hnf (call.task ctx.texture_shape)
    have hpq := VklContext.pushed_queued h hnf (call.task ctx.texture_shape)
    have e1 := TransferCall.apply_eq ctx call (hargs call (List.mem_cons_self _ _))
    rw [enqueue_transfer_notfull h hnf] at e1
    have hrest : ∀ c ∈ calls, c.argsOk := fun c hc => hargs c (List.mem_cons_of_mem _ hc)
    by_cases hs : ctx.transfer_mode = VKL_TRANSFER_MODE_SYNC
    · rw [if_pos hs] at e1
      have hinv1 : ((ctx.pushed (call.task ctx.texture_shape)).logged
          (call.task ctx.texture_shape)).QueueInv := hpi
      have hq1 : ((ctx.pushed (call.task ctx.texture_shape)).logged
          (call.task ctx.texture_shape)).queued
          = ctx.queued ++ [call.task ctx.texture_shape] := hpq
      obtain ⟨ctx2, e2, hinv2, hc2, hq2, hs2, hh2, he2⟩ := ih _ hinv1 hrest (by
        rw [hq1]
        simp only [List.length_append, List.length_singleton, Nat.cast_add, Nat.cast_one]
        show _ ≤ ctx.fifo.capacity - 1
        omega)
      have hm1 : ((ctx.pushed (call.task ctx.texture_shape)).logged
          (call.task ctx.texture_shape)).transfer_mode = VKL_TRANSFER_MODE_SYNC := hs
      have hsh : ((ctx.pushed (call.task ctx.texture_shape)).logged
          (call.task ctx.texture_shape)).texture_shape = ctx.texture_shape := rfl
      rw [hm1, if_pos rfl, hsh] at hh2 he2
      rw [hsh, hq1] at hq2
      refine ⟨ctx2, ?_, hinv2, hc2, ?_, hs2, ?_, ?_⟩
      · simp only [runTransferCalls, e1, e2]
      · rw [hq2]; simp
      · rw [hh2, if_pos hs]
        show (ctx.handled ++ [_]) ++ _ = _
        simp
      · rw [he2, if_pos hs]
        show (ctx.executed ++ (if _ then [_] else [])) ++ _ = _
        rw [if_pos hk]
        simp
    · rw [if_neg hs] at e1
      obtain ⟨ctx2, e2, hinv2, hc2, hq2, hs2, hh2, he2⟩ := ih _ hpi hrest (by
        rw [hpq]
        simp only [List.length_append, List.length_singleton, Nat.cast_add, Nat.cast_one]
        show _ ≤ ctx.fifo.capacity - 1
        omega)
      have hm1 : (ctx.pushed (call.task ctx.texture_shape)).transfer_mode
          ≠ VKL_TRANSFER_MODE_SYNC := hs
      have hsh : (ctx.pushed (call.task ctx.texture_shape)).texture_shape
          = ctx.texture_shape := rfl
      rw [if_neg hm1] at hh2 he2
      rw [hsh, hpq] at hq2
      refine ⟨ctx2, ?_, hinv2, hc2, ?_, hs2, ?_, ?_⟩
      · simp only [runTransferCalls, e1, e2]
      · rw [hq2]; simp
      · rw [hh2, if_neg hs]; rfl
      · rw [he2, if_neg hs]; rfl

theorem takeWhile_eq_self_of_all {α : Type} (p : α → Bool) (l : List α)
    (h : ∀ x ∈ l, p x = true) : l.takeWhile p = l := by
  induction l with
  | nil => rfl
  | cons x l ih =>
    rw [List.takeWhile_cons, h x (List.mem_cons_self _ _)]
    simp only [if_true]
    rw [ih (fun y hy => h y (List.mem_cons_of_mem _ hy))]

theorem tasks_filter_known (shape : Ptr → uvec3) (calls : List TransferCall) :
    (calls.map (TransferCall.task shape)).filter VklTransfer.known
      = calls.map (TransferCall.task shape) :=
  List.filter_eq_self.2 (fun t ht => by
    rw [List.mem_map] at ht
    obtain ⟨c, _, rfl⟩ := ht
    exact (TransferCall.task_known shape c).1)

/-- Enqueue calls followed by one non-blocking drain, in either mode. -/
theorem enqueue_then_drain (ctx : VklContext) (calls : List TransferCall) (fuel : Nat)
    (h : ctx.QueueInv) (hemp : ctx.queued = []) (hargs : ∀ call ∈ calls, call.argsOk)
    (hfit : (calls.length : Int) ≤ ctx.fifo.capacity - 1) (hfuel : calls.length + 1 ≤ fuel) :
    ∃ ctx1 ctx2 n, runTransferCalls ctx calls = .ok ctx1 ∧
      vkl_transfer_loop fuel ctx1 false = .ok (ctx2, n) ∧ ctx2.queued = [] ∧
      (ctx.transfer_mode ≠ VKL_TRANSFER_MODE_SYNC →
        ctx2.executed = ctx.executed ++ calls.map (TransferCall.task ctx.texture_shape) ∧
        ctx2.handled = ctx.handled ++ calls.map (TransferCall.task ctx.texture_shape)
          ++ [VklTransfer.zero]) ∧
      (ctx.transfer_mode = VKL_TRANSFER_MODE_SYNC →
        ctx2.executed = ctx.executed ++ calls.map (TransferCall.task ctx.texture_shape)
          ++ calls.map (TransferCall.task ctx.texture_shape) ∧
        ctx2.handled = ctx.handled ++ calls.map (TransferCall.task ctx.texture_shape)
          ++ calls.map (TransferCall.task ctx.texture_shape) ++ [VklTransfer.zero]) := by
  obtain ⟨ctx1, e1, hinv1, _, hq1, _, hh1, he1⟩ := runTransferCalls_spec calls ctx h hargs (by
    rw [hemp]; simpa using hfit)
  rw [hemp, List.nil_append] at hq1
  obtain ⟨ctx2, e2, _, hq2, hh2, he2, _⟩ := vkl_transfer_loop_iter_spec _ ctx1 0 fuel hinv1 hq1
    (by rw [List.length_map]; exact hfuel)
  have htw : (calls.map (TransferCall.task ctx.texture_shape)).takeWhile
      (fun t => decide (t.type ≠ VKL_TRANSFER_NONE))
      = calls.map (TransferCall.task ctx.texture_shape) :=
    takeWhile_eq_self_of_all _ _ (fun t ht => by
      rw [List.mem_map] at ht
      obtain ⟨c, _, rfl⟩ := ht
      simpa using (TransferCall.task_known ctx.texture_shape c).2)
  rw [htw] at hq2 hh2 he2
  rw [tasks_filter_known] at he2
  rw [List.drop_length] at hh2
  refine ⟨ctx1, ctx2, _, e1, e2, ?_, ?_, ?_⟩
  · rw [hq2]; simp
  · intro hm
    rw [if_neg hm, List.append_nil] at hh1 he1
    rw [he2, hh2, hh1, he1]
    exact ⟨rfl, rfl⟩
  · intro hm
    rw [if_pos hm] at hh1 he1
    rw [he2, hh2, hh1, he1]
    exact ⟨rfl, rfl⟩

/-- C6 fails in synchronous mode: one `vkl_buffer_regions_upload` on a fresh context set
to synchronous mode executes its task inline and leaves it in the queue, and the
non-blocking drain that `vkl_app_run` makes each tick executes the same task again, so the
task is passed to `process_transfer`, and executed, twice. -/
theorem transfer_sync_executes_twice :
    ∃ ctx0 ctx1 ctx2 n,
      vkl_context 8 8 (fun _ => 1024) 16 (fun _ => (1, 1, 1)) = .ok ctx0 ∧
      vkl_buffer_regions_upload (vkl_transfer_mode ctx0 VKL_TRANSFER_MODE_SYNC)
        (some ⟨some 1, 1, [0], 4, 0, 0⟩) 0 4 77 = .ok ctx1 ∧
      ctx1.executed = [⟨VKL_TRANSFER_BUFFER_UPLOAD, .buf ⟨some 1, 1, [0], 4, 0, 0⟩ 0 4 77⟩] ∧
      ctx1.queued = [⟨VKL_TRANSFER_BUFFER_UPLOAD, .buf ⟨some 1, 1, [0], 4, 0, 0⟩ 0 4 77⟩] ∧
      vkl_transfer_loop 2 ctx1 false = .ok (ctx2, n) ∧
      ctx2.executed = [⟨VKL_TRANSFER_BUFFER_UPLOAD, .buf ⟨some 1, 1, [0], 4, 0, 0⟩ 0 4 77⟩,
                       ⟨VKL_TRANSFER_BUFFER_UPLOAD, .buf ⟨some 1, 1, [0], 4, 0, 0⟩ 0 4 77⟩] ∧
      ctx2.handled = [⟨VKL_TRANSFER_BUFFER_UPLOAD, .buf ⟨some 1, 1, [0], 4, 0, 0⟩ 0 4 77⟩,
                      ⟨VKL_TRANSFER_BUFFER_UPLOAD, .buf ⟨some 1, 1, [0], 4, 0, 0⟩ 0 4 77⟩,
                      VklTransfer.zero] :=
  ⟨_, _, _, _, rfl, rfl, rfl, rfl, rfl, rfl, rfl⟩

theorem VklContext.logged_executed (ctx : VklContext) {t : VklTransfer} (hk : t.known = true) :
    (ctx.logged t).executed = ctx.executed ++ [t] := by
  unfold VklContext.logged
  simp only [hk, if_true]

/-- The context `vkl_context` creates has an empty transfer queue in range. -/
theorem vkl_context_ok (MAX : Int) (nb : Nat) (ds : Nat → Nat) (al : Nat) (sh : Ptr → uvec3)
    (h2 : 2 ≤ MAX) :
    ∃ ctx, vkl_context MAX nb ds al sh = .ok ctx ∧ ctx.QueueInv ∧ ctx.queued = [] ∧
      ctx.fifo.capacity = MAX ∧ ctx.handled = [] ∧ ctx.executed = [] ∧
      ctx.texture_shape = sh ∧ ctx.alignment = al ∧ ctx.max_buffers = nb ∧
      ctx.allocated_sizes = fun _ => 0 := by
  have hinv0 : VklFifo.Inv { capacity := MAX, head := 0, tail := 0, items := fun _ => NULL } := by
    unfold VklFifo.Inv; dsimp only; omega
  refine ⟨_, by unfold vkl_context; rw [vkl_fifo_ok h2 (le_refl _)], ⟨hinv0, ?_⟩, ?_, rfl, rfl,
    rfl, rfl, rfl, rfl, rfl⟩
  · intro i hi
    have h0 : VklFifo.count { capacity := MAX, head := 0, tail := 0, items := fun _ => NULL }
        = 0 := (VklFifo.count_eq_zero_iff hinv0).2 rfl
    rw [h0] at hi; omega
  · unfold VklContext.queued
    have : VklFifo.stored { capacity := MAX, head := 0, tail := 0, items := fun _ => NULL }
        = [] := VklFifo.stored_of_empty hinv0 rfl
    rw [this]; rfl

/-- What a call of `vkl_alloc_buffers` on a created buffer that returns has done. -/
theorem vkl_alloc_buffers_ok {ctx ctx1 : VklContext} {b count size : Nat}
    {regions : VklBufferRegions} (hb : b < ctx.max_buffers)
    (hcr : (ctx.buffers b).created = true)
    (hok : vkl_alloc_buffers ctx b count size = .ok (ctx1, regions)) :
    0 < count ∧ 0 < size ∧
    regions = vkl_buffer_regions b count (ctx.allocated_sizes b) size
      (if b = VKL_DEFAULT_BUFFER_UNIFORM then ctx.alignment else 0) ∧
    ctx1.allocated_sizes = (fun i => if i = b
      then (ctx.allocated_sizes b + regions.stride * count) % U64
      else ctx.allocated_sizes i) ∧
    (ctx.allocated_sizes b + regions.stride * count) % U64 ≤ (ctx1.buffers b).size ∧
    (∀ i, i ≠ b → ctx1.buffers i = ctx.buffers i) ∧
    ctx1.buffers b =
      (if (ctx.allocated_sizes b + regions.stride * count) % U64 > (ctx.buffers b).size
        then vkl_buffer_resize (ctx.buffers b) ((ctx.buffers b).size * 2 % U64)
        else ctx.buffers b) ∧
    ctx1.fifo = ctx.fifo ∧ ctx1.transfers = ctx.transfers ∧
    ctx1.transfer_mode = ctx.transfer_mode ∧ ctx1.max_buffers = ctx.max_buffers ∧
    ctx1.alignment = ctx.alignment ∧ ctx1.texture_shape = ctx.texture_shape ∧
    ctx1.handled = ctx.handled ∧ ctx1.executed = ctx.executed := by
  unfold vkl_alloc_buffers at hok
  by_cases h1 : count > 0
  swap
  · rw [if_pos h1] at hok; cases hok
  rw [if_neg (not_not.2 h1)] at hok
  by_cases h2 : size > 0
  swap
  · rw [if_pos h2] at hok; cases hok
  rw [if_neg (not_not.2 h2), if_neg (show ¬ (b ≥ ctx.max_buffers) by omega)] at hok
  dsimp only at hok
  generalize hal : (if b = VKL_DEFAULT_BUFFER_UNIFORM then ctx.alignment else 0) = al at hok ⊢
  generalize hR : vkl_buffer_regions b count (ctx.allocated_sizes b) size al = R at hok ⊢
  have hsz : R.size = size := by rw [← hR]; rfl
  have hst : (if R.aligned_size = 0 then size else R.aligned_size) = R.stride := by
    unfold VklBufferRegions.stride; rw [hsz]
  rw [hst] at hok
  by_cases hc1 : b = VKL_DEFAULT_BUFFER_UNIFORM ∧ al = 0
  · rw [if_pos hc1] at hok; cases hok
  rw [if_neg hc1] at hok
  by_cases hc2 : b = VKL_DEFAULT_BUFFER_UNIFORM ∧ ¬ (ctx.allocated_sizes b % al = 0)
  · rw [if_pos hc2] at hok; cases hok
  rw [if_neg hc2] at hok
  by_cases hc3 : ¬ (R.stride > 0)
  · rw [if_pos hc3] at hok; cases hok
  rw [if_neg hc3] at hok
  have hc4 : ¬ (b ≥ ctx.max_buffers ∨ (ctx.buffers b).created = false) := by
    rw [hcr]; simp; exact hb
  rw [if_neg hc4] at hok
  by_cases hc5 : b = VKL_DEFAULT_BUFFER_UNIFORM ∧
      ¬ (al > 0 ∧ R.stride % al = 0 ∧ ∀ i ∈ List.range count, R.offsets.getD i 0 % al = 0)
  · rw [if_pos hc5] at hok; cases hok
  rw [if_neg hc5] at hok
  generalize hB : (if (ctx.allocated_sizes b + R.stride * count) % U64 > (ctx.buffers b).size
      then vkl_buffer_resize (ctx.buffers b) ((ctx.buffers b).size * 2 % U64)
      else ctx.buffers b) = B at hok ⊢
  by_cases hc6 : ¬ ((ctx.allocated_sizes b + R.stride * count) % U64 ≤ B.size)
  · rw [if_pos hc6] at hok; cases hok
  rw [if_neg hc6] at hok
  by_cases hc7 : ¬ ((R.offsets.getD (count - 1) 0 + R.stride) % U64
      = (ctx.allocated_sizes b + R.stride * count) % U64)
  · rw [if_pos hc7] at hok; cases hok
  rw [if_neg hc7] at hok
  injection hok with hok
  injection hok with hc hr
  subst hr
  subst hc
  refine ⟨h1, h2, rfl, rfl, ?_, ?_, ?_, rfl, rfl, rfl, rfl, rfl, rfl, rfl, rfl⟩
  · show _ ≤ (if b = b then B else ctx.buffers b).size
    rw [if_pos rfl]; exact not_not.1 hc6
  · intro i hi
    show (if i = b then B else ctx.buffers i) = _
    rw [if_neg hi]
  · show (if b = b then B else ctx.buffers b) = _
    rw [if_pos rfl]; exact hB.symm

theorem vkl_buffer_regions_offsets (b count w size al : Nat) :
    (vkl_buffer_regions b count w size al).count = count ∧
    (vkl_buffer_regions b count w size al).size = size ∧
    (vkl_buffer_regions b count w size al).offsets
      = (List.range count).map
          (fun (i : Nat) => (w + i * (vkl_buffer_regions b count w size al).stride) % U64) :=
  ⟨rfl, rfl, rfl⟩

theorem vkl_buffer_regions_getElem (b count w size al i : Nat) (hi : i < count)
    (hnw : w + (vkl_buffer_regions b count w size al).stride * count < U64) :
    (vkl_buffer_regions b count w size al).offsets[i]?
      = some (w + i * (vkl_buffer_regions b count w size al).stride) := by
  rw [(vkl_buffer_regions_offsets b count w size al).2.2, List.getElem?_map,
    List.getElem?_range hi]
  have hmul : i * (vkl_buffer_regions b count w size al).stride
      ≤ (vkl_buffer_regions b count w size al).stride * count := by
    rw [Nat.mul_comm]
    exact Nat.mul_le_mul_left _ (Nat.le_of_lt hi)
  simp only [Option.map_some']
  rw [Nat.mod_eq_of_lt (by omega)]

/-- C10, as the claim states it, fails when `VkDeviceSize` arithmetic wraps around: on the
vertex role with watermark 300 (after a lease of three regions of 100 bytes), the call
`vkl_alloc_buffers(context, 1, 1, 2^64 - 100)` passes every assertion, returns the lease
with offset 300 and stride `2^64 - 100`, and sets the watermark to 200 (not to
`300 + (2^64 - 100)`): the watermark has decreased, and the next lease starts at offset
200, inside the third region `[200, 300)` of the first lease. -/
theorem alloc_wraparound_lowers_watermark :
    ∃ ctx0 ctx1 ctx2 ctx3 l1 l2 l3,
      vkl_context 8 8 (fun _ => 1024) 16 (fun _ => (1, 1, 1)) = .ok ctx0 ∧
      vkl_alloc_buffers ctx0 1 3 100 = .ok (ctx1, l1) ∧
      l1.offsets = [0, 100, 200] ∧ l1.stride = 100 ∧ ctx1.allocated_sizes 1 = 300 ∧
      vkl_alloc_buffers ctx1 1 1 18446744073709551516 = .ok (ctx2, l2) ∧
      l2.offsets = [300] ∧ l2.stride = 18446744073709551516 ∧
      ctx2.allocated_sizes 1 = 200 ∧
      ctx2.allocated_sizes 1 < ctx1.allocated_sizes 1 ∧
      vkl_alloc_buffers ctx2 1 1 50 = .ok (ctx3, l3) ∧ l3.offsets = [200] :=
  ⟨_, _, _, _, _, _, _, rfl, rfl, rfl, rfl, rfl, rfl, rfl, rfl, rfl, by decide, rfl, rfl⟩

/-- C10, amended. Allocation advances the watermark: a call
`vkl_alloc_buffers(context, b, count, size)` on a created buffer role `b` that returns,
with previous watermark `w` and `s` the stride of the returned lease (its `aligned_size`,
or `size` when that is 0), provided `w + s * count` does not wrap around in
`VkDeviceSize` (`w + s * count < 2^64`), has `count ≥ 1` and `size ≥ 1`, returns a lease
of `count` offsets whose `i`-th offset is `w + i * s`, sets the watermark of `b` to
`w + s * count` and leaves the watermarks of the other roles unchanged; so the watermark
does not decrease, and every sub-range of the lease ends at or before every offset of the
lease returned by the next such allocation from the same role. -/
theorem alloc_advances_watermark (ctx ctx1 : VklContext) (b count size : Nat)
    (regions : VklBufferRegions) (hb : b < ctx.max_buffers)
    (hcr : (ctx.buffers b).created = true)
    (hok : vkl_alloc_buffers ctx b count size = .ok (ctx1, regions))
    (hnw : ctx.allocated_sizes b + regions.stride * count < U64) :
    1 ≤ count ∧ 1 ≤ size ∧ regions.count = count ∧ regions.offsets.length = count ∧
    (∀ i, i < count →
      regions.offsets[i]? = some (ctx.allocated_sizes b + i * regions.stride)) ∧
    ctx1.allocated_sizes b = ctx.allocated_sizes b + regions.stride * count ∧
    (∀ b1, b1 ≠ b → ctx1.allocated_sizes b1 = ctx.allocated_sizes b1) ∧
    ctx.allocated_sizes b ≤ ctx1.allocated_sizes b ∧
    (∀ (ctx2 : VklContext) (count2 size2 : Nat) (regions2 : VklBufferRegions),
      vkl_alloc_buffers ctx1 b count2 size2 = .ok (ctx2, regions2) →
      ctx1.allocated_sizes b + regions2.stride * count2 < U64 →
      ctx1.allocated_sizes b ≤ ctx2.allocated_sizes b ∧
      ∀ i j x y : Nat, regions.offsets[i]? = some x → regions2.offsets[j]? = some y →
        x + regions.stride ≤ y) := by
  obtain ⟨h1, h2, hr, hal, _, _, hbuf, _, _, _, hmax, _⟩ := vkl_alloc_buffers_ok hb hcr hok
  have hw1 : ctx1.allocated_sizes b = ctx.allocated_sizes b + regions.stride * count := by
    rw [hal]; dsimp only; rw [if_pos rfl, Nat.mod_eq_of_lt hnw]
  have hoff : ∀ i, i < count →
      regions.offsets[i]? = some (ctx.allocated_sizes b + i * regions.stride) := by
    intro i hi
    rw [hr] at hnw ⊢
    exact vkl_buffer_regions_getElem _ _ _ _ _ i hi hnw
  have hlen : regions.offsets.length = count := by
    rw [hr, (vkl_buffer_regions_offsets _ _ _ _ _).2.2, List.length_map, List.length_range]
  refine ⟨h1, h2, by rw [hr]; rfl, hlen, hoff, hw1, ?_, by rw [hw1]; omega, ?_⟩
  · intro b1 hb1
    rw [hal]; dsimp only; rw [if_neg hb1]
  · intro ctx2 count2 size2 regions2 hok2 hnw2
    have hcr1 : (ctx1.buffers b).created = true := by
      rw [hbuf]
      split
      · exact hcr
      · exact hcr
    obtain ⟨_, _, hr2, hal2, _⟩ := vkl_alloc_buffers_ok (by rw [hmax]; exact hb) hcr1 hok2
    have hw2 : ctx2.allocated_sizes b = ctx1.allocated_sizes b + regions2.stride * count2 := by
      rw [hal2]; dsimp only; rw [if_pos rfl, Nat.mod_eq_of_lt hnw2]
    refine ⟨by rw [hw2]; omega, ?_⟩
    intro i j x y hx hy
    have hi : i < count := by
      rw [← hlen]
      exact (List.getElem?_eq_some_iff.1 hx).1
    have hlen2 : regions2.offsets.length = count2 := by
      rw [hr2, (vkl_buffer_regions_offsets _ _ _ _ _).2.2, List.length_map, List.length_range]
    have hj : j < count2 := by
      rw [← hlen2]
      exact (List.getElem?_eq_some_iff.1 hy).1
    have hx1 := hoff i hi
    rw [hx] at hx1
    injection hx1 with hx1
    have hy1 : regions2.offsets[j]? = some (ctx1.allocated_sizes b + j * regions2.stride) := by
      rw [hr2] at hnw2 ⊢
      exact vkl_buffer_regions_getElem _ _ _ _ _ j hj hnw2
    rw [hy] at hy1
    injection hy1 with hy1
    have hmul : (i + 1) * regions.stride ≤ regions.stride * count := by
      rw [Nat.mul_comm]
      exact Nat.mul_le_mul_left _ hi
    rw [Nat.add_mul, Nat.one_mul] at hmul
    rw [hx1, hy1, hw1]
    omega

theorem alloc_advances_watermark_witness :
    ∃ ctx0 ctx1 l1, vkl_context 8 8 (fun _ => 1024) 16 (fun _ => (1, 1, 1)) = .ok ctx0 ∧
      vkl_alloc_buffers ctx0 4 3 100 = .ok (ctx1, l1) ∧ l1.stride = 112 ∧
      l1.offsets[2]? = some (ctx0.allocated_sizes 4 + 2 * l1.stride) ∧
      ctx1.allocated_sizes 4 = ctx0.allocated_sizes 4 + l1.stride * 3 ∧
      ctx1.allocated_sizes 1 = ctx0.allocated_sizes 1 := by
  have e0 : vkl_context 8 8 (fun _ => 1024) 16 (fun _ => (1, 1, 1))
      = .ok { fifo := { capacity := 8, head := 0, tail := 0, items := fun _ => NULL },
              transfers := fun _ => VklTransfer.zero, transfer_mode := 0, max_buffers := 8,
              buffers := fun i =>
                if i < VKL_DEFAULT_BUFFER_COUNT then { size := 1024, created := true }
                else { size := 0, created := false },
              allocated_sizes := fun _ => 0, alignment := 16,
              texture_shape := fun _ => (1, 1, 1), handled := [], executed := [] } := rfl
  have e1 : vkl_alloc_buffers
      { fifo := { capacity := 8, head := 0, tail := 0, items := fun _ => NULL },
        transfers := fun _ => VklTransfer.zero, transfer_mode := 0, max_buffers := 8,
        buffers := fun i =>
          if i < VKL_DEFAULT_BUFFER_COUNT then { size := 1024, created := true }
          else { size := 0, created := false },
        allocated_sizes := fun _ => 0, alignment := 16,
        texture_shape := fun _ => (1, 1, 1), handled := [], executed := [] } 4 3 100
      = .ok (_, ⟨some 4, 3, [0, 112, 224], 100, 112, 16⟩) := rfl
  obtain ⟨_, _, _, _, hoff, hw, hother, _, _⟩ :=
    alloc_advances_watermark _ _ 4 3 100 _ (by decide) rfl e1 (by decide)
  exact ⟨_, _, _, e0, e1, rfl, hoff 2 (by decide), hw, hother 1 (by decide)⟩

theorem roundUp_props (size a : Nat) (ha : 0 < a) :
    size ≤ roundUp size a ∧ roundUp size a % a = 0 ∧ roundUp size a < size + a := by
  unfold roundUp
  have h1 := Nat.div_add_mod (size + a - 1) a
  have h2 := Nat.mod_lt (size + a - 1) ha
  have h3 : (size + a - 1) / a * a = a * ((size + a - 1) / a) := Nat.mul_comm _ _
  refine ⟨by omega, Nat.mul_mod_left _ _, by omega⟩

theorem vkl_buffer_regions_aligned (b count w size a : Nat) (ha : 0 < a) (hs : 0 < size)
    (hr : roundUp size a < U64) :
    (vkl_buffer_regions b count w size a).aligned_size = roundUp size a ∧
    (vkl_buffer_regions b count w size a).stride = roundUp size a := by
  have hp := roundUp_props size a ha
  have h1 : (vkl_buffer_regions b count w size a).aligned_size = roundUp size a := by
    show (if a = 0 then 0 else ((size + a - 1) / a * a) % U64) = _
    rw [if_neg (by omega)]
    exact Nat.mod_eq_of_lt hr
  refine ⟨h1, ?_⟩
  unfold VklBufferRegions.stride
  rw [h1, if_neg (by omega)]

theorem vkl_buffer_regions_getD (b count w size al i : Nat) (hi : i < count) :
    (vkl_buffer_regions b count w size al).offsets.getD i 0
      = (w + i * (vkl_buffer_regions b count w size al).stride) % U64 := by
  rw [(vkl_buffer_regions_offsets b count w size al).2.2, List.getD_eq_getElem?_getD,
    List.getElem?_map, List.getElem?_range hi]
  rfl

theorem vkl_buffer_regions_last (b count w size al : Nat) (hc : 0 < count) :
    ((vkl_buffer_regions b count w size al).offsets.getD (count - 1) 0
        + (vkl_buffer_regions b count w size al).stride) % U64
      = (w + (vkl_buffer_regions b count w size al).stride * count) % U64 := by
  rw [vkl_buffer_regions_getD _ _ _ _ _ _ (by omega), Nat.mod_add_mod]
  congr 1
  obtain ⟨k, rfl⟩ : ∃ k, count = k + 1 := ⟨count - 1, by omega⟩
  rw [Nat.add_sub_cancel, Nat.mul_add, Nat.mul_one, Nat.mul_comm k]
  omega

/-- A call of `vkl_alloc_buffers` on a created buffer whose alignment assertions hold:
it returns exactly when the request fits in the buffer after the reallocation step. -/
theorem vkl_alloc_buffers_run (ctx : VklContext) (b count size : Nat)
    (hc : 0 < count) (hs : 0 < size) (hb : b < ctx.max_buffers)
    (hcr : (ctx.buffers b).created = true)
    (hst : 0 < (vkl_buffer_regions b count (ctx.allocated_sizes b) size
      (if b = VKL_DEFAULT_BUFFER_UNIFORM then ctx.alignment else 0)).stride)
    (hun : b = VKL_DEFAULT_BUFFER_UNIFORM →
      0 < ctx.alignment ∧ ctx.allocated_sizes b % ctx.alignment = 0 ∧
      (vkl_buffer_regions b count (ctx.allocated_sizes b) size ctx.alignment).stride
        % ctx.alignment = 0 ∧
      ∀ i ∈ List.range count,
        (vkl_buffer_regions b count (ctx.allocated_sizes b) size ctx.alignment).offsets.getD i 0
          % ctx.alignment = 0) :
    vkl_alloc_buffers ctx b count size
      = if (ctx.allocated_sizes b + (vkl_buffer_regions b count (ctx.allocated_sizes b) size
            (if b = VKL_DEFAULT_BUFFER_UNIFORM then ctx.alignment else 0)).stride * count) % U64
          ≤ (grownBuffer ctx b (ctx.allocated_sizes b
              + (vkl_buffer_regions b count (ctx.allocated_sizes b) size
                (if b = VKL_DEFAULT_BUFFER_UNIFORM then ctx.alignment else 0)).stride * count)).size
        then .ok ({ ctx with
            buffers := fun i => if i = b then grownBuffer ctx b (ctx.allocated_sizes b
              + (vkl_buffer_regions b count (ctx.allocated_sizes b) size
                (if b = VKL_DEFAULT_BUFFER_UNIFORM then ctx.alignment else 0)).stride * count)
              else ctx.buffers i,
            allocated_sizes := fun i => if i = b then
              (ctx.allocated_sizes b + (vkl_buffer_regions b count (ctx.allocated_sizes b) size
                (if b = VKL_DEFAULT_BUFFER_UNIFORM then ctx.alignment else 0)).stride * count)
                % U64
              else ctx.allocated_sizes i },
          vkl_buffer_regions b count (ctx.allocated_sizes b) size
            (if b = VKL_DEFAULT_BUFFER_UNIFORM then ctx.alignment else 0))
        else .error .assertion := by
  unfold vkl_alloc_buffers
  rw [if_neg (not_not.2 hc), if_neg (not_not.2 hs),
    if_neg (show ¬ (b ≥ ctx.max_buffers) by omega)]
  dsimp only
  have hlast := vkl_buffer_regions_last b count (ctx.allocated_sizes b) size
    (if b = VKL_DEFAULT_BUFFER_UNIFORM then ctx.alignment else 0) hc
  unfold grownBuffer
  generalize hal : (if b = VKL_DEFAULT_BUFFER_UNIFORM then ctx.alignment else 0) = al at hst hlast ⊢
  generalize hR : vkl_buffer_regions b count (ctx.allocated_sizes b) size al = R at hst hlast ⊢
  have hsz : R.size = size := by rw [← hR]; rfl
  have hstr : (if R.aligned_size = 0 then size else R.aligned_size) = R.stride := by
    unfold VklBufferRegions.stride; rw [hsz]
  rw [hstr]
  have hc1 : ¬ (b = VKL_DEFAULT_BUFFER_UNIFORM ∧ al = 0) := by
    rintro ⟨hu, h0⟩
    rw [if_pos hu] at hal
    have := (hun hu).1
    omega
  have hc2 : ¬ (b = VKL_DEFAULT_BUFFER_UNIFORM ∧ ¬ (ctx.allocated_sizes b % al = 0)) := by
    rintro ⟨hu, h0⟩
    rw [if_pos hu] at hal
    rw [← hal] at h0
    exact h0 (hun hu).2.1
  have hc3 : ¬ ¬ (R.stride > 0) := not_not.2 hst
  have hc4 : ¬ (b ≥ ctx.max_buffers ∨ (ctx.buffers b).created = false) := by
    rw [hcr]; simp; exact hb
  have hc5 : ¬ (b = VKL_DEFAULT_BUFFER_UNIFORM ∧
      ¬ (al > 0 ∧ R.stride % al = 0 ∧ ∀ i ∈ List.range count, R.offsets.getD i 0 % al = 0)) := by
    rintro ⟨hu, h0⟩
    rw [if_pos hu] at hal
    apply h0
    rw [← hR, ← hal]
    exact ⟨(hun hu).1, (hun hu).2.2.1, (hun hu).2.2.2⟩
  rw [if_neg hc1, if_neg hc2, if_neg hc3, if_neg hc4, if_neg hc5]
  by_cases hfit : (ctx.allocated_sizes b + R.stride * count) % U64
      ≤ (if (ctx.allocated_sizes b + R.stride * count) % U64 > (ctx.buffers b).size
          then vkl_buffer_resize (ctx.buffers b) ((ctx.buffers b).size * 2 % U64)
          else ctx.buffers b).size
  · rw [if_neg (not_not.2 hfit), if_pos hfit, if_neg (not_not.2 hlast)]
  · rw [if_pos hfit, if_neg hfit]

theorem mod_add_mul_eq_zero {a w S : Nat} (h1 : w % a = 0) (h2 : S % a = 0) (i : Nat) :
    (w + i * S) % a = 0 :=
  Nat.mod_eq_zero_of_dvd
    (Nat.dvd_add (Nat.dvd_of_mod_eq_zero h1) (Dvd.dvd.mul_left (Nat.dvd_of_mod_eq_zero h2) _))

/-- One allocation on the uniform role from an aligned watermark, without wrap-around. -/
theorem uniform_step (ctx : VklContext)
    (hb : VKL_DEFAULT_BUFFER_UNIFORM < ctx.max_buffers)
    (hcr : (ctx.buffers VKL_DEFAULT_BUFFER_UNIFORM).created = true) (ha : 0 < ctx.alignment)
    (count size : Nat) (hc : 1 ≤ count) (hs : 1 ≤ size)
    (hw : ctx.allocated_sizes VKL_DEFAULT_BUFFER_UNIFORM % ctx.alignment = 0)
    (hnw : ctx.allocated_sizes VKL_DEFAULT_BUFFER_UNIFORM
      + roundUp size ctx.alignment * count < U64) :
    (vkl_buffer_regions VKL_DEFAULT_BUFFER_UNIFORM count
      (ctx.allocated_sizes VKL_DEFAULT_BUFFER_UNIFORM) size ctx.alignment).aligned_size
      = roundUp size ctx.alignment ∧
    size ≤ roundUp size ctx.alignment ∧ roundUp size ctx.alignment % ctx.alignment = 0 ∧
    (∀ i, i < count →
      (vkl_buffer_regions VKL_DEFAULT_BUFFER_UNIFORM count
        (ctx.allocated_sizes VKL_DEFAULT_BUFFER_UNIFORM) size ctx.alignment).offsets[i]?
        = some (ctx.allocated_sizes VKL_DEFAULT_BUFFER_UNIFORM + i * roundUp size ctx.alignment) ∧
      (ctx.allocated_sizes VKL_DEFAULT_BUFFER_UNIFORM + i * roundUp size ctx.alignment)
        % ctx.alignment = 0) ∧
    (ctx.allocated_sizes VKL_DEFAULT_BUFFER_UNIFORM + roundUp size ctx.alignment * count)
      % ctx.alignment = 0 ∧
    ((∃ ctx1, vkl_alloc_buffers ctx VKL_DEFAULT_BUFFER_UNIFORM count size
        = .ok (ctx1, vkl_buffer_regions VKL_DEFAULT_BUFFER_UNIFORM count
            (ctx.allocated_sizes VKL_DEFAULT_BUFFER_UNIFORM) size ctx.alignment) ∧
        ctx1.allocated_sizes VKL_DEFAULT_BUFFER_UNIFORM
          = ctx.allocated_sizes VKL_DEFAULT_BUFFER_UNIFORM + roundUp size ctx.alignment * count) ∨
      (vkl_alloc_buffers ctx VKL_DEFAULT_BUFFER_UNIFORM count size = .error .assertion ∧
        (ctx.buffers VKL_DEFAULT_BUFFER_UNIFORM).size
          < ctx.allocated_sizes VKL_DEFAULT_BUFFER_UNIFORM + roundUp size ctx.alignment * count ∧
        (ctx.buffers VKL_DEFAULT_BUFFER_UNIFORM).size * 2 % U64
          < ctx.allocated_sizes VKL_DEFAULT_BUFFER_UNIFORM
            + roundUp size ctx.alignment * count)) := by
  have hp := roundUp_props size ctx.alignment ha
  have hle : roundUp size ctx.alignment ≤ roundUp size ctx.alignment * count :=
    Nat.le_mul_of_pos_right _ hc
  have hr : roundUp size ctx.alignment < U64 := by omega
  obtain ⟨hal, hstr⟩ := vkl_buffer_regions_aligned VKL_DEFAULT_BUFFER_UNIFORM count
    (ctx.allocated_sizes VKL_DEFAULT_BUFFER_UNIFORM) size ctx.alignment ha hs hr
  have hoff : ∀ i, i < count →
      (vkl_buffer_regions VKL_DEFAULT_BUFFER_UNIFORM count
        (ctx.allocated_sizes VKL_DEFAULT_BUFFER_UNIFORM) size ctx.alignment).offsets[i]?
        = some (ctx.allocated_sizes VKL_DEFAULT_BUFFER_UNIFORM
            + i * roundUp size ctx.alignment) := by
    intro i hi
    have := vkl_buffer_regions_getElem VKL_DEFAULT_BUFFER_UNIFORM count
      (ctx.allocated_sizes VKL_DEFAULT_BUFFER_UNIFORM) size ctx.alignment i hi
      (by rw [hstr]; exact hnw)
    rw [hstr] at this
    exact this
  have hmul : (ctx.allocated_sizes VKL_DEFAULT_BUFFER_UNIFORM
      + roundUp size ctx.alignment * count) % ctx.alignment = 0 := by
    rw [Nat.mul_comm]; exact mod_add_mul_eq_zero hw hp.2.1 count
  refine ⟨hal, hp.1, hp.2.1, fun i hi => ⟨hoff i hi, mod_add_mul_eq_zero hw hp.2.1 i⟩, hmul, ?_⟩
  have hrun := vkl_alloc_buffers_run ctx VKL_DEFAULT_BUFFER_UNIFORM count size hc hs hb hcr
    (by rw [if_pos rfl, hstr]; omega)
    (fun _ => ⟨ha, hw, by rw [hstr]; exact hp.2.1, fun i hi => by
      rw [List.mem_range] at hi
      rw [List.getD_eq_getElem?_getD, hoff i hi]
      exact mod_add_mul_eq_zero hw hp.2.1 i⟩)
  rw [if_pos rfl, hstr, Nat.mod_eq_of_lt hnw] at hrun
  by_cases hfit : ctx.allocated_sizes VKL_DEFAULT_BUFFER_UNIFORM
      + roundUp size ctx.alignment * count
      ≤ (grownBuffer ctx VKL_DEFAULT_BUFFER_UNIFORM
          (ctx.allocated_sizes VKL_DEFAULT_BUFFER_UNIFORM
            + roundUp size ctx.alignment * count)).size
  · left
    rw [if_pos hfit] at hrun
    exact ⟨_, hrun, by dsimp only; rw [if_pos rfl]⟩
  · right
    rw [if_neg hfit] at hrun
    refine ⟨hrun, ?_⟩
    unfold grownBuffer at hfit
    rw [Nat.mod_eq_of_lt hnw] at hfit
    by_cases hgt : ctx.allocated_sizes VKL_DEFAULT_BUFFER_UNIFORM
        + roundUp size ctx.alignment * count > (ctx.buffers VKL_DEFAULT_BUFFER_UNIFORM).size
    · rw [if_pos hgt] at hfit
      exact ⟨hgt, by
        have : (vkl_buffer_resize (ctx.buffers VKL_DEFAULT_BUFFER_UNIFORM)
          ((ctx.buffers VKL_DEFAULT_BUFFER_UNIFORM).size * 2 % U64)).size
          = (ctx.buffers VKL_DEFAULT_BUFFER_UNIFORM).size * 2 % U64 := rfl
        rw [this] at hfit
        omega⟩
    · rw [if_neg hgt] at hfit
      omega

theorem runAllocs_uniform (reqs : List (Nat × Nat)) :
    ∀ ctx : VklContext, VKL_DEFAULT_BUFFER_UNIFORM < ctx.max_buffers →
      (ctx.buffers VKL_DEFAULT_BUFFER_UNIFORM).created = true → 0 < ctx.alignment →
      ctx.allocated_sizes VKL_DEFAULT_BUFFER_UNIFORM % ctx.alignment = 0 →
      ctx.allocated_sizes VKL_DEFAULT_BUFFER_UNIFORM + totalAligned ctx.alignment reqs < U64 →
      ∀ (ctx1 : VklContext) (leases : List VklBufferRegions),
        runAllocs VKL_DEFAULT_BUFFER_UNIFORM ctx reqs = .ok (ctx1, leases) →
        ctx1.allocated_sizes VKL_DEFAULT_BUFFER_UNIFORM
          = ctx.allocated_sizes VKL_DEFAULT_BUFFER_UNIFORM + totalAligned ctx.alignment reqs ∧
        ctx1.allocated_sizes VKL_DEFAULT_BUFFER_UNIFORM % ctx.alignment = 0 ∧
        leases.length = reqs.length ∧
        ∀ l ∈ leases, l.aligned_size % ctx.alignment = 0 ∧ l.size ≤ l.aligned_size ∧
          ∀ o ∈ l.offsets, o % ctx.alignment = 0 := by
  induction reqs with
  | nil =>
    intro ctx _ _ _ hw _ ctx1 leases hrun
    simp only [runAllocs] at hrun
    injection hrun with hrun
    injection hrun with h1 h2
    subst h1; subst h2
    exact ⟨by simp [totalAligned], hw, rfl, fun l hl => by simp at hl⟩
  | cons req reqs ih =>
    obtain ⟨count, size⟩ := req
    intro ctx hb hcr ha hw hnw ctx1 leases hrun
    simp only [totalAligned] at hnw ⊢
    simp only [runAllocs] at hrun
    cases h : vkl_alloc_buffers ctx VKL_DEFAULT_BUFFER_UNIFORM count size with
    | error e => rw [h] at hrun; cases hrun
    | ok p =>
      obtain ⟨ctxA, regions⟩ := p
      rw [h] at hrun
      dsimp only at hrun
      obtain ⟨hc, hs, hr, hal, _, _, hbuf, _, _, _, hmax, halign, _⟩ :=
        vkl_alloc_buffers_ok hb hcr h
      rw [if_pos rfl] at hr
      obtain ⟨has, hsz, hmod, hoff, hmul, _⟩ :=
        uniform_step ctx hb hcr ha count size hc hs hw (by omega)
      have hstr : regions.stride = roundUp size ctx.alignment := by
        rw [hr]
        exact (vkl_buffer_regions_aligned _ _ _ _ _ ha hs (by
          have : roundUp size ctx.alignment ≤ roundUp size ctx.alignment * count :=
            Nat.le_mul_of_pos_right _ hc
          omega)).2
      have hwA : ctxA.allocated_sizes VKL_DEFAULT_BUFFER_UNIFORM
          = ctx.allocated_sizes VKL_DEFAULT_BUFFER_UNIFORM
            + roundUp size ctx.alignment * count := by
        rw [hal]; dsimp only
        rw [if_pos rfl, hstr, Nat.mod_eq_of_lt (by omega)]
      have hcrA : (ctxA.buffers VKL_DEFAULT_BUFFER_UNIFORM).created = true := by
        rw [hbuf]
        split
        · exact hcr
        · exact hcr
      cases h2 : runAllocs VKL_DEFAULT_BUFFER_UNIFORM ctxA reqs with
      | error e => rw [h2] at hrun; cases hrun
      | ok p2 =>
        obtain ⟨ctxB, ls⟩ := p2
        rw [h2] at hrun
        dsimp only at hrun
        injection hrun with hrun
        injection hrun with e1 e2
        subst e1; subst e2
        obtain ⟨hw2, hm2, hl2, hall⟩ := ih ctxA (by rw [hmax]; exact hb) hcrA
          (by rw [halign]; exact ha) (by rw [halign, hwA]; exact hmul)
          (by rw [halign, hwA]; omega) ctxB ls h2
        rw [halign] at hw2 hm2 hall
        refine ⟨by rw [hw2, hwA]; omega, hm2, by simp [hl2], ?_⟩
        intro l hl
        rcases List.mem_cons.1 hl with hl | hl
        · subst hl
          rw [hr]
          refine ⟨by rw [has]; exact hmod, by rw [has]; exact hsz, ?_⟩
          intro o ho
          obtain ⟨n, hn⟩ := List.mem_iff_getElem?.1 ho
          have hlen : n < count := by
            have := (List.getElem?_eq_some_iff.1 hn).1
            rw [(vkl_buffer_regions_offsets _ _ _ _ _).2.2, List.length_map,
              List.length_range] at this
            exact this
          have := (hoff n hlen).1
          rw [hn] at this
          injection this with this
          rw [this]
          exact (hoff n hlen).2
        · exact hall l hl

/-- C11, as the claim states it, fails for sizes whose rounding wraps around: with
alignment 16 and watermark 0, the request of one region of `2^64 - 1` bytes on the
uniform role gets `aligned_size = 0`, which is not at least `size`; the stride is then
`size` itself, not a multiple of 16, and the alignment assertion of `vkl_alloc_buffers`
fails. -/
theorem uniform_alignment_wraps :
    ∃ ctx0, vkl_context 8 8 (fun _ => 1024) 16 (fun _ => (1, 1, 1)) = .ok ctx0 ∧
      ctx0.allocated_sizes VKL_DEFAULT_BUFFER_UNIFORM = 0 ∧
      (vkl_buffer_regions VKL_DEFAULT_BUFFER_UNIFORM 1 0 18446744073709551615 16).aligned_size
        = 0 ∧
      (vkl_buffer_regions VKL_DEFAULT_BUFFER_UNIFORM 1 0 18446744073709551615 16).stride % 16
        = 15 ∧
      vkl_alloc_buffers ctx0 VKL_DEFAULT_BUFFER_UNIFORM 1 18446744073709551615
        = .error .assertion :=
  ⟨_, rfl, rfl, rfl, rfl, rfl⟩

/-- C11, amended. Uniform alignment invariant: on a context whose uniform buffer is
created and whose device alignment `a` is positive: (1) for a call with `count ≥ 1` and
`size ≥ 1` from a watermark `w` that is a multiple of `a`, with `w + R * count < 2^64`
where `R` is `size` rounded up to a multiple of `a`, the lease has `aligned_size = R`,
a multiple of `a` that is at least `size`, its offsets `w + i * R` are multiples of `a`,
so the alignment assertions hold, and the call either returns with the watermark
`w + R * count`, again a multiple of `a`, or fails the capacity assertion only;
(2) for every sequence of calls that return, starting from watermark 0 and staying below
`2^64` in total, every returned offset and every returned `aligned_size` is a multiple of
`a`, `aligned_size ≥ size`, and the watermark is a multiple of `a`. -/
theorem uniform_alignment (ctx : VklContext)
    (hb : VKL_DEFAULT_BUFFER_UNIFORM < ctx.max_buffers)
    (hcr : (ctx.buffers VKL_DEFAULT_BUFFER_UNIFORM).created = true) (ha : 0 < ctx.alignment) :
    (∀ count size : Nat, 1 ≤ count → 1 ≤ size →
      ctx.allocated_sizes VKL_DEFAULT_BUFFER_UNIFORM % ctx.alignment = 0 →
      ctx.allocated_sizes VKL_DEFAULT_BUFFER_UNIFORM
        + roundUp size ctx.alignment * count < U64 →
      (vkl_buffer_regions VKL_DEFAULT_BUFFER_UNIFORM count
        (ctx.allocated_sizes VKL_DEFAULT_BUFFER_UNIFORM) size ctx.alignment).aligned_size
        = roundUp size ctx.alignment ∧
      size ≤ roundUp size ctx.alignment ∧ roundUp size ctx.alignment % ctx.alignment = 0 ∧
      (∀ i, i < count →
        (vkl_buffer_regions VKL_DEFAULT_BUFFER_UNIFORM count
          (ctx.allocated_sizes VKL_DEFAULT_BUFFER_UNIFORM) size ctx.alignment).offsets[i]?
          = some (ctx.allocated_sizes VKL_DEFAULT_BUFFER_UNIFORM
              + i * roundUp size ctx.alignment) ∧
        (ctx.allocated_sizes VKL_DEFAULT_BUFFER_UNIFORM + i * roundUp size ctx.alignment)
          % ctx.alignment = 0) ∧
      (ctx.allocated_sizes VKL_DEFAULT_BUFFER_UNIFORM + roundUp size ctx.alignment * count)
        % ctx.alignment = 0 ∧
      ((∃ ctx1, vkl_alloc_buffers ctx VKL_DEFAULT_BUFFER_UNIFORM count size
          = .ok (ctx1, vkl_buffer_regions VKL_DEFAULT_BUFFER_UNIFORM count
              (ctx.allocated_sizes VKL_DEFAULT_BUFFER_UNIFORM) size ctx.alignment) ∧
          ctx1.allocated_sizes VKL_DEFAULT_BUFFER_UNIFORM
            = ctx.allocated_sizes VKL_DEFAULT_BUFFER_UNIFORM
              + roundUp size ctx.alignment * count) ∨
        (vkl_alloc_buffers ctx VKL_DEFAULT_BUFFER_UNIFORM count size = .error .assertion ∧
          (ctx.buffers VKL_DEFAULT_BUFFER_UNIFORM).size
            < ctx.allocated_sizes VKL_DEFAULT_BUFFER_UNIFORM
              + roundUp size ctx.alignment * count ∧
          (ctx.buffers VKL_DEFAULT_BUFFER_UNIFORM).size * 2 % U64
            < ctx.allocated_sizes VKL_DEFAULT_BUFFER_UNIFORM
              + roundUp size ctx.alignment * count))) ∧
    (ctx.allocated_sizes VKL_DEFAULT_BUFFER_UNIFORM = 0 →
      ∀ (reqs : List (Nat × Nat)) (ctx1 : VklContext) (leases : List VklBufferRegions),
        totalAligned ctx.alignment reqs < U64 →
        runAllocs VKL_DEFAULT_BUFFER_UNIFORM ctx reqs = .ok (ctx1, leases) →
        ctx1.allocated_sizes VKL_DEFAULT_BUFFER_UNIFORM = totalAligned ctx.alignment reqs ∧
        ctx1.allocated_sizes VKL_DEFAULT_BUFFER_UNIFORM % ctx.alignment = 0 ∧
        leases.length = reqs.length ∧
        ∀ l ∈ leases, l.aligned_size % ctx.alignment = 0 ∧ l.size ≤ l.aligned_size ∧
          ∀ o ∈ l.offsets, o % ctx.alignment = 0) := by
  refine ⟨fun count size hc hs hw hnw => uniform_step ctx hb hcr ha count size hc hs hw hnw,
    fun h0 reqs ctx1 leases htot hrun => ?_⟩
  have := runAllocs_uniform reqs ctx hb hcr ha (by rw [h0]; exact Nat.zero_mod _)
    (by rw [h0]; omega) ctx1 leases hrun
  rw [h0, Nat.zero_add] at this
  exact this

theorem uniform_alignment_witness :
    ∃ ctx0 ctx1 leases, vkl_context 8 8 (fun _ => 1024) 64 (fun _ => (1, 1, 1)) = .ok ctx0 ∧
      runAllocs VKL_DEFAULT_BUFFER_UNIFORM ctx0 [(2, 67), (1, 1), (3, 256)]
        = .ok (ctx1, leases) ∧
      ctx1.allocated_sizes VKL_DEFAULT_BUFFER_UNIFORM = 1088 ∧
      ctx1.allocated_sizes VKL_DEFAULT_BUFFER_UNIFORM % 64 = 0 ∧
      ∀ l ∈ leases, l.aligned_size % 64 = 0 ∧ l.size ≤ l.aligned_size ∧
        ∀ o ∈ l.offsets, o % 64 = 0 := by
  have e0 : vkl_context 8 8 (fun _ => 1024) 64 (fun _ => (1, 1, 1))
      = .ok { fifo := { capacity := 8, head := 0, tail := 0, items := fun _ => NULL },
              transfers := fun _ => VklTransfer.zero, transfer_mode := 0, max_buffers := 8,
              buffers := fun i =>
                if i < VKL_DEFAULT_BUFFER_COUNT then { size := 1024, created := true }
                else { size := 0, created := false },
              allocated_sizes := fun _ => 0, alignment := 64,
              texture_shape := fun _ => (1, 1, 1), handled := [], executed := [] } := rfl
  have e1 : runAllocs VKL_DEFAULT_BUFFER_UNIFORM
      { fifo := { capacity := 8, head := 0, tail := 0, items := fun _ => NULL },
        transfers := fun _ => VklTransfer.zero, transfer_mode := 0, max_buffers := 8,
        buffers := fun i =>
          if i < VKL_DEFAULT_BUFFER_COUNT then { size := 1024, created := true }
          else { size := 0, created := false },
        allocated_sizes := fun _ => 0, alignment := 64,
        texture_shape := fun _ => (1, 1, 1), handled := [], executed := [] }
      [(2, 67), (1, 1), (3, 256)] = .ok (_, _) := rfl
  obtain ⟨hw, hm, _, hall⟩ :=
    (uniform_alignment _ (by decide) rfl (by decide)).2 rfl [(2, 67), (1, 1), (3, 256)] _ _
      (by decide) e1
  exact ⟨_, _, _, e0, e1, hw, hm, hall⟩

/-- C12 fails when a request needs more than twice the buffer: on the fresh context with
vertex buffer of 1024 bytes, `vkl_alloc_buffers(context, vertex, 3, 1000)` doubles the
buffer to 2048 bytes, and the assertion `offset + alsize * buffer_count <= size` after the
reallocation step then fails, since 3000 > 2048; a request of 2000 bytes is served by the
same single doubling. -/
theorem alloc_doubling_too_small :
    ∃ ctx0 ctx1 l1, vkl_context 8 8 (fun _ => 1024) 16 (fun _ => (1, 1, 1)) = .ok ctx0 ∧
      (ctx0.buffers VKL_DEFAULT_BUFFER_VERTEX).created = true ∧
      (ctx0.buffers VKL_DEFAULT_BUFFER_VERTEX).size = 1024 ∧
      ctx0.allocated_sizes VKL_DEFAULT_BUFFER_VERTEX = 0 ∧
      (grownBuffer ctx0 VKL_DEFAULT_BUFFER_VERTEX (0 + 1000 * 3)).size = 2048 ∧
      vkl_alloc_buffers ctx0 VKL_DEFAULT_BUFFER_VERTEX 3 1000 = .error .assertion ∧
      vkl_alloc_buffers ctx0 VKL_DEFAULT_BUFFER_VERTEX 1 2000 = .ok (ctx1, l1) ∧
      (ctx1.buffers VKL_DEFAULT_BUFFER_VERTEX).size = 2048 :=
  ⟨_, _, _, rfl, rfl, rfl, rfl, rfl, rfl, rfl, rfl⟩

/-- C13 fails for an index out of range. With `count = 0` or `size = 0` the call fails
by assertion, whatever the index. With `count ≥ 1`, `size ≥ 1` and
`buffer_idx >= max_buffers` the call does not fail by assertion: before its guard on the
range of the index, `vkl_alloc_buffers` reads `allocated_sizes[buffer_idx]`, outside the
array of `max_buffers` entries, which is undefined behaviour. On the fresh context with
`max_buffers = 8`, `vkl_alloc_buffers(context, 9, 1, 100)` is such a call, and so is the
call with the first index out of range, 8. -/
theorem alloc_out_of_range_reads_before_guard :
    (∀ (ctx : VklContext) (buffer_idx count size : Nat), count = 0 ∨ size = 0 →
      vkl_alloc_buffers ctx buffer_idx count size = .error .assertion) ∧
    (∀ (ctx : VklContext) (buffer_idx count size : Nat), 1 ≤ count → 1 ≤ size →
      buffer_idx ≥ ctx.max_buffers →
      vkl_alloc_buffers ctx buffer_idx count size = .error .undefined) ∧
    (∃ ctx0, vkl_context 8 8 (fun _ => 1024) 16 (fun _ => (1, 1, 1)) = .ok ctx0 ∧
      ctx0.max_buffers = 8 ∧
      vkl_alloc_buffers ctx0 9 1 100 = .error .undefined ∧
      vkl_alloc_buffers ctx0 8 1 100 = .error .undefined ∧
      vkl_alloc_buffers ctx0 9 1 100 ≠ .error .assertion ∧
      vkl_alloc_buffers ctx0 9 0 100 = .error .assertion ∧
      vkl_alloc_buffers ctx0 9 1 0 = .error .assertion) := by
  refine ⟨?_, ?_, _, rfl, rfl, rfl, rfl, ?_, rfl, rfl⟩
  · intro ctx buffer_idx count size h
    unfold vkl_alloc_buffers
    by_cases hc : count > 0
    · have hs : ¬ (size > 0) := by omega
      rw [if_neg (not_not.2 hc), if_pos hs]
    · rw [if_pos hc]
  · intro ctx buffer_idx count size hc hs hb
    have hc1 : count > 0 := hc
    have hs1 : size > 0 := hs
    unfold vkl_alloc_buffers
    rw [if_neg (not_not.2 hc1), if_neg (not_not.2 hs1), if_pos hb]
  · intro h
    have e : vkl_alloc_buffers
        { fifo := { capacity := 8, head := 0, tail := 0, items := fun _ => NULL },
          transfers := fun _ => VklTransfer.zero, transfer_mode := 0, max_buffers := 8,
          buffers := fun i =>
            if i < VKL_DEFAULT_BUFFER_COUNT then { size := 1024, created := true }
            else { size := 0, created := false },
          allocated_sizes := fun _ => 0, alignment := 16,
          texture_shape := fun _ => (1, 1, 1), handled := [], executed := [] } 9 1 100
        = .error .undefined := rfl
    rw [e] at h
    cases h

/-- C14 fails: `vkl_context_reset` recreates the default buffers with their default
sizes but never touches `allocated_sizes`. On the fresh context (buffers of 1024 bytes),
after `vkl_alloc_buffers(context, vertex, 1, 2000)` the vertex watermark is 2000 and the
buffer has 2048 bytes; after the reset the buffer has 1024 bytes again and the watermark
is still 2000, above the buffer size, the next lease of 10 bytes starts at offset 2000,
not 0, and a request of 100 bytes fails the capacity assertion of `vkl_alloc_buffers`.
In general the reset leaves every watermark as it was. -/
theorem context_reset_keeps_watermarks :
    (∀ (default_size : Nat → Nat) (ctx : VklContext),
      (vkl_context_reset default_size ctx).allocated_sizes = ctx.allocated_sizes ∧
      ∀ i, i < VKL_DEFAULT_BUFFER_COUNT →
        (vkl_context_reset default_size ctx).buffers i
          = { size := default_size i, created := true }) ∧
    ∃ ctx0 ctx1 l1 ctx2 l2,
      vkl_context 8 8 (fun _ => 1024) 16 (fun _ => (1, 1, 1)) = .ok ctx0 ∧
      vkl_alloc_buffers ctx0 VKL_DEFAULT_BUFFER_VERTEX 1 2000 = .ok (ctx1, l1) ∧
      ctx1.allocated_sizes VKL_DEFAULT_BUFFER_VERTEX = 2000 ∧
      (ctx1.buffers VKL_DEFAULT_BUFFER_VERTEX).size = 2048 ∧
      (vkl_context_reset (fun _ => 1024) ctx1).allocated_sizes VKL_DEFAULT_BUFFER_VERTEX
        = 2000 ∧
      ((vkl_context_reset (fun _ => 1024) ctx1).buffers VKL_DEFAULT_BUFFER_VERTEX).size
        = 1024 ∧
      vkl_alloc_buffers (vkl_context_reset (fun _ => 1024) ctx1) VKL_DEFAULT_BUFFER_VERTEX 1 10
        = .ok (ctx2, l2) ∧
      l2.offsets = [2000] ∧
      vkl_alloc_buffers (vkl_context_reset (fun _ => 1024) ctx1) VKL_DEFAULT_BUFFER_VERTEX 1 100
        = .error .assertion := by
  refine ⟨fun ds ctx => ⟨rfl, fun i hi => ?_⟩, _, _, _, _, _, rfl, rfl, rfl, rfl, rfl, rfl,
    rfl, rfl, rfl⟩
  show (if i < VKL_DEFAULT_BUFFER_COUNT then _ else _) = _
  rw [if_pos hi]

/-! ## Claims on textures -/

/-- C15. Texture dimensionality: `image_type_from_dims` returns the 1D, 2D and 3D image
type for `dims` 1, 2 and 3, and the 2D image type for every other value of `dims` (0 and
every value from 4 on); `vkl_new_texture` creates, for every `dims`, a texture whose image
has the type `image_type_from_dims dims`, the requested format and size, and is created,
with a created sampler. -/
theorem texture_dimensionality (sampler0 : VklSampler) (dims : Nat) (size : uvec3)
    (format : Nat) :
    image_type_from_dims 1 = .VK_IMAGE_TYPE_1D ∧
    image_type_from_dims 2 = .VK_IMAGE_TYPE_2D ∧
    image_type_from_dims 3 = .VK_IMAGE_TYPE_3D ∧
    (dims ≠ 1 → dims ≠ 2 → dims ≠ 3 → image_type_from_dims dims = .VK_IMAGE_TYPE_2D) ∧
    (vkl_new_texture sampler0 dims size format).image.image_type = image_type_from_dims dims ∧
    (vkl_new_texture sampler0 dims size format).image.created = true ∧
    (vkl_new_texture sampler0 dims size format).image.count = 1 ∧
    (vkl_new_texture sampler0 dims size format).image.format = format ∧
    (vkl_new_texture sampler0 dims size format).image.size = size ∧
    (vkl_new_texture sampler0 dims size format).sampler.created = true := by
  refine ⟨rfl, rfl, rfl, ?_, rfl, rfl, rfl, rfl, rfl, rfl⟩
  intro h1 h2 h3
  match dims, h1, h2, h3 with
  | 0, _, _, _ => rfl
  | 1, h1, _, _ => exact absurd rfl h1
  | 2, _, h2, _ => exact absurd rfl h2
  | 3, _, _, h3 => exact absurd rfl h3
  | _ + 4, _, _, _ => rfl

theorem texture_dimensionality_witness :
    image_type_from_dims 7 = .VK_IMAGE_TYPE_2D ∧ image_type_from_dims 0 = .VK_IMAGE_TYPE_2D ∧
    (vkl_new_texture zeroSampler 7 (16, 16, 1) 37).image.image_type = .VK_IMAGE_TYPE_2D :=
  ⟨(texture_dimensionality zeroSampler 7 (16, 16, 1) 37).2.2.2.1
      (by decide) (by decide) (by decide),
    rfl, rfl⟩

/-- C16 fails on the W axis: `vkl_new_texture` sets the min and mag filters to nearest and
the address mode to clamp-to-edge on the axes U and V, naming V in two calls; no call
names the axis W, whose address mode stays what `vkl_sampler(gpu)` gave: on a
zero-initialised sampler it is repeat, not clamp-to-edge. -/
theorem new_texture_sampler_axis_w_not_set :
    (∀ (sampler0 : VklSampler) (dims : Nat) (size : uvec3) (format : Nat),
      (vkl_new_texture sampler0 dims size format).sampler.min_filter = .VK_FILTER_NEAREST ∧
      (vkl_new_texture sampler0 dims size format).sampler.mag_filter = .VK_FILTER_NEAREST ∧
      (vkl_new_texture sampler0 dims size format).sampler.address_modes .VKL_TEXTURE_AXIS_U
        = .VK_SAMPLER_ADDRESS_MODE_CLAMP_TO_EDGE ∧
      (vkl_new_texture sampler0 dims size format).sampler.address_modes .VKL_TEXTURE_AXIS_V
        = .VK_SAMPLER_ADDRESS_MODE_CLAMP_TO_EDGE ∧
      (vkl_new_texture sampler0 dims size format).sampler.address_modes .VKL_TEXTURE_AXIS_W
        = sampler0.address_modes .VKL_TEXTURE_AXIS_W ∧
      (vkl_new_texture sampler0 dims size format).sampler.calls
        = sampler0.calls ++
          [.min_filter .VK_FILTER_NEAREST, .mag_filter .VK_FILTER_NEAREST,
           .address_mode .VKL_TEXTURE_AXIS_U .VK_SAMPLER_ADDRESS_MODE_CLAMP_TO_EDGE,
           .address_mode .VKL_TEXTURE_AXIS_V .VK_SAMPLER_ADDRESS_MODE_CLAMP_TO_EDGE,
           .address_mode .VKL_TEXTURE_AXIS_V .VK_SAMPLER_ADDRESS_MODE_CLAMP_TO_EDGE,
           .create]) ∧
    (vkl_new_texture zeroSampler 2 (16, 16, 1) 37).sampler.address_modes .VKL_TEXTURE_AXIS_W
      = .VK_SAMPLER_ADDRESS_MODE_REPEAT ∧
    (vkl_new_texture zeroSampler 2 (16, 16, 1) 37).sampler.address_modes .VKL_TEXTURE_AXIS_W
      ≠ .VK_SAMPLER_ADDRESS_MODE_CLAMP_TO_EDGE ∧
    (∀ m, SamplerCall.address_mode .VKL_TEXTURE_AXIS_W m
      ∉ (vkl_new_texture zeroSampler 2 (16, 16, 1) 37).sampler.calls) := by
  refine ⟨fun sampler0 dims size format => ⟨rfl, rfl, rfl, rfl, rfl, ?_⟩, rfl, by decide, ?_⟩
  · simp [vkl_new_texture, vkl_sampler_create, vkl_sampler_address_mode,
      vkl_sampler_mag_filter, vkl_sampler_min_filter]
  · intro m hm
    simp [vkl_new_texture, vkl_sampler_create, vkl_sampler_address_mode,
      vkl_sampler_mag_filter, vkl_sampler_min_filter, zeroSampler] at hm

/-! ## Lemmas and claims on the bytes of the buffer transfers -/

theorem aligned_repeat_first (size : Nat) (data : Nat → Nat) (count alignment j : Nat)
    (hj : j < size) (hc : 0 < count) (hw : roundUp size alignment < U64) :
    (aligned_repeat size data count alignment).bytes j = data j := by
  unfold aligned_repeat
  dsimp only
  have hs : size ≤ (if alignment > 0 then roundUp size alignment % U64 else size) := by
    by_cases ha : alignment > 0
    · rw [if_pos ha, Nat.mod_eq_of_lt hw]
      exact (roundUp_props size alignment ha).1
    · rw [if_neg ha]
  generalize (if alignment > 0 then roundUp size alignment % U64 else size) = alsize at hs
  have hlt : j < alsize := by omega
  rw [Nat.div_eq_of_lt hlt, Nat.mod_eq_of_lt hlt, if_pos ⟨hc, hj⟩]


theorem vkl_buffer_upload_ok (context : VklContext) (mem : Memory) (buffer offset size : Nat)
    (data : HostArray) (hd : size ≤ data.size)
    (h : offset + size ≤ (context.buffers buffer).size) :
    vkl_buffer_upload context mem buffer offset size data
      = .ok { mem with
              buffer := fun b j =>
                if b = buffer ∧ offset ≤ j ∧ j < offset + size then data.bytes (j - offset)
                else mem.buffer b j } := by
  unfold vkl_buffer_upload
  rw [if_neg (by omega), if_neg (by omega)]

theorem vkl_buffer_download_ok (context : VklContext) (mem : Memory) (buffer offset size : Nat)
    (data : Ptr) (h : offset + size ≤ (context.buffers buffer).size) :
    vkl_buffer_download context mem buffer offset size data
      = .ok { mem with
              host := fun p =>
                if data ≤ p ∧ p < data + size then mem.buffer buffer (offset + (p - data))
                else mem.host p } := by
  unfold vkl_buffer_download
  rw [if_neg (by omega)]

theorem copyRegion_ok (context : VklContext) (mem : Memory) (src dst : Nat) (r : VkBufferCopy)
    (hs : r.srcOffset + r.size ≤ (context.buffers src).size)
    (hd : r.dstOffset + r.size ≤ (context.buffers dst).size) :
    copyRegion context mem src dst r
      = .ok { mem with
              buffer := fun b j =>
                if b = dst ∧ r.dstOffset ≤ j ∧ j < r.dstOffset + r.size then
                  mem.buffer src (r.srcOffset + (j - r.dstOffset))
                else mem.buffer b j } := by
  unfold copyRegion
  rw [if_neg (by omega)]

/-- The upload of `size` bytes at transfer offset 0 to a lease of one region, when the
bytes it stages exceed neither the array that `aligned_repeat` returns nor the staging
buffer: the bytes of the data are in the region afterwards. -/
theorem process_buffer_upload_single (mem : Memory) (ctx : VklContext)
    (regions : VklBufferRegions) (b size : Nat) (data : Ptr)
    (hcount : regions.count = 1) (hbuf : regions.buffer = some b)
    (hsize : 1 ≤ size) (hle : size ≤ regions.size)
    (hin : regions.offsets.getD 0 0 + regions.size ≤ (ctx.buffers b).size)
    (hal : regions.aligned_size ≠ 0 → regions.size ≤ regions.aligned_size)
    (hrd : (if regions.aligned_size = 0 then size else regions.aligned_size)
      ≤ (if regions.alignment > 0 then roundUp size regions.alignment else size))
    (hst : (if regions.aligned_size = 0 then size else regions.aligned_size)
      ≤ (ctx.buffers VKL_DEFAULT_BUFFER_STAGING).size)
    (hu1 : (ctx.buffers VKL_DEFAULT_BUFFER_STAGING).size < U64)
    (hu2 : (ctx.buffers b).size < U64)
    (hw : roundUp size regions.alignment < U64) :
    ∃ mem1, mem.process_buffer_upload ctx
        { type := VKL_TRANSFER_BUFFER_UPLOAD, u := .buf regions 0 size data } = .ok mem1 ∧
      mem1.host = mem.host ∧
      ∀ k, k < size → mem1.buffer b (regions.offsets.getD 0 0 + k) = mem.host (data + k) := by
  unfold Memory.process_buffer_upload
  rw [if_neg (by simp)]
  dsimp only
  have hsz : size > 0 := hsize
  rw [if_neg (not_not.2 hsz)]
  have hals : size ≤ (if regions.aligned_size = 0 then size else regions.aligned_size) := by
    by_cases h0 : regions.aligned_size = 0
    · rw [if_pos h0]
    · rw [if_neg h0]; exact Nat.le_trans hle (hal h0)
  generalize (if regions.aligned_size = 0 then size else regions.aligned_size) = alsize
    at hst hals hrd
  have hap : alsize > 0 := by omega
  have hd : alsize ≤ (aligned_repeat size (mem.bytes data) 1 regions.alignment).size := by
    show alsize ≤ (if regions.alignment > 0 then roundUp size regions.alignment % U64
      else size) * 1
    rw [Nat.mul_one]
    by_cases ha : regions.alignment > 0
    · rw [if_pos ha] at hrd
      rw [if_pos ha, Nat.mod_eq_of_lt hw]
      exact hrd
    · rw [if_neg ha] at hrd
      rw [if_neg ha]
      exact hrd
  rw [if_neg (not_not.2 hap), hcount, Nat.mul_one, Nat.mod_eq_of_lt (by omega),
    vkl_buffer_upload_ok _ _ _ _ _ _ hd (by omega)]
  dsimp only
  rw [hbuf]
  dsimp only
  have hr : List.range 1 = [0] := rfl
  rw [hr]
  simp only [List.map, Nat.zero_mul, Nat.add_zero, Nat.zero_add]
  rw [Nat.mod_eq_of_lt (show 0 < U64 by decide), Nat.mod_eq_of_lt (show
    regions.offsets.getD 0 0 < U64 by omega)]
  unfold vkCmdCopyBuffer
  rw [copyRegion_ok _ _ _ _ _ (by dsimp only; omega) (by dsimp only; omega)]
  dsimp only
  unfold vkCmdCopyBuffer
  refine ⟨_, rfl, rfl, fun k hk => ?_⟩
  dsimp only
  rw [if_pos ⟨rfl, by omega, by omega⟩, if_pos ⟨rfl, by omega, by omega⟩]
  have e : regions.offsets.getD 0 0 + k - regions.offsets.getD 0 0 = k := by omega
  rw [e, Nat.zero_add, Nat.sub_zero]
  exact aligned_repeat_first size (mem.bytes data) 1 regions.alignment k hk (by decide) hw

/-- The download of `size` bytes at transfer offset 0 from a lease of one region: the
bytes of the region are at the caller's address afterwards. -/
theorem process_buffer_download_single (mem : Memory) (ctx : VklContext)
    (regions : VklBufferRegions) (b size : Nat) (data : Ptr)
    (hcount : regions.count = 1) (hbuf : regions.buffer = some b)
    (hle : size ≤ regions.size)
    (hin : regions.offsets.getD 0 0 + regions.size ≤ (ctx.buffers b).size)
    (hst : size ≤ (ctx.buffers VKL_DEFAULT_BUFFER_STAGING).size)
    (hu1 : (ctx.buffers VKL_DEFAULT_BUFFER_STAGING).size < U64)
    (hu2 : (ctx.buffers b).size < U64) :
    ∃ mem1, mem.process_buffer_download ctx
        { type := VKL_TRANSFER_BUFFER_DOWNLOAD, u := .buf regions 0 size data } = .ok mem1 ∧
      (∀ k, k < size → mem1.host (data + k) = mem.buffer b (regions.offsets.getD 0 0 + k)) ∧
      ∀ p, ¬ (data ≤ p ∧ p < data + size) → mem1.host p = mem.host p := by
  unfold Memory.process_buffer_download
  rw [if_neg (by simp)]
  dsimp only
  rw [hcount, if_neg (by
    rw [not_not]
    intro i hi h1
    have : i < 1 := List.mem_range.1 hi
    omega)]
  rw [hbuf]
  dsimp only
  unfold vkl_cmd_copy_buffer
  rw [Nat.add_zero, Nat.mul_one, Nat.mod_eq_of_lt (show regions.offsets.getD 0 0 < U64 by omega),
    Nat.mod_eq_of_lt (show size < U64 by omega),
    copyRegion_ok _ _ _ _ _ (by dsimp only; omega) (by dsimp only; omega)]
  dsimp only
  rw [vkl_buffer_download_ok _ _ _ _ _ _ (by omega)]
  refine ⟨_, rfl, fun k hk => ?_, fun p hp => ?_⟩
  · dsimp only
    have c1 : data ≤ data + k ∧ data + k < data + size :=
      ⟨Nat.le_add_right _ _, Nat.add_lt_add_left hk _⟩
    have e : data + k - data = k := Nat.add_sub_cancel_left _ _
    rw [if_pos c1, e]
    have c2 : VKL_DEFAULT_BUFFER_STAGING = VKL_DEFAULT_BUFFER_STAGING ∧ 0 ≤ 0 + k
        ∧ 0 + k < 0 + size := ⟨rfl, by omega, by omega⟩
    rw [if_pos c2, Nat.zero_add, Nat.sub_zero]
  · dsimp only
    rw [if_neg hp]
/-- A call of the transfer API in synchronous mode: the call returns, whatever the
queue holds, its task is executed, the queue invariant and the buffers are kept. -/
theorem sync_call_executes (ctx : VklContext) (call : TransferCall) (h : ctx.QueueInv)
    (hsync : ctx.transfer_mode = VKL_TRANSFER_MODE_SYNC) (hargs : call.argsOk) :
    ∃ ctx1, call.apply ctx = .ok ctx1 ∧ ctx1.QueueInv ∧
      ctx1.transfer_mode = ctx.transfer_mode ∧ ctx1.buffers = ctx.buffers ∧
      ctx1.texture_shape = ctx.texture_shape ∧
      ctx1.executed = ctx.executed ++ [call.task ctx.texture_shape] := by
  have hb := VklFifo.count_bounds h.1
  have hk := (TransferCall.task_known ctx.texture_shape call).1
  rw [TransferCall.apply_eq ctx call hargs]
  by_cases hnf : ctx.fifo.count < ctx.fifo.capacity - 1
  · rw [enqueue_transfer_notfull h hnf, if_pos hsync]
    exact ⟨_, rfl, VklContext.pushed_inv h hnf (call.task ctx.texture_shape), rfl, rfl, rfl,
      VklContext.logged_executed _ hk⟩
  · have hf : ctx.fifo.count = ctx.fifo.capacity - 1 := by omega
    rw [enqueue_transfer_full h hf, if_pos hsync]
    exact ⟨_, rfl, (VklContext.overflowed_inv h (call.task ctx.texture_shape)).1, rfl, rfl,
      rfl,
      VklContext.logged_executed _ hk⟩

/-- C17 fails for an aligned lease: `process_buffer_upload` stages the `aligned_size` of
the lease, whatever the size of the transfer, out of the array that `aligned_repeat`
builds for the size of the transfer. On the fresh context (alignment 16, staging buffer
of 1024 bytes) with a uniform lease of one region of 100 bytes (`aligned_size` 112), the
upload of the 2 bytes 7, 9 at transfer offset 0, a size that exceeds neither the region
size nor the staging buffer size, is accepted by `vkl_buffer_regions_upload`, executed in
synchronous mode, and copies 112 bytes out of the array of 16 bytes, past its end. With a
uniform lease of one region of 2000 bytes the upload of 1 byte also copies 2000 bytes
into the staging buffer of 1024 bytes. In general the upload is undefined whenever the
bytes it stages exceed the array. -/
theorem upload_stages_aligned_size_of_lease :
    (∀ (mem : Memory) (ctx : VklContext) (regions : VklBufferRegions) (offset size : Nat)
      (data : Ptr), 1 ≤ size → regions.aligned_size ≠ 0 →
      (aligned_repeat size (mem.bytes data) regions.count regions.alignment).size
        < (regions.aligned_size * regions.count) % U64 →
      mem.process_buffer_upload ctx
        ⟨VKL_TRANSFER_BUFFER_UPLOAD, .buf regions offset size data⟩ = .error .undefined) ∧
    (∃ ctx0 ctx1 lease ctx2,
      vkl_context 8 8 (fun _ => 1024) 16 (fun _ => (1, 1, 1)) = .ok ctx0 ∧
      vkl_alloc_buffers ctx0 VKL_DEFAULT_BUFFER_UNIFORM 1 100 = .ok (ctx1, lease) ∧
      lease.count = 1 ∧ lease.size = 100 ∧ lease.aligned_size = 112 ∧ lease.alignment = 16 ∧
      lease.offsets = [0] ∧
      ctx1.transfer_mode = VKL_TRANSFER_MODE_SYNC ∧
      (ctx1.buffers VKL_DEFAULT_BUFFER_STAGING).size = 1024 ∧
      (ctx1.buffers VKL_DEFAULT_BUFFER_UNIFORM).size = 1024 ∧
      vkl_buffer_regions_upload ctx1 (some lease) 0 2 100 = .ok ctx2 ∧
      ctx2.executed = [⟨VKL_TRANSFER_BUFFER_UPLOAD, .buf lease 0 2 100⟩] ∧
      (aligned_repeat 2 (mem79.bytes 100) 1 16).size = 16 ∧
      mem79.process_buffer_upload ctx1 ⟨VKL_TRANSFER_BUFFER_UPLOAD, .buf lease 0 2 100⟩
        = .error .undefined) ∧
    (∃ ctx0 ctx1 lease ctx2,
      vkl_context 8 8 (fun _ => 1024) 16 (fun _ => (1, 1, 1)) = .ok ctx0 ∧
      vkl_alloc_buffers ctx0 VKL_DEFAULT_BUFFER_UNIFORM 1 2000 = .ok (ctx1, lease) ∧
      lease.count = 1 ∧ lease.size = 2000 ∧ lease.aligned_size = 2000 ∧
      ctx1.transfer_mode = VKL_TRANSFER_MODE_SYNC ∧
      (ctx1.buffers VKL_DEFAULT_BUFFER_STAGING).size = 1024 ∧
      (ctx1.buffers VKL_DEFAULT_BUFFER_UNIFORM).size = 2048 ∧
      vkl_buffer_regions_upload ctx1 (some lease) 0 1 100 = .ok ctx2 ∧
      ctx2.executed = [⟨VKL_TRANSFER_BUFFER_UPLOAD, .buf lease 0 1 100⟩] ∧
      mem79.process_buffer_upload ctx1 ⟨VKL_TRANSFER_BUFFER_UPLOAD, .buf lease 0 1 100⟩
        = .error .undefined) := by
  refine ⟨?_, ⟨_, _, _, _, rfl, rfl, rfl, rfl, rfl, rfl, rfl, rfl, rfl, rfl, rfl, rfl, rfl, rfl⟩,
    ⟨_, _, _, _, rfl, rfl, rfl, rfl, rfl, rfl, rfl, rfl, rfl, rfl, rfl⟩⟩
  intro mem ctx regions offset size data hsize hne hlt
  have hsz : size > 0 := hsize
  have hap : regions.aligned_size > 0 := Nat.pos_of_ne_zero hne
  unfold Memory.process_buffer_upload
  rw [if_neg (by simp)]
  dsimp only
  rw [if_neg (not_not.2 hsz), if_neg hne, if_neg (not_not.2 hap)]
  unfold vkl_buffer_upload
  rw [if_pos hlt]

/-- The round trip where the upload stages no more than it may: in synchronous mode, for
a lease of one region that lies inside its buffer, every `size ≥ 1` not exceeding the
region size, such that the bytes staged by the upload (the `aligned_size` of the lease,
or `size` when the lease is unaligned) exceed neither the array that `aligned_repeat`
returns nor the staging buffer, and every data of that length at the host address
`data`: `vkl_buffer_regions_upload` at transfer offset 0 followed by
`vkl_buffer_regions_download` of the same lease, offset and size both return, execute
the upload task and then the download task, and these two tasks write into the
destination `dst` exactly the bytes of the data. Sizes are `VkDeviceSize` values, and
`size` rounded up to the alignment of the lease does not wrap around. -/
theorem buffer_roundtrip (ctx : VklContext) (mem : Memory) (regions : VklBufferRegions)
    (b size : Nat) (data dst : Ptr)
    (h : ctx.QueueInv) (hsync : ctx.transfer_mode = VKL_TRANSFER_MODE_SYNC)
    (hcount : regions.count = 1) (hbuf : regions.buffer = some b)
    (hsize : 1 ≤ size) (hle : size ≤ regions.size)
    (hin : regions.offsets.getD 0 0 + regions.size ≤ (ctx.buffers b).size)
    (hal : regions.aligned_size ≠ 0 → regions.size ≤ regions.aligned_size)
    (hrd : (if regions.aligned_size = 0 then size else regions.aligned_size)
      ≤ (if regions.alignment > 0 then roundUp size regions.alignment else size))
    (hst : (if regions.aligned_size = 0 then size else regions.aligned_size)
      ≤ (ctx.buffers VKL_DEFAULT_BUFFER_STAGING).size)
    (hu1 : (ctx.buffers VKL_DEFAULT_BUFFER_STAGING).size < U64)
    (hu2 : (ctx.buffers b).size < U64)
    (hw : roundUp size regions.alignment < U64) :
    ∃ ctx1 ctx2 mem1 mem2,
      vkl_buffer_regions_upload ctx (some regions) 0 size data = .ok ctx1 ∧
      vkl_buffer_regions_download ctx1 (some regions) 0 size dst = .ok ctx2 ∧
      ctx2.executed = ctx.executed ++
        [⟨VKL_TRANSFER_BUFFER_UPLOAD, .buf regions 0 size data⟩,
         ⟨VKL_TRANSFER_BUFFER_DOWNLOAD, .buf regions 0 size dst⟩] ∧
      ctx2.buffers = ctx.buffers ∧
      mem.process_buffer_upload ctx ⟨VKL_TRANSFER_BUFFER_UPLOAD, .buf regions 0 size data⟩
        = .ok mem1 ∧
      mem1.process_buffer_download ctx1
        ⟨VKL_TRANSFER_BUFFER_DOWNLOAD, .buf regions 0 size dst⟩ = .ok mem2 ∧
      ∀ k, k < size → mem2.host (dst + k) = mem.host (data + k) := by
  obtain ⟨ctx1, e1, hinv1, hm1, hb1, _, hx1⟩ :=
    sync_call_executes ctx (.buffer_regions_upload (some regions) 0 size data) h hsync
      (by simp [TransferCall.argsOk])
  obtain ⟨ctx2, e2, _, _, hb2, _, hx2⟩ :=
    sync_call_executes ctx1 (.buffer_regions_download (some regions) 0 size dst) hinv1
      (hm1.trans hsync) (by simp [TransferCall.argsOk])
  obtain ⟨mem1, u1, _, hu⟩ := process_buffer_upload_single mem ctx regions b size data
    hcount hbuf hsize hle hin hal hrd hst hu1 hu2 hw
  have hst2 : size ≤ (ctx1.buffers VKL_DEFAULT_BUFFER_STAGING).size := by
    rw [hb1]
    by_cases h0 : regions.aligned_size = 0
    · rw [if_pos h0] at hst; exact hst
    · rw [if_neg h0] at hst; exact Nat.le_trans (Nat.le_trans hle (hal h0)) hst
  obtain ⟨mem2, d1, hd, _⟩ := process_buffer_download_single mem1 ctx1 regions b size dst
    hcount hbuf hle (by rw [hb1]; exact hin) hst2 (by rw [hb1]; exact hu1)
    (by rw [hb1]; exact hu2)
  refine ⟨ctx1, ctx2, mem1, mem2, e1, e2, ?_, hb2.trans hb1, u1, d1, fun k hk => ?_⟩
  · rw [hx2, hx1, List.append_assoc]
    rfl
  · rw [hd k hk, hu k hk]

theorem buffer_roundtrip_witness :
    ∃ ctx0 ctx1 lease ctx2 ctx3 mem1 mem2,
      vkl_context 8 8 (fun _ => 1024) 16 (fun _ => (1, 1, 1)) = .ok ctx0 ∧
      vkl_alloc_buffers ctx0 VKL_DEFAULT_BUFFER_VERTEX 1 4 = .ok (ctx1, lease) ∧
      vkl_buffer_regions_upload ctx1 (some lease) 0 2 100 = .ok ctx2 ∧
      vkl_buffer_regions_download ctx2 (some lease) 0 2 200 = .ok ctx3 ∧
      mem79.process_buffer_upload ctx1 ⟨VKL_TRANSFER_BUFFER_UPLOAD, .buf lease 0 2 100⟩
        = .ok mem1 ∧
      mem1.process_buffer_download ctx2 ⟨VKL_TRANSFER_BUFFER_DOWNLOAD, .buf lease 0 2 200⟩
        = .ok mem2 ∧
      mem2.host 200 = 7 ∧ mem2.host 201 = 9 := by
  obtain ⟨ctx0, e0, hinv, _⟩ :=
    vkl_context_ok 8 8 (fun _ => 1024) 16 (fun _ => (1, 1, 1)) (by decide)
  have e0r : vkl_context 8 8 (fun _ => 1024) 16 (fun _ => (1, 1, 1)) = .ok
      { fifo := { capacity := 8, head := 0, tail := 0, items := fun _ => NULL },
        transfers := fun _ => VklTransfer.zero, transfer_mode := 0, max_buffers := 8,
        buffers := fun i =>
          if i < VKL_DEFAULT_BUFFER_COUNT then { size := 1024, created := true }
          else { size := 0, created := false },
        allocated_sizes := fun _ => 0, alignment := 16,
        texture_shape := fun _ => (1, 1, 1), handled := [], executed := [] } := rfl
  have e00 := Except.ok.inj (e0.symm.trans e0r)
  subst e00
  obtain ⟨ctx1, lease, e1, hq⟩ : ∃ ctx1 lease,
      vkl_alloc_buffers
        { fifo := { capacity := 8, head := 0, tail := 0, items := fun _ => NULL },
          transfers := fun _ => VklTransfer.zero, transfer_mode := 0, max_buffers := 8,
          buffers := fun i =>
            if i < VKL_DEFAULT_BUFFER_COUNT then { size := 1024, created := true }
            else { size := 0, created := false },
          allocated_sizes := fun _ => 0, alignment := 16,
          texture_shape := fun _ => (1, 1, 1), handled := [], executed := [] }
        VKL_DEFAULT_BUFFER_VERTEX 1 4 = .ok (ctx1, lease) ∧
      (ctx1.QueueInv ∧ ctx1.transfer_mode = VKL_TRANSFER_MODE_SYNC ∧ lease.count = 1 ∧
        lease.buffer = some 1 ∧ lease.size = 4 ∧ lease.offsets = [0] ∧
        lease.aligned_size = 0 ∧ lease.alignment = 0 ∧
        (ctx1.buffers 1).size = 1024 ∧ (ctx1.buffers VKL_DEFAULT_BUFFER_STAGING).size = 1024) :=
    ⟨_, _, rfl, hinv, rfl, rfl, rfl, rfl, rfl, rfl, rfl, rfl, rfl⟩
  obtain ⟨hinv1, hsync, hcount, hbuf, hsz, hoff, hal, han, hb1, hb0⟩ := hq
  obtain ⟨ctx2, ctx3, mem1, mem2, u1, u2, _, _, m1, m2, hk⟩ :=
    buffer_roundtrip ctx1 mem79 lease 1 2 100 200 hinv1 hsync hcount hbuf (by decide)
      (by rw [hsz]; decide) (by rw [hoff, hsz, hb1]; decide)
      (fun hne => absurd hal hne) (by rw [if_pos hal, han]; decide)
      (by rw [if_pos hal, hb0]; decide)
      (by rw [hb0]; decide) (by rw [hb1]; decide) (by rw [han]; decide)
  exact ⟨_, ctx1, lease, ctx2, ctx3, mem1, mem2, e0r, e1, u1, u2, m1, m2, hk 0 (by decide),
    hk 1 (by decide)⟩

/-- C18 fails for a transfer offset other than 0, and for a transfer smaller than the
regions of an unaligned lease of several regions. (1) Vertex lease of one region of 4
bytes at offset 0, upload of the 2 bytes 7, 9 at transfer offset 1: the copy of the data
is at the staging offsets 0 and 1, and the copy region reads staging from offset 1, so
the device bytes 1 and 2 are 9 and 0, not 7 and 9. (2) Vertex lease of 2 regions of 4 bytes
(offsets 0 and 4), upload of 2 bytes at transfer offset 0: the second copy region writes
to the device offset 2, inside region 0, and the bytes of region 1 are not written. -/
theorem upload_offset_reads_shifted_staging :
    ∃ ctx0 ctx1 lease mem1 ctx2 lease2 mem2,
      vkl_context 8 8 (fun _ => 1024) 16 (fun _ => (1, 1, 1)) = .ok ctx0 ∧
      mem79.host 100 = 7 ∧ mem79.host 101 = 9 ∧
      vkl_alloc_buffers ctx0 VKL_DEFAULT_BUFFER_VERTEX 1 4 = .ok (ctx1, lease) ∧
      lease.offsets = [0] ∧ lease.size = 4 ∧
      mem79.process_buffer_upload ctx1 ⟨VKL_TRANSFER_BUFFER_UPLOAD, .buf lease 1 2 100⟩
        = .ok mem1 ∧
      mem1.buffer VKL_DEFAULT_BUFFER_STAGING 0 = 7 ∧
      mem1.buffer VKL_DEFAULT_BUFFER_STAGING 1 = 9 ∧
      mem1.buffer VKL_DEFAULT_BUFFER_VERTEX (0 + 1) = 9 ∧
      mem1.buffer VKL_DEFAULT_BUFFER_VERTEX (0 + 1 + 1) = 0 ∧
      vkl_alloc_buffers ctx0 VKL_DEFAULT_BUFFER_VERTEX 2 4 = .ok (ctx2, lease2) ∧
      lease2.offsets = [0, 4] ∧ lease2.size = 4 ∧
      mem79.process_buffer_upload ctx2 ⟨VKL_TRANSFER_BUFFER_UPLOAD, .buf lease2 0 2 100⟩
        = .ok mem2 ∧
      mem2.buffer VKL_DEFAULT_BUFFER_VERTEX 0 = 7 ∧
      mem2.buffer VKL_DEFAULT_BUFFER_VERTEX 1 = 9 ∧
      mem2.buffer VKL_DEFAULT_BUFFER_VERTEX 2 = 7 ∧
      mem2.buffer VKL_DEFAULT_BUFFER_VERTEX 3 = 9 ∧
      mem2.buffer VKL_DEFAULT_BUFFER_VERTEX 4 = 0 ∧
      mem2.buffer VKL_DEFAULT_BUFFER_VERTEX (4 + 1) = 0 :=
  ⟨_, _, _, _, _, _, _, rfl, rfl, rfl, rfl, rfl, rfl, rfl, rfl, rfl, rfl, rfl, rfl, rfl, rfl,
    rfl, rfl, rfl, rfl, rfl, rfl, rfl⟩

/-! ## Lemmas and claims on the canvas -/

theorem vkl_canvas_frame_submit_loop_eq (l : List VklCommands) :
    ∀ (i : Nat) (trace : List CanvasOp),
      vkl_canvas_frame_submit_loop i l trace
        = trace ++ (submitSets i l).map CanvasOp.submit_commands := by
  induction l with
  | nil => intro i trace; simp [vkl_canvas_frame_submit_loop, submitSets]
  | cons c rest ih =>
    intro i trace
    unfold vkl_canvas_frame_submit_loop submitSets
    by_cases h1 : c.status = VKL_OBJECT_STATUS_NONE
    · simp [h1]
    · rw [if_neg h1, if_neg h1]
      by_cases h2 : c.status = VKL_OBJECT_STATUS_INACTIVE
      · rw [if_pos h2, if_pos h2, ih]
      · rw [if_neg h2, if_neg h2]
        by_cases h3 : c.queue_idx = VKL_DEFAULT_QUEUE_RENDER
        · rw [if_pos h3, if_pos h3, ih]
          simp
        · rw [if_neg h3, if_neg h3, ih]

theorem submit_cur_frame (canvas : VklCanvas) :
    (vkl_canvas_frame_submit canvas).cur_frame
      = (canvas.cur_frame + 1) % U32 % VKL_MAX_FRAMES_IN_FLIGHT := rfl

theorem submit_toggles (canvas : VklCanvas) (h : canvas.cur_frame < 2) :
    (vkl_canvas_frame_submit canvas).cur_frame = (canvas.cur_frame + 1) % 2 ∧
    (vkl_canvas_frame_submit canvas).cur_frame < 2 := by
  rw [submit_cur_frame]
  have hu : (canvas.cur_frame + 1) % U32 = canvas.cur_frame + 1 := by
    apply Nat.mod_eq_of_lt
    unfold U32
    omega
  rw [hu]
  unfold VKL_MAX_FRAMES_IN_FLIGHT
  exact ⟨rfl, Nat.mod_lt _ (by decide)⟩

theorem submits_cur_frame (n : Nat) :
    ∀ canvas : VklCanvas, canvas.cur_frame < 2 → (submits n canvas).cur_frame < 2 := by
  induction n with
  | zero => intro canvas h; exact h
  | succ n ih => intro canvas h; exact ih _ (submit_toggles canvas h).2

theorem submitFrames_four (canvas : VklCanvas) (h : canvas.cur_frame < 2) :
    submitFrames 4 canvas
      = [canvas.cur_frame, (canvas.cur_frame + 1) % 2, canvas.cur_frame,
         (canvas.cur_frame + 1) % 2] := by
  have h1 := submit_toggles canvas h
  have h2 := submit_toggles _ h1.2
  have h3 := submit_toggles _ h2.2
  have e2 : (vkl_canvas_frame_submit (vkl_canvas_frame_submit canvas)).cur_frame
      = canvas.cur_frame := by
    rw [h2.1, h1.1]; omega
  have e3 : (vkl_canvas_frame_submit (vkl_canvas_frame_submit
      (vkl_canvas_frame_submit canvas))).cur_frame = (canvas.cur_frame + 1) % 2 := by
    rw [h3.1, e2]
  simp only [submitFrames, h1.1, e2, e3]

theorem _refill_canvas_blank_fields (cmds : List Nat) :
    ∀ canvas : VklCanvas,
      (_refill_canvas_blank cmds canvas).cur_frame = canvas.cur_frame ∧
      (_refill_canvas_blank cmds canvas).status = canvas.status ∧
      (_refill_canvas_blank cmds canvas).frame_idx = canvas.frame_idx ∧
      (_refill_canvas_blank cmds canvas).img_idx = canvas.img_idx ∧
      (_refill_canvas_blank cmds canvas).swapchain_status = canvas.swapchain_status ∧
      (_refill_canvas_blank cmds canvas).window_status = canvas.window_status ∧
      (_refill_canvas_blank cmds canvas).commands = canvas.commands ∧
      (_refill_canvas_blank cmds canvas).canvas_callbacks = canvas.canvas_callbacks := by
  induction cmds with
  | nil => intro canvas; exact ⟨rfl, rfl, rfl, rfl, rfl, rfl, rfl, rfl⟩
  | cons c rest ih => intro canvas; exact ih (blank_commands canvas c)

theorem callbackOps_user_data (event : VklPrivateEvent) (u : Ptr)
    (table : List VklCanvasCallbackRegister) :
    callbackOps { event with user_data := u } table = callbackOps event table := rfl

theorem _canvas_callbacks_loop_eq (table : List VklCanvasCallbackRegister) :
    ∀ (event : VklPrivateEvent) (canvas : VklCanvas) (n : Int),
      _canvas_callbacks_loop event table canvas n
        = ({ canvas with trace := canvas.trace ++ callbackOps event table },
           n + ((table.filter (fun r => decide (r.type = event.type))).length : Int)) := by
  induction table with
  | nil =>
    intro event canvas n
    simp [_canvas_callbacks_loop, callbackOps]
  | cons r rest ih =>
    intro event canvas n
    unfold _canvas_callbacks_loop
    dsimp only
    by_cases h : r.type = event.type
    · rw [if_pos h, ih, callbackOps_user_data]
      have hf : (r :: rest).filter (fun r => decide (r.type = event.type))
          = r :: rest.filter (fun r => decide (r.type = event.type)) := by
        rw [List.filter_cons_of_pos (by simpa using h)]
      have hc : callbackOps event (r :: rest)
          = CanvasOp.callback r.callback { event with user_data := r.user_data }
            :: callbackOps event rest := by
        unfold callbackOps
        rw [hf]
        rfl
      rw [hc, hf]
      simp only [List.length_cons, List.append_assoc, List.singleton_append, Nat.cast_add,
        Nat.cast_one]
      congr 1
      omega
    · rw [if_neg h, ih, callbackOps_user_data]
      have hf : (r :: rest).filter (fun r => decide (r.type = event.type))
          = rest.filter (fun r => decide (r.type = event.type)) := by
        rw [List.filter_cons_of_neg (by simpa using h)]
      have hc : callbackOps event (r :: rest) = callbackOps event rest := by
        unfold callbackOps
        rw [hf]
      rw [hc, hf]

theorem blank_commands_loop_eq (cmds : Nat) (n : Nat) :
    ∀ (i : Nat) (trace : List CanvasOp),
      blank_commands_loop cmds n i trace
        = trace ++ ((List.range' i n).map (fun (i : Nat) =>
            [CanvasOp.cmd_begin cmds i, .cmd_begin_renderpass cmds i 0,
              .cmd_end_renderpass cmds i, .cmd_end cmds i])).flatten := by
  induction n with
  | zero => intro i trace; simp [blank_commands_loop]
  | succ n ih =>
    intro i trace
    unfold blank_commands_loop
    rw [ih]
    simp [List.range'_succ]

theorem blank_commands_trace (canvas : VklCanvas) (cmds : Nat) :
    (blank_commands canvas cmds).trace
      = canvas.trace ++ blankOps cmds (canvas.commands.getD cmds ⟨0, 0, 0⟩).count := by
  unfold blank_commands blankOps
  dsimp only
  rw [blank_commands_loop_eq, List.range_eq_range']
  simp

theorem _refill_canvas_blank_trace (cmds : List Nat) :
    ∀ canvas : VklCanvas,
      (_refill_canvas_blank cmds canvas).trace
        = canvas.trace ++ (cmds.map (fun c =>
            blankOps c (canvas.commands.getD c ⟨0, 0, 0⟩).count)).flatten := by
  induction cmds with
  | nil => intro canvas; simp [_refill_canvas_blank]
  | cons c rest ih =>
    intro canvas
    unfold _refill_canvas_blank
    rw [ih, blank_commands_trace]
    have hc : (blank_commands canvas c).commands = canvas.commands := rfl
    rw [hc]
    simp

theorem _refill_canvas_loop_eq (l : List VklCommands) :
    ∀ (i : Nat) (acc : List Nat), _refill_canvas_loop i l acc = acc ++ refillSets i l := by
  induction l with
  | nil => intro i acc; simp [_refill_canvas_loop, refillSets]
  | cons c rest ih =>
    intro i acc
    unfold _refill_canvas_loop refillSets
    by_cases h1 : c.status = VKL_OBJECT_STATUS_NONE
    · simp [h1]
    · rw [if_neg h1, if_neg h1]
      by_cases h2 : c.queue_idx = VKL_DEFAULT_QUEUE_RENDER ∧ c.status ≥ VKL_OBJECT_STATUS_INIT
      · rw [if_pos h2, if_pos h2, ih]
        simp
      · rw [if_neg h2, if_neg h2, ih]

/-- The command sets a refill fills are the slots that hold a render command set of
status at least `INIT` with no slot never used up to them. -/
theorem mem_refillSets (l : List VklCommands) :
    ∀ (i j : Nat), j ∈ refillSets i l ↔
      i ≤ j ∧ (∃ c, l[j - i]? = some c ∧ c.queue_idx = VKL_DEFAULT_QUEUE_RENDER ∧
        c.status ≥ VKL_OBJECT_STATUS_INIT) ∧
      ∀ (m : Nat) (c : VklCommands), m ≤ j - i → l[m]? = some c →
        c.status ≠ VKL_OBJECT_STATUS_NONE := by
  induction l with
  | nil =>
    intro i j
    simp [refillSets]
  | cons c rest ih =>
    intro i j
    unfold refillSets
    by_cases h1 : c.status = VKL_OBJECT_STATUS_NONE
    · rw [if_pos h1]
      constructor
      · intro h; cases h
      · rintro ⟨_, _, h⟩
        exact absurd h1 (h 0 c (Nat.zero_le _) (List.getElem?_cons_zero))
    · rw [if_neg h1]
      have key : ∀ j, i + 1 ≤ j →
          ((i + 1 ≤ j ∧ (∃ c', rest[j - (i + 1)]? = some c' ∧
              c'.queue_idx = VKL_DEFAULT_QUEUE_RENDER ∧ c'.status ≥ VKL_OBJECT_STATUS_INIT) ∧
            ∀ (m : Nat) (c' : VklCommands), m ≤ j - (i + 1) → rest[m]? = some c' →
              c'.status ≠ VKL_OBJECT_STATUS_NONE) ↔
          (i ≤ j ∧ (∃ c', (c :: rest)[j - i]? = some c' ∧
              c'.queue_idx = VKL_DEFAULT_QUEUE_RENDER ∧ c'.status ≥ VKL_OBJECT_STATUS_INIT) ∧
            ∀ (m : Nat) (c' : VklCommands), m ≤ j - i → (c :: rest)[m]? = some c' →
              c'.status ≠ VKL_OBJECT_STATUS_NONE)) := by
        intro j hj
        have e : j - i = (j - (i + 1)) + 1 := by omega
        rw [e, List.getElem?_cons_succ]
        constructor
        · rintro ⟨_, hc, hall⟩
          refine ⟨by omega, hc, fun m c' hm hget => ?_⟩
          cases m with
          | zero =>
            rw [List.getElem?_cons_zero] at hget
            cases hget
            exact h1
          | succ m =>
            rw [List.getElem?_cons_succ] at hget
            exact hall m c' (by omega) hget
        · rintro ⟨_, hc, hall⟩
          refine ⟨hj, hc, fun m c' hm hget => ?_⟩
          exact hall (m + 1) c' (by omega) (by rw [List.getElem?_cons_succ]; exact hget)
      have hzero : (i ≤ i ∧ (∃ c', (c :: rest)[i - i]? = some c' ∧
              c'.queue_idx = VKL_DEFAULT_QUEUE_RENDER ∧ c'.status ≥ VKL_OBJECT_STATUS_INIT) ∧
            ∀ (m : Nat) (c' : VklCommands), m ≤ i - i → (c :: rest)[m]? = some c' →
              c'.status ≠ VKL_OBJECT_STATUS_NONE) ↔
          (c.queue_idx = VKL_DEFAULT_QUEUE_RENDER ∧ c.status ≥ VKL_OBJECT_STATUS_INIT) := by
        rw [Nat.sub_self, List.getElem?_cons_zero]
        constructor
        · rintro ⟨_, ⟨c', hc', h⟩, _⟩
          cases hc'
          exact h
        · intro h
          refine ⟨le_refl _, ⟨c, rfl, h⟩, fun m c' hm hget => ?_⟩
          have hm0 : m = 0 := by omega
          subst hm0
          rw [List.getElem?_cons_zero] at hget
          cases hget
          exact h1
      by_cases h2 : c.queue_idx = VKL_DEFAULT_QUEUE_RENDER ∧ c.status ≥ VKL_OBJECT_STATUS_INIT
      · rw [if_pos h2, List.mem_cons]
        by_cases hji : j = i
        · subst hji
          exact ⟨fun _ => hzero.2 h2, fun _ => Or.inl rfl⟩
        · rw [ih]
          constructor
          · rintro (h | h)
            · exact absurd h hji
            · exact (key j h.1).1 h
          · intro h
            have : i + 1 ≤ j := by omega
            exact Or.inr ((key j this).2 h)
      · rw [if_neg h2, ih]
        by_cases hji : j = i
        · subst hji
          constructor
          · rintro ⟨h, _⟩; omega
          · intro h; exact absurd (hzero.1 h) h2
        · constructor
          · intro h; exact (key j h.1).1 h
          · intro h
            have : i + 1 ≤ j := by omega
            exact (key j this).2 h

/-- What `_refill_canvas` does on a canvas with a command set to fill: it returns, calls
the refill callbacks when there are some and records blank frames when there are none,
and changes no field of the canvas. -/
theorem _refill_canvas_spec (canvas : VklCanvas) (hk : refillSets 0 canvas.commands ≠ []) :
    ∃ canvas1, _refill_canvas canvas = .ok canvas1 ∧
      canvas1.status = canvas.status ∧ canvas1.cur_frame = canvas.cur_frame ∧
      canvas1.frame_idx = canvas.frame_idx ∧ canvas1.img_idx = canvas.img_idx ∧
      canvas1.swapchain_status = canvas.swapchain_status ∧
      canvas1.window_status = canvas.window_status ∧
      canvas1.commands = canvas.commands ∧
      canvas1.canvas_callbacks = canvas.canvas_callbacks ∧
      canvas1.trace = canvas.trace ++
        (if canvas.canvas_callbacks.filter
            (fun r => decide (r.type = VKL_PRIVATE_EVENT_REFILL)) = [] then
          ((refillSets 0 canvas.commands).map (fun c =>
            blankOps c (canvas.commands.getD c ⟨0, 0, 0⟩).count)).flatten
        else
          callbackOps
            { type := VKL_PRIVATE_EVENT_REFILL, user_data := NULL,
              rf_cmds := refillSets 0 canvas.commands, rf_img_idx := canvas.img_idx }
            canvas.canvas_callbacks) := by
  unfold _refill_canvas
  dsimp only
  rw [_refill_canvas_loop_eq, List.nil_append]
  have hpos : (refillSets 0 canvas.commands).length > 0 := List.length_pos.2 hk
  rw [if_neg (not_not.2 hpos)]
  unfold _canvas_callbacks
  rw [_canvas_callbacks_loop_eq]
  dsimp only
  by_cases hf : canvas.canvas_callbacks.filter
      (fun r => decide (r.type = VKL_PRIVATE_EVENT_REFILL)) = []
  · have hc : callbackOps
        { type := VKL_PRIVATE_EVENT_REFILL, user_data := NULL,
          rf_cmds := refillSets 0 canvas.commands, rf_img_idx := canvas.img_idx }
        canvas.canvas_callbacks = [] := by
      unfold callbackOps
      dsimp only
      rw [hf]
      rfl
    rw [hf, hc, if_pos (by simp), if_pos rfl]
    have hb := _refill_canvas_blank_fields (refillSets 0 canvas.commands)
      { canvas with trace := canvas.trace ++ [] }
    have ht := _refill_canvas_blank_trace (refillSets 0 canvas.commands)
      { canvas with trace := canvas.trace ++ [] }
    refine ⟨_, rfl, hb.2.1, hb.1, hb.2.2.1, hb.2.2.2.1, hb.2.2.2.2.1, hb.2.2.2.2.2.1,
      hb.2.2.2.2.2.2.1, hb.2.2.2.2.2.2.2, ?_⟩
    rw [ht]
    simp
  · have hlen : 0 < (canvas.canvas_callbacks.filter
        (fun r => decide (r.type = VKL_PRIVATE_EVENT_REFILL))).length :=
      List.length_pos.2 hf
    rw [if_neg (by omega), if_neg hf]
    exact ⟨_, rfl, rfl, rfl, rfl, rfl, rfl, rfl, rfl, rfl, rfl⟩

/-- C19. Frame counter: `VKL_MAX_FRAMES_IN_FLIGHT` is 2; on a canvas whose `cur_frame`
is in `[0, 2)`, every call of `vkl_canvas_frame_submit` replaces `cur_frame` by
`(cur_frame + 1) mod 2` and uses the old value as the index of the image-available
semaphore, of the render-finished semaphore and of the render-finished fence; `cur_frame`
stays in `[0, 2)` after any number of submits, and over any 4 consecutive submits it
takes each of the values 0 and 1 exactly twice. A refill and the registration of a
callback leave `cur_frame` as it is, and a canvas is created with `cur_frame = 0`. -/
theorem frame_counter (canvas : VklCanvas) (h : canvas.cur_frame < VKL_MAX_FRAMES_IN_FLIGHT) :
    VKL_MAX_FRAMES_IN_FLIGHT = 2 ∧
    (vkl_canvas_frame_submit canvas).cur_frame = (canvas.cur_frame + 1) % 2 ∧
    (vkl_canvas_frame_submit canvas).trace = canvas.trace ++
      [.fences_copy VKL_FENCE_RENDER_FINISHED canvas.cur_frame VKL_FENCES_FLIGHT canvas.img_idx,
       .submit_reset]
      ++ (submitSets 0 canvas.commands).map CanvasOp.submit_commands ++
      [.submit_wait_semaphores VKL_SEMAPHORE_IMG_AVAILABLE canvas.cur_frame,
       .submit_signal_semaphores VKL_SEMAPHORE_RENDER_FINISHED canvas.cur_frame,
       .submit_send canvas.img_idx VKL_FENCE_RENDER_FINISHED canvas.cur_frame,
       .swapchain_present 1 VKL_SEMAPHORE_RENDER_FINISHED canvas.cur_frame] ∧
    (∀ n, (submits n canvas).cur_frame < VKL_MAX_FRAMES_IN_FLIGHT) ∧
    (∀ n, (submitFrames 4 (submits n canvas)).count 0 = 2 ∧
      (submitFrames 4 (submits n canvas)).count 1 = 2) ∧
    (∀ canvas1, _refill_canvas canvas = .ok canvas1 → canvas1.cur_frame = canvas.cur_frame) ∧
    (∀ type callback user_data,
      (vkl_canvas_callback canvas type callback user_data).cur_frame = canvas.cur_frame) ∧
    (∀ (VKL_MAX_COMMANDS img_count : Nat) (canvas0 : VklCanvas),
      vkl_canvas VKL_MAX_COMMANDS img_count = .ok canvas0 → canvas0.cur_frame = 0) := by
  have h2 : canvas.cur_frame < 2 := h
  refine ⟨rfl, (submit_toggles canvas h2).1, ?_, fun n => submits_cur_frame n canvas h2,
    fun n => ?_, fun canvas1 e => ?_, fun _ _ _ => rfl, fun M n canvas0 e => ?_⟩
  · unfold vkl_canvas_frame_submit
    dsimp only
    rw [vkl_canvas_frame_submit_loop_eq]
  · have hn := submits_cur_frame n canvas h2
    rw [submitFrames_four _ hn]
    generalize (submits n canvas).cur_frame = f at hn
    have hf : f = 0 ∨ f = 1 := by omega
    rcases hf with hf | hf <;> subst hf <;> exact ⟨by decide, by decide⟩
  · by_cases hk : refillSets 0 canvas.commands = []
    · unfold _refill_canvas at e
      dsimp only at e
      rw [_refill_canvas_loop_eq, List.nil_append, hk] at e
      simp at e
    · obtain ⟨c1, e1, _, hc, _⟩ := _refill_canvas_spec canvas hk
      rw [e1] at e
      cases e
      exact hc
  · unfold vkl_canvas at e
    by_cases hM : M < 2
    · rw [if_pos hM] at e; cases e
    · rw [if_neg hM] at e
      dsimp only at e
      have hk : refillSets 0
          ([vkl_commands VKL_DEFAULT_QUEUE_TRANSFER 1, vkl_commands VKL_DEFAULT_QUEUE_RENDER n]
            ++ List.replicate (M - 2) ⟨VKL_OBJECT_STATUS_NONE, 0, 0⟩) ≠ [] := by
        simp [refillSets, vkl_commands, VKL_OBJECT_STATUS_NONE, VKL_OBJECT_STATUS_CREATED,
          VKL_OBJECT_STATUS_INIT, VKL_DEFAULT_QUEUE_RENDER, VKL_DEFAULT_QUEUE_TRANSFER]
      obtain ⟨c1, e1, _, hc, _⟩ := _refill_canvas_spec
        { status := VKL_OBJECT_STATUS_INIT, cur_frame := 0, frame_idx := 0, img_idx := 0,
          swapchain_status := VKL_OBJECT_STATUS_CREATED,
          window_status := VKL_OBJECT_STATUS_CREATED,
          commands := [vkl_commands VKL_DEFAULT_QUEUE_TRANSFER 1,
                       vkl_commands VKL_DEFAULT_QUEUE_RENDER n]
            ++ List.replicate (M - 2) ⟨VKL_OBJECT_STATUS_NONE, 0, 0⟩,
          canvas_callbacks := [], trace := [] } hk
      rw [e1] at e
      cases e
      exact hc

theorem frame_counter_witness :
    ∃ canvas0, vkl_canvas 8 3 = .ok canvas0 ∧
      (vkl_canvas_frame_submit canvas0).cur_frame = 1 ∧
      (submits 2 canvas0).cur_frame < 2 ∧
      submitFrames 4 canvas0 = [0, 1, 0, 1] ∧
      (submitFrames 4 (submits 3 canvas0)).count 0 = 2 ∧
      (submitFrames 4 (submits 3 canvas0)).count 1 = 2 := by
  have e : vkl_canvas 8 3 = .ok
      { status := VKL_OBJECT_STATUS_CREATED, cur_frame := 0, frame_idx := 0, img_idx := 0,
        swapchain_status := VKL_OBJECT_STATUS_CREATED,
        window_status := VKL_OBJECT_STATUS_CREATED,
        commands := [vkl_commands VKL_DEFAULT_QUEUE_TRANSFER 1,
                     vkl_commands VKL_DEFAULT_QUEUE_RENDER 3]
          ++ List.replicate 6 ⟨VKL_OBJECT_STATUS_NONE, 0, 0⟩,
        canvas_callbacks := [],
        trace := blankOps 1 3 } := rfl
  have hw := frame_counter
      { status := VKL_OBJECT_STATUS_CREATED, cur_frame := 0, frame_idx := 0, img_idx := 0,
        swapchain_status := VKL_OBJECT_STATUS_CREATED,
        window_status := VKL_OBJECT_STATUS_CREATED,
        commands := [vkl_commands VKL_DEFAULT_QUEUE_TRANSFER 1,
                     vkl_commands VKL_DEFAULT_QUEUE_RENDER 3]
          ++ List.replicate 6 ⟨VKL_OBJECT_STATUS_NONE, 0, 0⟩,
        canvas_callbacks := [],
        trace := blankOps 1 3 } (by decide)
  exact ⟨_, e, hw.2.1, hw.2.2.2.1 2, rfl, hw.2.2.2.2.1 3⟩

theorem refillSets_sorted (l : List VklCommands) :
    ∀ i : Nat, (refillSets i l).Pairwise (fun a b => a < b) := by
  induction l with
  | nil => intro i; simp [refillSets]
  | cons c rest ih =>
    intro i
    unfold refillSets
    by_cases h1 : c.status = VKL_OBJECT_STATUS_NONE
    · rw [if_pos h1]; exact List.Pairwise.nil
    · rw [if_neg h1]
      by_cases h2 : c.queue_idx = VKL_DEFAULT_QUEUE_RENDER ∧ c.status ≥ VKL_OBJECT_STATUS_INIT
      · rw [if_pos h2]
        refine List.Pairwise.cons (fun j hj => ?_) (ih (i + 1))
        have := ((mem_refillSets rest (i + 1) j).1 hj).1
        omega
      · rw [if_neg h2]; exact ih (i + 1)

/-- C20. Blank-frame fallback: on a canvas that has a render-queue command set of status
at least `INIT` (in a slot with no slot never used before it), `_refill_canvas` returns
and changes no field of the canvas. The command sets it fills are the slots, in
increasing order, that hold a render-queue command set of status at least `INIT` with no
slot never used up to them. When the callback table holds no callback of type `REFILL`
(it may hold callbacks of other types), the calls made are, for each such command set in
turn, a reset and then for each of its `count` command buffers exactly begin, begin of
the render pass 0 with the framebuffers of the canvas, end of the render pass, end. When
a `REFILL` callback is registered, the calls made are the calls of the `REFILL`
callbacks, each exactly once, in registration order, each with its own user data and with
the event's `img_idx` equal to `swapchain.img_idx`, and no blank frame is recorded. -/
theorem blank_frame_fallback (canvas : VklCanvas)
    (h : ∃ (j : Nat) (c : VklCommands), canvas.commands[j]? = some c ∧
      c.queue_idx = VKL_DEFAULT_QUEUE_RENDER ∧ c.status ≥ VKL_OBJECT_STATUS_INIT ∧
      ∀ (m : Nat) (c' : VklCommands), m < j → canvas.commands[m]? = some c' →
        c'.status ≠ VKL_OBJECT_STATUS_NONE) :
    ∃ canvas1, _refill_canvas canvas = .ok canvas1 ∧
      canvas1.status = canvas.status ∧ canvas1.cur_frame = canvas.cur_frame ∧
      canvas1.frame_idx = canvas.frame_idx ∧ canvas1.img_idx = canvas.img_idx ∧
      canvas1.commands = canvas.commands ∧
      canvas1.canvas_callbacks = canvas.canvas_callbacks ∧
      (∀ j : Nat, j ∈ refillSets 0 canvas.commands ↔
        (∃ c, canvas.commands[j]? = some c ∧ c.queue_idx = VKL_DEFAULT_QUEUE_RENDER ∧
          c.status ≥ VKL_OBJECT_STATUS_INIT) ∧
        ∀ (m : Nat) (c' : VklCommands), m ≤ j → canvas.commands[m]? = some c' →
          c'.status ≠ VKL_OBJECT_STATUS_NONE) ∧
      (refillSets 0 canvas.commands).Pairwise (fun a b => a < b) ∧
      ((∀ r ∈ canvas.canvas_callbacks, r.type ≠ VKL_PRIVATE_EVENT_REFILL) →
        canvas1.trace = canvas.trace ++
          ((refillSets 0 canvas.commands).map (fun c =>
            blankOps c (canvas.commands.getD c ⟨0, 0, 0⟩).count)).flatten) ∧
      ((∃ r ∈ canvas.canvas_callbacks, r.type = VKL_PRIVATE_EVENT_REFILL) →
        canvas1.trace = canvas.trace ++
          (canvas.canvas_callbacks.filter
            (fun r => decide (r.type = VKL_PRIVATE_EVENT_REFILL))).map
            (fun r => CanvasOp.callback r.callback
              { type := VKL_PRIVATE_EVENT_REFILL, user_data := r.user_data,
                rf_cmds := refillSets 0 canvas.commands, rf_img_idx := canvas.img_idx })) := by
  have hmem : ∀ j : Nat, j ∈ refillSets 0 canvas.commands ↔
      (∃ c, canvas.commands[j]? = some c ∧ c.queue_idx = VKL_DEFAULT_QUEUE_RENDER ∧
        c.status ≥ VKL_OBJECT_STATUS_INIT) ∧
      ∀ (m : Nat) (c' : VklCommands), m ≤ j → canvas.commands[m]? = some c' →
        c'.status ≠ VKL_OBJECT_STATUS_NONE := by
    intro j
    rw [mem_refillSets, Nat.sub_zero]
    exact ⟨fun hh => ⟨hh.2.1, hh.2.2⟩, fun hh => ⟨Nat.zero_le _, hh.1, hh.2⟩⟩
  have hk : refillSets 0 canvas.commands ≠ [] := by
    obtain ⟨j, c, hget, hq, hs, hall⟩ := h
    have hj : j ∈ refillSets 0 canvas.commands := by
      rw [hmem]
      refine ⟨⟨c, hget, hq, hs⟩, fun m c' hm hget' => ?_⟩
      by_cases hmj : m = j
      · subst hmj
        rw [hget] at hget'
        cases hget'
        have hs' : VKL_OBJECT_STATUS_INIT ≤ c.status := hs
        unfold VKL_OBJECT_STATUS_INIT at hs'
        unfold VKL_OBJECT_STATUS_NONE
        omega
      · exact hall m c' (by omega) hget'
    exact List.ne_nil_of_mem hj
  obtain ⟨canvas1, e, h1, h2, h3, h4, _, _, h7, h8, ht⟩ := _refill_canvas_spec canvas hk
  refine ⟨canvas1, e, h1, h2, h3, h4, h7, h8, hmem, refillSets_sorted _ 0, fun hno => ?_,
    fun hsome => ?_⟩
  · have hf : canvas.canvas_callbacks.filter
        (fun r => decide (r.type = VKL_PRIVATE_EVENT_REFILL)) = [] := by
      rw [List.filter_eq_nil_iff]
      intro r hr
      simpa using hno r hr
    rw [ht, if_pos hf]
  · have hf : canvas.canvas_callbacks.filter
        (fun r => decide (r.type = VKL_PRIVATE_EVENT_REFILL)) ≠ [] := by
      obtain ⟨r, hr, hty⟩ := hsome
      intro hnil
      rw [List.filter_eq_nil_iff] at hnil
      exact hnil r hr (by simpa using hty)
    rw [ht, if_neg hf]
    rfl

theorem blank_frame_fallback_witness :
    ∃ canvas0 canvas1 canvas2,
      vkl_canvas 8 3 = .ok canvas0 ∧
      _refill_canvas canvas0 = .ok canvas1 ∧
      canvas1.trace = canvas0.trace ++
        [.cmd_reset 1,
         .cmd_begin 1 0, .cmd_begin_renderpass 1 0 0, .cmd_end_renderpass 1 0, .cmd_end 1 0,
         .cmd_begin 1 1, .cmd_begin_renderpass 1 1 0, .cmd_end_renderpass 1 1, .cmd_end 1 1,
         .cmd_begin 1 2, .cmd_begin_renderpass 1 2 0, .cmd_end_renderpass 1 2, .cmd_end 1 2] ∧
      _refill_canvas (vkl_canvas_callback (vkl_canvas_callback canvas0 7 500 501)
        VKL_PRIVATE_EVENT_REFILL 600 601) = .ok canvas2 ∧
      canvas2.trace = canvas0.trace ++
        [.callback 600 { type := VKL_PRIVATE_EVENT_REFILL, user_data := 601, rf_cmds := [1],
                         rf_img_idx := 0 }] := by
  have e : vkl_canvas 8 3 = .ok
      { status := VKL_OBJECT_STATUS_CREATED, cur_frame := 0, frame_idx := 0, img_idx := 0,
        swapchain_status := VKL_OBJECT_STATUS_CREATED,
        window_status := VKL_OBJECT_STATUS_CREATED,
        commands := [vkl_commands VKL_DEFAULT_QUEUE_TRANSFER 1,
                     vkl_commands VKL_DEFAULT_QUEUE_RENDER 3]
          ++ List.replicate 6 ⟨VKL_OBJECT_STATUS_NONE, 0, 0⟩,
        canvas_callbacks := [],
        trace := blankOps 1 3 } := rfl
  have hall : ∀ (m : Nat) (c' : VklCommands), m < 1 →
      ([vkl_commands VKL_DEFAULT_QUEUE_TRANSFER 1, vkl_commands VKL_DEFAULT_QUEUE_RENDER 3]
        ++ List.replicate 6 ⟨VKL_OBJECT_STATUS_NONE, 0, 0⟩)[m]? = some c' →
      c'.status ≠ VKL_OBJECT_STATUS_NONE := by
    intro m c' hm hget
    have hm0 : m = 0 := by omega
    subst hm0
    have hc : c' = vkl_commands VKL_DEFAULT_QUEUE_TRANSFER 1 := (Option.some.inj hget).symm
    subst hc
    decide
  obtain ⟨canvas1, e1, _, _, _, _, _, _, _, _, hblank, _⟩ := blank_frame_fallback
      { status := VKL_OBJECT_STATUS_CREATED, cur_frame := 0, frame_idx := 0, img_idx := 0,
        swapchain_status := VKL_OBJECT_STATUS_CREATED,
        window_status := VKL_OBJECT_STATUS_CREATED,
        commands := [vkl_commands VKL_DEFAULT_QUEUE_TRANSFER 1,
                     vkl_commands VKL_DEFAULT_QUEUE_RENDER 3]
          ++ List.replicate 6 ⟨VKL_OBJECT_STATUS_NONE, 0, 0⟩,
        canvas_callbacks := [],
        trace := blankOps 1 3 }
      ⟨1, vkl_commands VKL_DEFAULT_QUEUE_RENDER 3, rfl, rfl, by decide, hall⟩
  obtain ⟨canvas2, e2, _, _, _, _, _, _, _, _, _, hcb⟩ := blank_frame_fallback
      (vkl_canvas_callback (vkl_canvas_callback
        { status := VKL_OBJECT_STATUS_CREATED, cur_frame := 0, frame_idx := 0, img_idx := 0,
          swapchain_status := VKL_OBJECT_STATUS_CREATED,
          window_status := VKL_OBJECT_STATUS_CREATED,
          commands := [vkl_commands VKL_DEFAULT_QUEUE_TRANSFER 1,
                       vkl_commands VKL_DEFAULT_QUEUE_RENDER 3]
            ++ List.replicate 6 ⟨VKL_OBJECT_STATUS_NONE, 0, 0⟩,
          canvas_callbacks := [],
          trace := blankOps 1 3 } 7 500 501) VKL_PRIVATE_EVENT_REFILL 600 601)
      ⟨1, vkl_commands VKL_DEFAULT_QUEUE_RENDER 3, rfl, rfl, by decide, hall⟩
  exact ⟨_, canvas1, canvas2, e, e1,
    hblank (fun r hr => absurd hr (List.not_mem_nil _)), e2,
    hcb ⟨⟨VKL_PRIVATE_EVENT_REFILL, 600, 601⟩, by simp [vkl_canvas_callback], rfl⟩⟩

/-! ## Claims on visuals -/

/-- What `vkl_visual_data_partial` stores: when the source of the prop is found at the
index `i` and its `dtype_size` is positive, the call returns and that source gets the
byte offset `first_item * dtype_size` and the byte size `item_count * dtype_size`. -/
theorem vkl_visual_data_partial_ok (visual : VklVisual) (type idx first_item item_count : Nat)
    (data : Ptr) (i : Nat) (source : VklSource) (hs : _get_source visual type idx = some i)
    (hi : visual.sources[i]? = some source) (hd : 0 < source.dtype_size) :
    vkl_visual_data_partial visual type idx first_item item_count data
      = .ok { visual with
              sources := visual.sources.set i
                { source with
                  binding := VKL_PROP_BINDING_CPU,
                  a_offset := (first_item * source.dtype_size) % U64,
                  a_size := (item_count * source.dtype_size) % U64,
                  a_data := data } } := by
  unfold vkl_visual_data_partial
  rw [hs]
  dsimp only
  rw [hi]
  dsimp only
  have hd1 : source.dtype_size > 0 := hd
  rw [if_neg (not_not.2 hd1)]

/-- C30 fails for `VKL_DTYPE_CVEC3` and `VKL_DTYPE_CVEC4`: `_get_dtype_size` returns
`2 * 3 = 6` and `3 * 4 = 12` for them, where 3 components and 4 components of 1 byte are
3 and 4 bytes; for every other value it returns the number of components times the
bytes per component, and 0 for a value without a case. A source of type
`VKL_DTYPE_CVEC3` then gets from `vkl_visual_data_partial`, for `first_item = 1` and
`item_count = 10`, the byte offset 6 and the byte size 60, not 3 and 30. -/
theorem dtype_size_cvec3_cvec4 :
    _get_dtype_size .VKL_DTYPE_CVEC3 = 6 ∧ specDtypeSize .VKL_DTYPE_CVEC3 = 3 ∧
    _get_dtype_size .VKL_DTYPE_CVEC4 = 12 ∧ specDtypeSize .VKL_DTYPE_CVEC4 = 4 ∧
    (∀ dtype : VklDataType, dtype ≠ .VKL_DTYPE_CVEC3 → dtype ≠ .VKL_DTYPE_CVEC4 →
      _get_dtype_size dtype = specDtypeSize dtype) ∧
    (∀ value : Nat, _get_dtype_size (.other value) = 0) ∧
    (∃ visual,
      vkl_visual_data_partial
        (vkl_visual_prop 64 { sources := [] } 5 0 .VKL_DTYPE_CVEC3 0 0 0 0) 5 0 1 10 77
        = .ok visual ∧
      visual.sources.map (fun s => (s.dtype_size, s.a_offset, s.a_size)) = [(6, 6, 60)]) := by
  refine ⟨rfl, rfl, rfl, rfl, ?_, fun _ => rfl, _, rfl, rfl⟩
  intro dtype h3 h4
  cases dtype <;> first | rfl | exact absurd rfl h3 | exact absurd rfl h4

/-! ## Claims on the transfer queue as a queue of task values -/

theorem VklContext.queued_of_empty {ctx : VklContext} (h : ctx.QueueInv)
    (he : ctx.fifo.head = ctx.fifo.tail) : ctx.queued = [] := by
  unfold VklContext.queued
  rw [VklFifo.stored_of_empty h.1 he]
  rfl

/-- The found tasks of a run on the list of task values, followed by the tasks left, are
the tasks at the start followed by the tasks enqueued; a dequeue that finds nothing
returns the all-zero task. -/
theorem taskQueueRun_fifo (calls : List QueueCall) :
    ∀ q : List VklTransfer,
      (((taskQueueRun q calls).2.filter (fun p => p.1)).map Prod.snd)
          ++ (taskQueueRun q calls).1 = q ++ enqueuedTasks calls ∧
      ∀ p ∈ (taskQueueRun q calls).2, p.1 = false → p.2 = VklTransfer.zero := by
  induction calls with
  | nil => intro q; simp [taskQueueRun, enqueuedTasks]
  | cons call calls ih =>
    intro q
    cases call with
    | enqueue t =>
      have h := ih (q ++ [t])
      simp only [taskQueueRun, taskQueueStep, enqueuedTasks, List.nil_append]
      refine ⟨?_, h.2⟩
      rw [h.1, List.append_assoc]
      rfl
    | dequeue =>
      cases q with
      | nil =>
        have h := ih []
        simp only [taskQueueRun, taskQueueStep, enqueuedTasks]
        refine ⟨?_, ?_⟩
        · simpa using h.1
        · intro p hp hf
          rcases List.mem_append.1 hp with hp | hp
          · simp only [List.mem_singleton] at hp
            rw [hp]
          · exact h.2 p hp hf
      | cons t q1 =>
        have h := ih q1
        simp only [taskQueueRun, taskQueueStep, enqueuedTasks]
        refine ⟨?_, ?_⟩
        · simp only [List.singleton_append, List.filter_cons_of_pos, List.map_cons,
            List.cons_append]
          rw [List.nil_append, h.1]
        · intro p hp hf
          rcases List.mem_append.1 hp with hp | hp
          · simp only [List.mem_singleton] at hp
            rw [hp] at hf
            cases hf
          · exact h.2 p hp hf

/-- The transfer queue of a context refines the queue of task values: a sequence of
calls without overflow returns, and returns what the list of task values returns. -/
theorem runQueueCalls_refines (calls : List QueueCall) :
    ∀ ctx : VklContext, ctx.QueueInv → QueueNoOverflow ctx.fifo.capacity ctx.queued calls →
      ∃ ctx1 rets, runQueueCalls ctx calls = .ok (ctx1, rets) ∧ ctx1.QueueInv ∧
        ctx1.fifo.capacity = ctx.fifo.capacity ∧
        ctx1.queued = (taskQueueRun ctx.queued calls).1 ∧
        rets = (taskQueueRun ctx.queued calls).2.map Prod.snd := by
  induction calls with
  | nil =>
    intro ctx h _
    exact ⟨ctx, [], rfl, h, rfl, rfl, rfl⟩
  | cons call calls ih =>
    intro ctx h hno
    cases call with
    | enqueue t =>
      have hlt : (ctx.queued.length : Int) < ctx.fifo.capacity - 1 := hno.1
      have hnf : ctx.fifo.count < ctx.fifo.capacity - 1 := by
        rw [← VklContext.queued_length h]; exact hlt
      have hq := VklContext.pushed_queued h hnf t
      have hno1 : QueueNoOverflow (ctx.pushed t).fifo.capacity (ctx.pushed t).queued calls := by
        rw [hq]; exact hno.2
      obtain ⟨ctx1, rets, e, hinv, hcap, hqu, hr⟩ :=
        ih (ctx.pushed t) (VklContext.pushed_inv h hnf t) hno1
      refine ⟨ctx1, rets, ?_, hinv, hcap, ?_, ?_⟩
      · have ea : (QueueCall.enqueue t).apply ctx = .ok (ctx.pushed t, []) := by
          simp only [QueueCall.apply]
          rw [fifo_enqueue_notfull h hnf]
        unfold runQueueCalls
        rw [ea]
        dsimp only
        rw [e]
        rfl
      · rw [hqu, hq]; rfl
      · rw [hr, hq]; rfl
    | dequeue =>
      by_cases he : ctx.fifo.head = ctx.fifo.tail
      · have hq := VklContext.queued_of_empty h he
        have hno1 : QueueNoOverflow ctx.fifo.capacity ctx.queued calls := by
          have := hno.2
          rw [hq] at this ⊢
          exact this
        obtain ⟨ctx1, rets, e, hinv, hcap, hqu, hr⟩ := ih ctx h hno1
        refine ⟨ctx1, VklTransfer.zero :: rets, ?_, hinv, hcap, ?_, ?_⟩
        · have ea : QueueCall.dequeue.apply ctx = .ok (ctx, [VklTransfer.zero]) := by
            simp only [QueueCall.apply]
            rw [fifo_dequeue_empty he]
          unfold runQueueCalls
          rw [ea]
          dsimp only
          rw [e]
          rfl
        · rw [hqu, hq]; rfl
        · rw [hr, hq]; rfl
      · obtain ⟨ed, hq, hpinv⟩ := fifo_dequeue_nonempty h he false
        have hno1 : QueueNoOverflow ctx.popped.fifo.capacity ctx.popped.queued calls := by
          have := hno.2
          rw [hq] at this
          exact this
        obtain ⟨ctx1, rets, e, hinv, hcap, hqu, hr⟩ := ih ctx.popped hpinv hno1
        refine ⟨ctx1, ctx.transfers ctx.fifo.tail :: rets, ?_, hinv, hcap, ?_, ?_⟩
        · have ea : QueueCall.dequeue.apply ctx
              = .ok (ctx.popped, [ctx.transfers ctx.fifo.tail]) := by
            simp only [QueueCall.apply]
            rw [ed]
          unfold runQueueCalls
          rw [ea]
          dsimp only
          rw [e]
          rfl
        · rw [hqu, hq]; rfl
        · rw [hr, hq]; rfl

/-- C29. The transfer queue of a context is a FIFO of task values: on a context whose
queue is in range, every sequence of `fifo_enqueue` and non-blocking `fifo_dequeue`
calls that does not overflow the queue returns, and returns what the queue of task
values returns: the tasks returned by the dequeues that find the queue non-empty,
followed by the tasks still queued, are the tasks queued at the start followed by the
tasks passed to the enqueues, in order (so, from an empty queue, the `k`-th dequeue that
finds a task returns the task of the `k`-th enqueue, field for field), and a dequeue on
an empty queue returns the all-zero task, whose type is `VKL_TRANSFER_NONE`. -/
theorem transfer_queue_fifo (ctx : VklContext) (calls : List QueueCall) (h : ctx.QueueInv)
    (hno : QueueNoOverflow ctx.fifo.capacity ctx.queued calls) :
    ∃ ctx1 rets, runQueueCalls ctx calls = .ok (ctx1, rets) ∧ ctx1.QueueInv ∧
      ctx1.queued = (taskQueueRun ctx.queued calls).1 ∧
      rets = (taskQueueRun ctx.queued calls).2.map Prod.snd ∧
      (((taskQueueRun ctx.queued calls).2.filter (fun p => p.1)).map Prod.snd) ++ ctx1.queued
        = ctx.queued ++ enqueuedTasks calls ∧
      (ctx.queued = [] →
        ((taskQueueRun ctx.queued calls).2.filter (fun p => p.1)).map Prod.snd
          <+: enqueuedTasks calls) ∧
      (∀ p ∈ (taskQueueRun ctx.queued calls).2, p.1 = false → p.2 = VklTransfer.zero) ∧
      VklTransfer.zero.type = VKL_TRANSFER_NONE ∧
      (ctx.fifo.head = ctx.fifo.tail → fifo_dequeue ctx false = .ok (ctx, VklTransfer.zero)) := by
  obtain ⟨ctx1, rets, e, hinv, _, hq, hr⟩ := runQueueCalls_refines calls ctx h hno
  have hf := taskQueueRun_fifo calls ctx.queued
  refine ⟨ctx1, rets, e, hinv, hq, hr, ?_, fun hemp => ?_, hf.2, rfl,
    fun he => fifo_dequeue_empty he⟩
  · rw [hq]; exact hf.1
  · have h1 := hf.1
    rw [hemp, List.nil_append] at h1
    rw [hemp]
    exact ⟨_, h1⟩

theorem transfer_queue_fifo_witness :
    ∃ ctx0 ctx1, vkl_context 4 8 (fun _ => 1024) 16 (fun _ => (1, 1, 1)) = .ok ctx0 ∧
      runQueueCalls ctx0
        [.enqueue ⟨VKL_TRANSFER_BUFFER_UPLOAD, .buf ⟨some 1, 1, [0], 4, 0, 0⟩ 0 4 77⟩,
         .enqueue ⟨VKL_TRANSFER_TEXTURE_COPY, .tex_copy 10 20 (0, 0, 0) (0, 0, 0) (1, 1, 1)⟩,
         .dequeue, .dequeue, .dequeue]
        = .ok (ctx1,
            [⟨VKL_TRANSFER_BUFFER_UPLOAD, .buf ⟨some 1, 1, [0], 4, 0, 0⟩ 0 4 77⟩,
             ⟨VKL_TRANSFER_TEXTURE_COPY, .tex_copy 10 20 (0, 0, 0) (0, 0, 0) (1, 1, 1)⟩,
             VklTransfer.zero]) ∧
      ctx1.queued = [] := by
  obtain ⟨ctx0, e0, hinv, hq0, hcap, _⟩ :=
    vkl_context_ok 4 8 (fun _ => 1024) 16 (fun _ => (1, 1, 1)) (by decide)
  obtain ⟨ctx1, rets, e, _, hq, hr, _⟩ := transfer_queue_fifo ctx0
    [.enqueue ⟨VKL_TRANSFER_BUFFER_UPLOAD, .buf ⟨some 1, 1, [0], 4, 0, 0⟩ 0 4 77⟩,
     .enqueue ⟨VKL_TRANSFER_TEXTURE_COPY, .tex_copy 10 20 (0, 0, 0) (0, 0, 0) (1, 1, 1)⟩,
     .dequeue, .dequeue, .dequeue] hinv
    (by
      rw [hq0, hcap]
      exact ⟨by decide, by decide, trivial, trivial, trivial, trivial⟩)
  rw [hq0] at hq hr
  refine ⟨ctx0, ctx1, e0, ?_, ?_⟩
  · rw [e, hr]; rfl
  · rw [hq]; rfl

/-- The consecutive-offset assertion of `process_buffer_download` fails as soon as the
second offset of a lease of two or more regions is not the first one plus the download
size. -/
theorem process_buffer_download_asserts (mem : Memory) (ctx : VklContext)
    (regions : VklBufferRegions) (offset size : Nat) (data : Ptr) (h2 : 2 ≤ regions.count)
    (hne : regions.offsets.getD 1 0 ≠ (regions.offsets.getD 0 0 + 1 * size) % U64) :
    mem.process_buffer_download ctx
      { type := VKL_TRANSFER_BUFFER_DOWNLOAD, u := .buf regions offset size data }
      = .error .assertion := by
  unfold Memory.process_buffer_download
  rw [if_neg (by simp)]
  dsimp only
  rw [if_pos]
  intro hall
  exact hne (hall 1 (List.mem_range.2 (by omega)) (le_refl _))

/-- C28 fails for a lease of several regions whose stride is not the download size.
(1) Uniform lease of 2 regions of 4 bytes with alignment 16 (offsets 0 and 16): the
download of 4 bytes, the region size, fails the assertion `offsets[1] == offsets[0] + 1 *
size`, since 16 is not 4. (2) Vertex lease of 2 regions of 4 bytes (offsets 0 and 4): the
download of 2 bytes fails it, since 4 is not 2; the download of 4 bytes passes. -/
theorem download_rejects_allocated_lease :
    ∃ ctx0 ctx1 lease ctx2 lease2 mem2,
      vkl_context 8 8 (fun _ => 1024) 16 (fun _ => (1, 1, 1)) = .ok ctx0 ∧
      vkl_alloc_buffers ctx0 VKL_DEFAULT_BUFFER_UNIFORM 2 4 = .ok (ctx1, lease) ∧
      lease.count = 2 ∧ lease.size = 4 ∧ lease.aligned_size = 16 ∧ lease.offsets = [0, 16] ∧
      mem79.process_buffer_download ctx1
        ⟨VKL_TRANSFER_BUFFER_DOWNLOAD, .buf lease 0 4 200⟩ = .error .assertion ∧
      vkl_alloc_buffers ctx0 VKL_DEFAULT_BUFFER_VERTEX 2 4 = .ok (ctx2, lease2) ∧
      lease2.count = 2 ∧ lease2.size = 4 ∧ lease2.offsets = [0, 4] ∧
      mem79.process_buffer_download ctx2
        ⟨VKL_TRANSFER_BUFFER_DOWNLOAD, .buf lease2 0 2 200⟩ = .error .assertion ∧
      mem79.process_buffer_download ctx2
        ⟨VKL_TRANSFER_BUFFER_DOWNLOAD, .buf lease2 0 4 200⟩ = .ok mem2 :=
  ⟨_, _, _, _, _, _, rfl, rfl, rfl, rfl, rfl, rfl, rfl, rfl, rfl, rfl, rfl, rfl, rfl⟩

/-! ## Lemmas on the life of a canvas -/

theorem blankOps_kind (cmds count : Nat) : ∀ op ∈ blankOps cmds count, op.kind = .record := by
  intro op hop
  unfold blankOps at hop
  simp only [List.mem_cons, List.mem_flatten, List.mem_map, List.mem_range] at hop
  rcases hop with h | ⟨l, ⟨i, _, hl⟩, hop⟩
  · rw [h]; rfl
  · rw [← hl] at hop
    simp only [List.mem_cons, List.mem_singleton, List.not_mem_nil, or_false] at hop
    rcases hop with h | h | h | h <;> rw [h] <;> rfl

theorem refillOps_kind (canvas : VklCanvas) :
    ∀ op ∈ refillOps canvas, op.kind = .record ∨ op.kind = .callback := by
  intro op hop
  unfold refillOps at hop
  by_cases hf : canvas.canvas_callbacks.filter
      (fun r => decide (r.type = VKL_PRIVATE_EVENT_REFILL)) = []
  · rw [if_pos hf] at hop
    simp only [List.mem_flatten, List.mem_map] at hop
    obtain ⟨l, ⟨c, _, hl⟩, hop⟩ := hop
    rw [← hl] at hop
    exact Or.inl (blankOps_kind _ _ op hop)
  · rw [if_neg hf] at hop
    unfold callbackOps at hop
    simp only [List.mem_map] at hop
    obtain ⟨r, _, hr⟩ := hop
    rw [← hr]
    exact Or.inr rfl

theorem blank_commands_eq (canvas : VklCanvas) (cmds : Nat) :
    blank_commands canvas cmds
      = { canvas with
          trace := canvas.trace
            ++ blankOps cmds (canvas.commands.getD cmds ⟨0, 0, 0⟩).count } := by
  have h := blank_commands_trace canvas cmds
  unfold blank_commands at h ⊢
  dsimp only at h ⊢
  rw [h]

theorem _refill_canvas_blank_eq (cmds : List Nat) :
    ∀ canvas : VklCanvas,
      _refill_canvas_blank cmds canvas
        = { canvas with
            trace := canvas.trace ++ (cmds.map (fun c =>
              blankOps c (canvas.commands.getD c ⟨0, 0, 0⟩).count)).flatten } := by
  induction cmds with
  | nil => intro canvas; simp [_refill_canvas_blank]
  | cons c rest ih =>
    intro canvas
    unfold _refill_canvas_blank
    rw [blank_commands_eq, ih]
    simp

/-- A refill of a canvas with a command set to fill returns, and only adds the calls of
the refill to the trace. -/
theorem _refill_canvas_eq (canvas : VklCanvas) (hk : refillSets 0 canvas.commands ≠ []) :
    _refill_canvas canvas = .ok { canvas with trace := canvas.trace ++ refillOps canvas } := by
  unfold _refill_canvas refillOps
  dsimp only
  rw [_refill_canvas_loop_eq, List.nil_append]
  have hpos : (refillSets 0 canvas.commands).length > 0 := List.length_pos.2 hk
  rw [if_neg (not_not.2 hpos)]
  unfold _canvas_callbacks
  rw [_canvas_callbacks_loop_eq]
  dsimp only
  by_cases hf : canvas.canvas_callbacks.filter
      (fun r => decide (r.type = VKL_PRIVATE_EVENT_REFILL)) = []
  · have hc : callbackOps
        { type := VKL_PRIVATE_EVENT_REFILL, user_data := NULL,
          rf_cmds := refillSets 0 canvas.commands, rf_img_idx := canvas.img_idx }
        canvas.canvas_callbacks = [] := by
      unfold callbackOps
      dsimp only
      rw [hf]
      rfl
    rw [hf, hc, if_pos (by simp), if_pos rfl, _refill_canvas_blank_eq]
    simp
  · have hlen : 0 < (canvas.canvas_callbacks.filter
        (fun r => decide (r.type = VKL_PRIVATE_EVENT_REFILL))).length :=
      List.length_pos.2 hf
    rw [if_neg (by omega), if_neg hf]

/-- A frame of a canvas that can be refilled when it has to returns, and only adds its
calls to the trace and stores what the acquisition leaves. -/
theorem vkl_canvas_frame_eq (canvas : VklCanvas) (acquire : Nat × Nat)
    (hk : canvas.status = VKL_OBJECT_STATUS_NEED_UPDATE → refillSets 0 canvas.commands ≠ []) :
    vkl_canvas_frame canvas acquire
      = .ok { canvas with
              trace := canvas.trace ++ frameOps canvas,
              swapchain_status := acquire.1, img_idx := acquire.2 } := by
  unfold vkl_canvas_frame frameOps
  dsimp only
  by_cases hs : canvas.status = VKL_OBJECT_STATUS_NEED_UPDATE
  · rw [if_pos hs, if_pos hs, _refill_canvas_eq
      { canvas with
        trace := canvas.trace ++ [.fences_wait VKL_FENCE_RENDER_FINISHED canvas.cur_frame] }
      (hk hs)]
    dsimp only
    have hr : refillOps
        { canvas with
          trace := canvas.trace ++ [.fences_wait VKL_FENCE_RENDER_FINISHED canvas.cur_frame] }
        = refillOps canvas := rfl
    rw [hr]
    simp
  · rw [if_neg hs, if_neg hs]
    simp

theorem vkl_canvas_frame_submit_eq (canvas : VklCanvas) :
    vkl_canvas_frame_submit canvas
      = { canvas with
          trace := canvas.trace ++ submitOps canvas,
          cur_frame := (canvas.cur_frame + 1) % U32 % VKL_MAX_FRAMES_IN_FLIGHT } := by
  unfold vkl_canvas_frame_submit submitOps
  dsimp only
  rw [vkl_canvas_frame_submit_loop_eq]
  simp

/-- A recreation of a canvas that can be refilled returns when the swapchain keeps its
image set, and only adds its calls to the trace. -/
theorem vkl_canvas_recreate_eq (canvas : VklCanvas) (size : Nat × Nat)
    (hk : refillSets 0 canvas.commands ≠ []) :
    vkl_canvas_recreate canvas size true
      = .ok { canvas with trace := canvas.trace ++ recreateOps canvas size } := by
  unfold vkl_canvas_recreate recreateOps
  dsimp only
  rw [if_neg (by simp), _refill_canvas_eq
    { canvas with
      trace := canvas.trace ++
        [CanvasOp.window_get_size, CanvasOp.gpu_wait, CanvasOp.framebuffers_destroy,
         CanvasOp.images_destroy_depth, CanvasOp.images_destroy_swapchain,
         CanvasOp.swapchain_recreate] ++
        [CanvasOp.images_size_depth size.1 size.2 1, CanvasOp.images_create_depth,
         CanvasOp.framebuffers_create 0] } hk]
  dsimp only
  have hr : refillOps
      { canvas with
        trace := canvas.trace ++
          [CanvasOp.window_get_size, CanvasOp.gpu_wait, CanvasOp.framebuffers_destroy,
           CanvasOp.images_destroy_depth, CanvasOp.images_destroy_swapchain,
           CanvasOp.swapchain_recreate] ++
          [CanvasOp.images_size_depth size.1 size.2 1, CanvasOp.images_create_depth,
           CanvasOp.framebuffers_create 0] }
      = refillOps canvas := rfl
  rw [hr]
  simp

theorem vkl_canvas_destroy_loop_eq (destroy : Nat → CanvasOp) (l : List Nat) :
    ∀ (i : Nat) (trace : List CanvasOp),
      vkl_canvas_destroy_loop destroy i l trace
        = trace ++ (destroyedSlots i l).map destroy := by
  induction l with
  | nil => intro i trace; simp [vkl_canvas_destroy_loop, destroyedSlots]
  | cons s rest ih =>
    intro i trace
    unfold vkl_canvas_destroy_loop destroyedSlots
    by_cases h : s = VKL_OBJECT_STATUS_NONE
    · rw [if_pos h, if_pos h]; simp
    · rw [if_neg h, if_neg h, ih]; simp

/-- The destruction of a canvas that is not destroyed yet only adds its calls to the
trace, frees the arrays and marks the swapchain, the window and the canvas destroyed. -/
theorem vkl_canvas_destroy_eq (canvas : VklCanvas)
    (h : canvas.status ≠ VKL_OBJECT_STATUS_DESTROYED) :
    vkl_canvas_destroy (some canvas)
      = some { canvas with
               trace := canvas.trace ++ destroyOps canvas, renderpasses := [],
               commands := [], semaphores := [], fences := [],
               swapchain_status := VKL_OBJECT_STATUS_DESTROYED,
               window_status := VKL_OBJECT_STATUS_DESTROYED,
               status := VKL_OBJECT_STATUS_DESTROYED } := by
  unfold vkl_canvas_destroy destroyOps
  dsimp only
  rw [if_neg h]
  simp only [vkl_canvas_destroy_loop_eq, List.append_assoc, List.singleton_append,
    List.cons_append, List.nil_append]

theorem frameOps_kind (canvas : VklCanvas) :
    ∀ op ∈ frameOps canvas, op.kind = .frame ∨ op.kind = .record ∨ op.kind = .callback := by
  intro op hop
  unfold frameOps at hop
  simp only [List.mem_append, List.mem_singleton] at hop
  rcases hop with (h | h) | h
  · rw [h]; exact Or.inl rfl
  · by_cases hs : canvas.status = VKL_OBJECT_STATUS_NEED_UPDATE
    · rw [if_pos hs] at h
      exact Or.inr (refillOps_kind canvas op h)
    · rw [if_neg hs] at h
      cases h
  · rw [h]; exact Or.inl rfl

theorem submitOps_kind (canvas : VklCanvas) : ∀ op ∈ submitOps canvas, op.kind = .submit := by
  intro op hop
  unfold submitOps at hop
  simp only [List.mem_append, List.mem_cons, List.mem_singleton, List.mem_map,
    List.not_mem_nil, or_false] at hop
  rcases hop with ((h | h) | ⟨c, _, h⟩) | h | h | h | h
  · rw [h]; rfl
  · rw [h]; rfl
  · rw [← h]; rfl
  · rw [h]; rfl
  · rw [h]; rfl
  · rw [h]; rfl
  · rw [h]; rfl

theorem recreateOps_kind (canvas : VklCanvas) (size : Nat × Nat) :
    ∀ op ∈ recreateOps canvas size,
      op.kind ≠ .submit ∧ op.kind ≠ .frame ∧ op ≠ .window_destroy ∧ op ≠ .swapchain_destroy ∧
      ∀ i, op ≠ .renderpass_destroy i := by
  intro op hop
  unfold recreateOps at hop
  simp only [List.mem_append, List.mem_cons, List.mem_singleton, List.not_mem_nil,
    or_false] at hop
  rcases hop with (h | h | h | h | h | h | h | h | h) | h
  any_goals (rw [h]; refine ⟨?_, ?_, ?_, ?_, ?_⟩ <;> simp [CanvasOp.kind])
  have hk := refillOps_kind canvas op h
  refine ⟨?_, ?_, ?_, ?_, ?_⟩
  · rcases hk with hk | hk <;> rw [hk] <;> decide
  · rcases hk with hk | hk <;> rw [hk] <;> decide
  · intro he; rw [he] at hk; revert hk; decide
  · intro he; rw [he] at hk; revert hk; decide
  · intro i he; rw [he] at hk
    rcases hk with hk | hk <;> cases hk

theorem destroyOps_kind (canvas : VklCanvas) :
    ∀ op ∈ destroyOps canvas, op.kind = .teardown := by
  intro op hop
  unfold destroyOps at hop
  simp only [List.mem_append, List.mem_cons, List.mem_singleton, List.mem_map,
    List.not_mem_nil, or_false] at hop
  rcases hop with (((((h | ⟨c, _, h⟩) | h | h | h) | ⟨c, _, h⟩) | ⟨c, _, h⟩) | ⟨c, _, h⟩)
  · rw [h]; rfl
  · rw [← h]; rfl
  · rw [h]; rfl
  · rw [h]; rfl
  · rw [h]; rfl
  · rw [← h]; rfl
  · rw [← h]; rfl
  · rw [← h]; rfl

theorem destroyedSlots_eq (l : List Nat) :
    ∀ i : Nat, destroyedSlots i l
      = List.range' i (l.takeWhile (fun s => decide (s ≠ VKL_OBJECT_STATUS_NONE))).length := by
  induction l with
  | nil => intro i; rfl
  | cons s rest ih =>
    intro i
    unfold destroyedSlots
    by_cases h : s = VKL_OBJECT_STATUS_NONE
    · rw [if_pos h, List.takeWhile_cons_of_neg (by simpa using h)]
      rfl
    · rw [if_neg h, List.takeWhile_cons_of_pos (by simpa using h), ih]
      rfl

theorem need_destroy_ne_destroyed :
    VKL_OBJECT_STATUS_NEED_DESTROY ≠ VKL_OBJECT_STATUS_DESTROYED := by decide

/-- The processing of a live canvas in a tick of the run loop, for a canvas with a
command set to fill and a swapchain that keeps its image set: which path is taken, the
canvas afterwards and what is added to `n_canvas_active`. -/
theorem vkl_app_run_canvas_eq (e : CanvasEnv) (canvas : VklCanvas)
    (hk : refillSets 0 canvas.commands ≠ []) (hs : e.same_images = true) :
    vkl_app_run_canvas e canvas =
      if e.acquire.1 = VKL_OBJECT_STATUS_INVALID then
        .ok ({ canvas.framed e with trace := (canvas.framed e).trace ++ [.gpu_wait] }, 0)
      else if e.acquire.1 = VKL_OBJECT_STATUS_NEED_RECREATE then
        .ok ({ canvas.framed e with
               trace := (canvas.framed e).trace
                 ++ recreateOps (canvas.framed e) e.recreate_size }, 1)
      else if canvas.closing e then
        .ok ({ canvas.framed e with
               trace := (canvas.framed e).trace ++ [.app_wait] ++ destroyOps canvas,
               renderpasses := [], commands := [], semaphores := [], fences := [],
               swapchain_status := VKL_OBJECT_STATUS_DESTROYED,
               window_status := VKL_OBJECT_STATUS_DESTROYED,
               status := VKL_OBJECT_STATUS_DESTROYED }, 0)
      else
        .ok ({ canvas.framed e with
               trace := (canvas.framed e).trace ++ submitOps (canvas.framed e),
               cur_frame := (canvas.cur_frame + 1) % U32 % VKL_MAX_FRAMES_IN_FLIGHT,
               frame_idx := canvas.frame_idx + 1 }, 1) := by
  unfold vkl_app_run_canvas
  dsimp only
  rw [vkl_canvas_frame_eq { canvas with trace := canvas.trace ++ [.window_poll_events] }
    e.acquire (fun _ => hk)]
  dsimp only
  have hfo : frameOps { canvas with trace := canvas.trace ++ [.window_poll_events] }
      = frameOps canvas := rfl
  rw [hfo]
  by_cases h1 : e.acquire.1 = VKL_OBJECT_STATUS_INVALID
  · rw [if_pos h1, if_pos h1]
    rfl
  rw [if_neg h1, if_neg h1]
  by_cases h2 : e.acquire.1 = VKL_OBJECT_STATUS_NEED_RECREATE
  · rw [if_pos h2, if_pos h2, hs]
    erw [vkl_canvas_recreate_eq (canvas.framed e) e.recreate_size hk]
  rw [if_neg h2, if_neg h2]
  unfold VklCanvas.closing
  by_cases hc : e.should_close = true
  · rw [if_pos hc, if_pos (Or.inl hc)]
    dsimp only
    rw [if_pos rfl]
    dsimp only
    rw [if_pos rfl]
    erw [vkl_canvas_destroy_eq _ need_destroy_ne_destroyed]
    rfl
  rw [if_neg hc]
  by_cases hw : canvas.window_status = VKL_OBJECT_STATUS_NEED_DESTROY
  · rw [if_pos (Or.inr (Or.inl hw))]
    dsimp only
    rw [if_pos hw]
    dsimp only
    rw [if_pos rfl]
    erw [vkl_canvas_destroy_eq _ need_destroy_ne_destroyed]
    rfl
  dsimp only
  rw [if_neg hw]
  by_cases hst : canvas.status = VKL_OBJECT_STATUS_NEED_DESTROY
  · rw [if_pos (Or.inr (Or.inr hst)), if_pos hst]
    dsimp only
    erw [vkl_canvas_destroy_eq
      { canvas.framed e with trace := (canvas.framed e).trace ++ [CanvasOp.app_wait] }
      (by
        show canvas.status ≠ VKL_OBJECT_STATUS_DESTROYED
        rw [hst]
        exact need_destroy_ne_destroyed)]
    rfl
  rw [if_neg hst, if_neg (by rintro (h | h | h) <;> contradiction), vkl_canvas_frame_submit_eq]
  rfl

/-! ## Claims on the recreation and the destruction of a canvas -/

/-- C24. Recreate path: on a canvas with a command set to fill, whose swapchain keeps
its image set, `vkl_canvas_recreate` returns and makes, in this order: the query of the
window size, the device-idle wait, the destruction of the framebuffers, of the depth
image and of the swapchain images, the recreation of the swapchain, the sizing of the
depth image to the width and height of the new swapchain images and its creation, the
creation of the framebuffers against the render pass 0, and last the refill
`_refill_canvas`, whose calls only record command buffers or call refill callbacks. No
call destroys a render pass, the swapchain or the window, and `cur_frame`, `frame_idx`,
the status of the canvas and of the window and the render passes are left as they are.
When the swapchain does not keep its image set the call fails by assertion. -/
theorem recreate_path (canvas : VklCanvas) (size : Nat × Nat)
    (hk : refillSets 0 canvas.commands ≠ []) :
    ∃ canvas0 canvas1,
      canvas0 = { canvas with
                  trace := canvas.trace ++
                    [.window_get_size, .gpu_wait, .framebuffers_destroy,
                     .images_destroy_depth, .images_destroy_swapchain, .swapchain_recreate,
                     .images_size_depth size.1 size.2 1, .images_create_depth,
                     .framebuffers_create 0] } ∧
      _refill_canvas canvas0 = .ok canvas1 ∧
      vkl_canvas_recreate canvas size true = .ok canvas1 ∧
      canvas1.trace = canvas.trace ++
        ([.window_get_size, .gpu_wait, .framebuffers_destroy, .images_destroy_depth,
          .images_destroy_swapchain, .swapchain_recreate,
          .images_size_depth size.1 size.2 1, .images_create_depth, .framebuffers_create 0]
          ++ refillOps canvas) ∧
      (∀ op ∈ refillOps canvas, op.kind = .record ∨ op.kind = .callback) ∧
      (∀ op ∈ ([.window_get_size, .gpu_wait, .framebuffers_destroy, .images_destroy_depth,
          .images_destroy_swapchain, .swapchain_recreate,
          .images_size_depth size.1 size.2 1, .images_create_depth, .framebuffers_create 0]
          ++ refillOps canvas : List CanvasOp),
        op ≠ .window_destroy ∧ op ≠ .swapchain_destroy ∧ ∀ i, op ≠ .renderpass_destroy i) ∧
      canvas1.cur_frame = canvas.cur_frame ∧ canvas1.frame_idx = canvas.frame_idx ∧
      canvas1.status = canvas.status ∧ canvas1.window_status = canvas.window_status ∧
      canvas1.renderpasses = canvas.renderpasses ∧ canvas1.commands = canvas.commands ∧
      vkl_canvas_recreate canvas size false = .error .assertion := by
  refine ⟨_, _, rfl, _refill_canvas_eq _ hk, ?_, ?_, refillOps_kind canvas, ?_, rfl, rfl, rfl,
    rfl, rfl, rfl, rfl⟩
  · rw [vkl_canvas_recreate_eq canvas size hk]
    unfold recreateOps
    simp
    rfl
  · show canvas.trace ++ _ ++ refillOps _ = _
    rw [List.append_assoc]
    rfl
  · intro op hop
    exact (recreateOps_kind canvas size op hop).2.2

theorem recreate_path_witness :
    ∃ canvas0 canvas1, vkl_canvas 8 3 = .ok canvas0 ∧
      vkl_canvas_recreate canvas0 (800, 600) true = .ok canvas1 ∧
      canvas1.trace = canvas0.trace ++
        [.window_get_size, .gpu_wait, .framebuffers_destroy, .images_destroy_depth,
         .images_destroy_swapchain, .swapchain_recreate, .images_size_depth 800 600 1,
         .images_create_depth, .framebuffers_create 0] ++ blankOps 1 3 ∧
      canvas1.cur_frame = 0 ∧ canvas1.frame_idx = 0 := by
  have e : vkl_canvas 8 3 = .ok
      { status := VKL_OBJECT_STATUS_CREATED, cur_frame := 0, frame_idx := 0, img_idx := 0,
        swapchain_status := VKL_OBJECT_STATUS_CREATED,
        window_status := VKL_OBJECT_STATUS_CREATED,
        commands := [vkl_commands VKL_DEFAULT_QUEUE_TRANSFER 1,
                     vkl_commands VKL_DEFAULT_QUEUE_RENDER 3]
          ++ List.replicate 6 ⟨VKL_OBJECT_STATUS_NONE, 0, 0⟩,
        canvas_callbacks := [],
        trace := blankOps 1 3 } := rfl
  obtain ⟨c0, c1, _, _, hr, _⟩ := recreate_path
      { status := VKL_OBJECT_STATUS_CREATED, cur_frame := 0, frame_idx := 0, img_idx := 0,
        swapchain_status := VKL_OBJECT_STATUS_CREATED,
        window_status := VKL_OBJECT_STATUS_CREATED,
        commands := [vkl_commands VKL_DEFAULT_QUEUE_TRANSFER 1,
                     vkl_commands VKL_DEFAULT_QUEUE_RENDER 3]
          ++ List.replicate 6 ⟨VKL_OBJECT_STATUS_NONE, 0, 0⟩,
        canvas_callbacks := [],
        trace := blankOps 1 3 } (800, 600) (by decide)
  have hr2 := hr
  rw [show vkl_canvas_recreate
      { status := VKL_OBJECT_STATUS_CREATED, cur_frame := 0, frame_idx := 0, img_idx := 0,
        swapchain_status := VKL_OBJECT_STATUS_CREATED,
        window_status := VKL_OBJECT_STATUS_CREATED,
        commands := [vkl_commands VKL_DEFAULT_QUEUE_TRANSFER 1,
                     vkl_commands VKL_DEFAULT_QUEUE_RENDER 3]
          ++ List.replicate 6 ⟨VKL_OBJECT_STATUS_NONE, 0, 0⟩,
        canvas_callbacks := [],
        trace := blankOps 1 3 } (800, 600) true = .ok _ from rfl] at hr2
  have hc1 := (Except.ok.inj hr2).symm
  subst hc1
  exact ⟨_, _, e, hr, rfl, rfl, rfl⟩

/-- C25. Teardown order: `vkl_canvas_destroy` on a canvas that is not destroyed yet
makes, in this order, the destruction of the depth image, of the render passes, of the
swapchain, of the framebuffers, of the window, of the command sets, of the semaphores
and of the fences (of each array, the slots before the first slot never used, in slot
order), and then marks the canvas `DESTROYED`; the swapchain is destroyed before the
window. Called on a NULL canvas or on a canvas whose status is `DESTROYED` it makes no
call and changes nothing. -/
theorem teardown_order (canvas : VklCanvas) :
    vkl_canvas_destroy none = none ∧
    (canvas.status = VKL_OBJECT_STATUS_DESTROYED →
      vkl_canvas_destroy (some canvas) = some canvas) ∧
    (canvas.status ≠ VKL_OBJECT_STATUS_DESTROYED →
      ∃ canvas1, vkl_canvas_destroy (some canvas) = some canvas1 ∧
        canvas1.status = VKL_OBJECT_STATUS_DESTROYED ∧
        canvas1.trace = canvas.trace ++
          [.images_destroy_depth]
          ++ (destroyedSlots 0 canvas.renderpasses).map CanvasOp.renderpass_destroy
          ++ [.swapchain_destroy, .framebuffers_destroy, .window_destroy]
          ++ (destroyedSlots 0 (canvas.commands.map (fun c => c.status))).map
              CanvasOp.commands_destroy
          ++ (destroyedSlots 0 canvas.semaphores).map CanvasOp.semaphores_destroy
          ++ (destroyedSlots 0 canvas.fences).map CanvasOp.fences_destroy ∧
        canvas1.cur_frame = canvas.cur_frame ∧ canvas1.frame_idx = canvas.frame_idx) ∧
    (∀ l : List Nat, destroyedSlots 0 l
      = List.range (l.takeWhile (fun s => decide (s ≠ VKL_OBJECT_STATUS_NONE))).length) := by
  refine ⟨rfl, fun h => ?_, fun h => ?_, fun l => ?_⟩
  · unfold vkl_canvas_destroy
    dsimp only
    rw [if_pos h]
  · refine ⟨_, vkl_canvas_destroy_eq canvas h, rfl, ?_, rfl, rfl⟩
    unfold destroyOps
    simp
  · rw [destroyedSlots_eq, List.range_eq_range']

theorem teardown_order_witness :
    ∃ canvas0 canvas1, vkl_canvas 8 3 = .ok canvas0 ∧
      vkl_canvas_destroy (some canvas0) = some canvas1 ∧
      canvas1.status = VKL_OBJECT_STATUS_DESTROYED ∧
      canvas1.trace = canvas0.trace ++
        [.images_destroy_depth, .renderpass_destroy 0, .swapchain_destroy,
         .framebuffers_destroy, .window_destroy, .commands_destroy 0, .commands_destroy 1,
         .semaphores_destroy 0, .semaphores_destroy 1, .fences_destroy 0, .fences_destroy 1] ∧
      vkl_canvas_destroy (some canvas1) = some canvas1 := by
  have e : vkl_canvas 8 3 = .ok
      { status := VKL_OBJECT_STATUS_CREATED, cur_frame := 0, frame_idx := 0, img_idx := 0,
        swapchain_status := VKL_OBJECT_STATUS_CREATED,
        window_status := VKL_OBJECT_STATUS_CREATED,
        commands := [vkl_commands VKL_DEFAULT_QUEUE_TRANSFER 1,
                     vkl_commands VKL_DEFAULT_QUEUE_RENDER 3]
          ++ List.replicate 6 ⟨VKL_OBJECT_STATUS_NONE, 0, 0⟩,
        canvas_callbacks := [],
        trace := blankOps 1 3 } := rfl
  obtain ⟨c1, hd, hs, ht, _⟩ := (teardown_order
      { status := VKL_OBJECT_STATUS_CREATED, cur_frame := 0, frame_idx := 0, img_idx := 0,
        swapchain_status := VKL_OBJECT_STATUS_CREATED,
        window_status := VKL_OBJECT_STATUS_CREATED,
        commands := [vkl_commands VKL_DEFAULT_QUEUE_TRANSFER 1,
                     vkl_commands VKL_DEFAULT_QUEUE_RENDER 3]
          ++ List.replicate 6 ⟨VKL_OBJECT_STATUS_NONE, 0, 0⟩,
        canvas_callbacks := [],
        trace := blankOps 1 3 }).2.2.1 (by decide)
  exact ⟨_, c1, e, hd, hs, by rw [ht]; rfl, (teardown_order c1).2.1 hs⟩

/-! ## Claims on the processing of a canvas in a tick of the run loop -/

/-- C22. Frame counters advance only on submit: in the processing of a live canvas (with
a command set to fill, and a swapchain that keeps its image set when recreated) in a tick
of `vkl_app_run`, `vkl_canvas_frame` returns and leaves in the swapchain the status the
acquisition gives; the processing returns; `vkl_canvas_recreate` is called (the swapchain
is recreated) exactly when that status is `NEED_RECREATE`; when the status is `INVALID`
or `NEED_RECREATE`, no call of `vkl_canvas_frame_submit` is made and `cur_frame` and
`frame_idx` are unchanged; in a tick that reaches the submit (neither of these statuses,
and no destruction asked for), the canvas afterwards is the one `vkl_canvas_frame_submit`
leaves with `frame_idx` increased by exactly 1; in a tick that destroys the canvas no
submit is made and `frame_idx` is unchanged. -/
theorem frame_counters_advance_on_submit (e : CanvasEnv) (canvas : VklCanvas)
    (hk : refillSets 0 canvas.commands ≠ []) (hs : e.same_images = true) :
    ∃ canvasf canvas1 k ops,
      vkl_canvas_frame { canvas with trace := canvas.trace ++ [.window_poll_events] } e.acquire
        = .ok canvasf ∧
      canvasf.swapchain_status = e.acquire.1 ∧
      vkl_app_run_canvas e canvas = .ok (canvas1, k) ∧
      canvas1.trace = canvas.trace ++ ops ∧
      (CanvasOp.swapchain_recreate ∈ ops ↔ e.acquire.1 = VKL_OBJECT_STATUS_NEED_RECREATE) ∧
      (e.acquire.1 = VKL_OBJECT_STATUS_INVALID ∨ e.acquire.1 = VKL_OBJECT_STATUS_NEED_RECREATE →
        (∀ op ∈ ops, op.kind ≠ .submit) ∧ canvas1.cur_frame = canvas.cur_frame ∧
        canvas1.frame_idx = canvas.frame_idx) ∧
      (e.acquire.1 ≠ VKL_OBJECT_STATUS_INVALID →
        e.acquire.1 ≠ VKL_OBJECT_STATUS_NEED_RECREATE → ¬ canvas.closing e →
        canvas1 = { vkl_canvas_frame_submit canvasf with frame_idx := canvas.frame_idx + 1 } ∧
        canvas1.frame_idx = canvas.frame_idx + 1 ∧ k = 1 ∧
        CanvasOp.submit_reset ∈ ops) ∧
      (e.acquire.1 ≠ VKL_OBJECT_STATUS_INVALID →
        e.acquire.1 ≠ VKL_OBJECT_STATUS_NEED_RECREATE → canvas.closing e →
        (∀ op ∈ ops, op.kind ≠ .submit) ∧ canvas1.frame_idx = canvas.frame_idx ∧
        canvas1.cur_frame = canvas.cur_frame ∧
        canvas1.status = VKL_OBJECT_STATUS_DESTROYED ∧ k = 0) := by
  have hf := vkl_canvas_frame_eq { canvas with trace := canvas.trace ++ [.window_poll_events] }
    e.acquire (fun _ => hk)
  have hb := vkl_app_run_canvas_eq e canvas hk hs
  have hfk : ∀ op ∈ ([CanvasOp.window_poll_events] ++ frameOps canvas : List CanvasOp),
      op.kind = .frame ∨ op.kind = .record ∨ op.kind = .callback := by
    intro op hop
    rcases List.mem_append.1 hop with h | h
    · rw [List.mem_singleton.1 h]; exact Or.inl rfl
    · exact frameOps_kind canvas op h
  have hne : VKL_OBJECT_STATUS_INVALID ≠ VKL_OBJECT_STATUS_NEED_RECREATE := by decide
  by_cases h1 : e.acquire.1 = VKL_OBJECT_STATUS_INVALID
  · rw [if_pos h1] at hb
    refine ⟨_, _, 0, [CanvasOp.window_poll_events] ++ frameOps canvas ++ [CanvasOp.gpu_wait],
      hf, rfl, hb, ?_, ?_, fun _ => ⟨?_, rfl, rfl⟩, fun h => absurd h1 h, fun h => absurd h1 h⟩
    · show canvas.trace ++ _ ++ _ ++ _ = _
      simp only [List.append_assoc]
    · constructor
      · intro hm
        exfalso
        rcases List.mem_append.1 hm with hm | hm
        · rcases hfk _ hm with h | h | h <;> cases h
        · cases List.mem_singleton.1 hm
      · intro h; rw [h1] at h; exact absurd h hne
    · intro op hop
      rcases List.mem_append.1 hop with hm | hm
      · rcases hfk _ hm with h | h | h <;> rw [h] <;> decide
      · rw [List.mem_singleton.1 hm]; decide
  rw [if_neg h1] at hb
  by_cases h2 : e.acquire.1 = VKL_OBJECT_STATUS_NEED_RECREATE
  · rw [if_pos h2] at hb
    refine ⟨_, _, 1, [CanvasOp.window_poll_events] ++ frameOps canvas
        ++ recreateOps (canvas.framed e) e.recreate_size,
      hf, rfl, hb, ?_, ?_, fun _ => ⟨?_, rfl, rfl⟩, fun _ h => absurd h2 h,
      fun _ h => absurd h2 h⟩
    · show canvas.trace ++ _ ++ _ ++ _ = _
      simp only [List.append_assoc]
    · constructor
      · intro _; exact h2
      · intro _
        apply List.mem_append_right
        unfold recreateOps
        simp
    · intro op hop
      rcases List.mem_append.1 hop with hm | hm
      · rcases hfk _ hm with h | h | h <;> rw [h] <;> decide
      · exact (recreateOps_kind _ _ op hm).1
  rw [if_neg h2] at hb
  by_cases hc : canvas.closing e
  · rw [if_pos hc] at hb
    refine ⟨_, _, 0, [CanvasOp.window_poll_events] ++ frameOps canvas ++ [CanvasOp.app_wait]
        ++ destroyOps canvas,
      hf, rfl, hb, ?_, ?_, fun h => ?_, fun _ _ h => absurd hc h,
      fun _ _ _ => ⟨?_, rfl, rfl, rfl, rfl⟩⟩
    · show canvas.trace ++ _ ++ _ ++ _ ++ _ = _
      simp only [List.append_assoc]
    · constructor
      · intro hm
        exfalso
        rcases List.mem_append.1 hm with hm | hm
        · rcases List.mem_append.1 hm with hm | hm
          · rcases hfk _ hm with h | h | h <;> cases h
          · cases List.mem_singleton.1 hm
        · have := destroyOps_kind canvas _ hm
          cases this
      · intro h; exact absurd h h2
    · rcases h with h | h
      · exact absurd h h1
      · exact absurd h h2
    · intro op hop
      rcases List.mem_append.1 hop with hm | hm
      · rcases List.mem_append.1 hm with hm | hm
        · rcases hfk _ hm with h | h | h <;> rw [h] <;> decide
        · rw [List.mem_singleton.1 hm]; decide
      · rw [destroyOps_kind canvas _ hm]; decide
  rw [if_neg hc] at hb
  refine ⟨_, _, 1, [CanvasOp.window_poll_events] ++ frameOps canvas
      ++ submitOps (canvas.framed e),
    hf, rfl, hb, ?_, ?_, fun h => ?_, fun _ _ _ => ⟨?_, rfl, rfl, ?_⟩,
    fun _ _ h => absurd h hc⟩
  · show canvas.trace ++ _ ++ _ ++ _ = _
    simp only [List.append_assoc]
  · constructor
    · intro hm
      exfalso
      rcases List.mem_append.1 hm with hm | hm
      · rcases hfk _ hm with h | h | h <;> cases h
      · have := submitOps_kind _ _ hm
        cases this
    · intro h; exact absurd h h2
  · rcases h with h | h
    · exact absurd h h1
    · exact absurd h h2
  · rw [vkl_canvas_frame_submit_eq]
    rfl
  · apply List.mem_append_right
    unfold submitOps
    simp

theorem frame_counters_advance_on_submit_witness :
    ∃ canvas0 canvas1 canvas2 canvas3,
      vkl_canvas 8 3 = .ok canvas0 ∧
      vkl_app_run_canvas ⟨(VKL_OBJECT_STATUS_INVALID, 0), false, (800, 600), true⟩ canvas0
        = .ok (canvas1, 0) ∧
      canvas1.cur_frame = canvas0.cur_frame ∧ canvas1.frame_idx = canvas0.frame_idx ∧
      vkl_app_run_canvas ⟨(VKL_OBJECT_STATUS_NEED_RECREATE, 0), false, (800, 600), true⟩ canvas0
        = .ok (canvas2, 1) ∧
      canvas2.cur_frame = canvas0.cur_frame ∧ canvas2.frame_idx = canvas0.frame_idx ∧
      vkl_app_run_canvas ⟨(VKL_OBJECT_STATUS_CREATED, 1), false, (800, 600), true⟩ canvas0
        = .ok (canvas3, 1) ∧
      canvas3.frame_idx = canvas0.frame_idx + 1 ∧ canvas3.cur_frame = 1 := by
  have e : vkl_canvas 8 3 = .ok
      { status := VKL_OBJECT_STATUS_CREATED, cur_frame := 0, frame_idx := 0, img_idx := 0,
        swapchain_status := VKL_OBJECT_STATUS_CREATED,
        window_status := VKL_OBJECT_STATUS_CREATED,
        commands := [vkl_commands VKL_DEFAULT_QUEUE_TRANSFER 1,
                     vkl_commands VKL_DEFAULT_QUEUE_RENDER 3]
          ++ List.replicate 6 ⟨VKL_OBJECT_STATUS_NONE, 0, 0⟩,
        canvas_callbacks := [],
        trace := blankOps 1 3 } := rfl
  obtain ⟨_, c1, k1, _, _, _, e1, _, _, h1, _⟩ := frame_counters_advance_on_submit
      ⟨(VKL_OBJECT_STATUS_INVALID, 0), false, (800, 600), true⟩
      { status := VKL_OBJECT_STATUS_CREATED, cur_frame := 0, frame_idx := 0, img_idx := 0,
        swapchain_status := VKL_OBJECT_STATUS_CREATED,
        window_status := VKL_OBJECT_STATUS_CREATED,
        commands := [vkl_commands VKL_DEFAULT_QUEUE_TRANSFER 1,
                     vkl_commands VKL_DEFAULT_QUEUE_RENDER 3]
          ++ List.replicate 6 ⟨VKL_OBJECT_STATUS_NONE, 0, 0⟩,
        canvas_callbacks := [],
        trace := blankOps 1 3 } (by decide) rfl
  have hk1 : k1 = 0 := by
    have := e1
    rw [show vkl_app_run_canvas ⟨(VKL_OBJECT_STATUS_INVALID, 0), false, (800, 600), true⟩
      { status := VKL_OBJECT_STATUS_CREATED, cur_frame := 0, frame_idx := 0, img_idx := 0,
        swapchain_status := VKL_OBJECT_STATUS_CREATED,
        window_status := VKL_OBJECT_STATUS_CREATED,
        commands := [vkl_commands VKL_DEFAULT_QUEUE_TRANSFER 1,
                     vkl_commands VKL_DEFAULT_QUEUE_RENDER 3]
          ++ List.replicate 6 ⟨VKL_OBJECT_STATUS_NONE, 0, 0⟩,
        canvas_callbacks := [],
        trace := blankOps 1 3 } = .ok (_, 0) from rfl] at this
    exact (congrArg Prod.snd (Except.ok.inj this)).symm
  subst hk1
  exact ⟨_, c1, _, _, e, e1, (h1 (Or.inl rfl)).2.1, (h1 (Or.inl rfl)).2.2, rfl, rfl, rfl, rfl,
    rfl, rfl⟩

/-- A frame never changes the status of the canvas. -/
theorem vkl_canvas_frame_status (canvas : VklCanvas) (acquire : Nat × Nat) (canvas1 : VklCanvas)
    (h : vkl_canvas_frame canvas acquire = .ok canvas1) : canvas1.status = canvas.status := by
  by_cases hk : canvas.status = VKL_OBJECT_STATUS_NEED_UPDATE → refillSets 0 canvas.commands ≠ []
  · rw [vkl_canvas_frame_eq canvas acquire hk] at h
    cases h
    rfl
  · have hs : canvas.status = VKL_OBJECT_STATUS_NEED_UPDATE := by
      by_contra hn
      exact hk (fun hh => absurd hh hn)
    have he : refillSets 0 canvas.commands = [] := by
      by_contra hn
      exact hk (fun _ => hn)
    unfold vkl_canvas_frame at h
    dsimp only at h
    rw [if_pos hs] at h
    unfold _refill_canvas at h
    dsimp only at h
    rw [_refill_canvas_loop_eq, List.nil_append, he] at h
    simp at h

/-- C21 fails for a canvas whose image acquisition fails transiently: in the tick of a
live canvas with swapchain status `INVALID` after `vkl_canvas_frame`, the run loop waits
for the device and goes on to the next canvas without adding to `n_canvas_active`,
though the canvas is not destroyed. With this canvas alone, `vkl_app_run(app, 10)` ends
after the first tick with `n_canvas_active = 0`: the canvas, still live, is not retried.
A recreated or submitted canvas is counted, a destroyed one is not. -/
theorem invalid_acquisition_not_counted :
    (∀ (e : CanvasEnv) (canvas : VklCanvas), refillSets 0 canvas.commands ≠ [] →
      e.same_images = true →
      (e.acquire.1 = VKL_OBJECT_STATUS_INVALID →
        ∃ canvas1, vkl_app_run_canvas e canvas = .ok (canvas1, 0) ∧
          canvas1.status = canvas.status) ∧
      (e.acquire.1 = VKL_OBJECT_STATUS_NEED_RECREATE →
        ∃ canvas1, vkl_app_run_canvas e canvas = .ok (canvas1, 1) ∧
          canvas1.status = canvas.status) ∧
      (e.acquire.1 ≠ VKL_OBJECT_STATUS_INVALID →
        e.acquire.1 ≠ VKL_OBJECT_STATUS_NEED_RECREATE →
        (canvas.closing e →
          ∃ canvas1, vkl_app_run_canvas e canvas = .ok (canvas1, 0) ∧
            canvas1.status = VKL_OBJECT_STATUS_DESTROYED) ∧
        (¬ canvas.closing e →
          ∃ canvas1, vkl_app_run_canvas e canvas = .ok (canvas1, 1) ∧
            canvas1.status = canvas.status))) ∧
    (∃ canvas0 app1,
      vkl_canvas 8 3 = .ok canvas0 ∧ canvas0.status = VKL_OBJECT_STATUS_CREATED ∧
      vkl_app_run (fun _ _ => ⟨(VKL_OBJECT_STATUS_INVALID, 0), false, (800, 600), true⟩)
        { canvases := [canvas0], gpus := [], trace := [] } 10 = .ok (app1, [0]) ∧
      app1.canvases.map (fun (c : VklCanvas) => (c.status, c.frame_idx))
        = [(VKL_OBJECT_STATUS_CREATED, 0)]) := by
  refine ⟨fun e canvas hk hs => ?_, _, _, rfl, rfl, rfl, rfl⟩
  have hb := vkl_app_run_canvas_eq e canvas hk hs
  refine ⟨fun h1 => ?_, fun h2 => ?_, fun h1 h2 => ⟨fun hc => ?_, fun hc => ?_⟩⟩
  · rw [if_pos h1] at hb
    exact ⟨_, hb, rfl⟩
  · have h1 : e.acquire.1 ≠ VKL_OBJECT_STATUS_INVALID := by rw [h2]; decide
    rw [if_neg h1, if_pos h2] at hb
    exact ⟨_, hb, rfl⟩
  · rw [if_neg h1, if_neg h2, if_pos hc] at hb
    exact ⟨_, hb, rfl⟩
  · rw [if_neg h1, if_neg h2, if_neg hc] at hb
    exact ⟨_, hb, rfl⟩

/-- C26 fails when a refill is asked for after the close request: `vkl_canvas_to_refill`,
`vkl_canvas_clear_color` and `vkl_visual_fill_event` store `NEED_UPDATE` in the status of
the canvas, over the `NEED_DESTROY` that `vkl_canvas_to_close` stored. On a new canvas,
after `vkl_canvas_to_close` and then `vkl_canvas_to_refill`, the next tick that gets past
the acquisition submits a frame (`frame_idx` becomes 1) and counts the canvas as active,
with status `NEED_UPDATE`; without the second call the same tick destroys the canvas. -/
theorem close_request_overwritten :
    (∀ (canvas : VklCanvas) (v w : Bool),
      (vkl_canvas_to_close canvas v).status = VKL_OBJECT_STATUS_NEED_DESTROY ∧
      (vkl_canvas_to_refill (vkl_canvas_to_close canvas v) w).status
        = VKL_OBJECT_STATUS_NEED_UPDATE) ∧
    (∀ (canvas : VklCanvas) (v : Bool) (color : Nat),
      (vkl_canvas_clear_color (vkl_canvas_to_close canvas v) color).status
        = VKL_OBJECT_STATUS_NEED_UPDATE) ∧
    (∀ (canvas canvas1 : VklCanvas) (v : Bool) (fill_callback : Ptr) (cmds cmd_idx : Nat)
      (user_data : Ptr),
      vkl_visual_fill_event (vkl_canvas_to_close canvas v) fill_callback cmds cmd_idx user_data
        = .ok canvas1 → canvas1.status = VKL_OBJECT_STATUS_NEED_UPDATE) ∧
    VKL_OBJECT_STATUS_NEED_UPDATE ≠ VKL_OBJECT_STATUS_NEED_DESTROY ∧
    (∃ canvas0 canvas1 canvas2,
      vkl_canvas 8 3 = .ok canvas0 ∧
      vkl_app_run_canvas ⟨(VKL_OBJECT_STATUS_CREATED, 1), false, (800, 600), true⟩
        (vkl_canvas_to_refill (vkl_canvas_to_close canvas0 true) true) = .ok (canvas1, 1) ∧
      canvas1.status = VKL_OBJECT_STATUS_NEED_UPDATE ∧ canvas1.frame_idx = 1 ∧
      CanvasOp.submit_reset ∈ canvas1.trace ∧ CanvasOp.window_destroy ∉ canvas1.trace ∧
      vkl_app_run_canvas ⟨(VKL_OBJECT_STATUS_CREATED, 1), false, (800, 600), true⟩
        (vkl_canvas_to_close canvas0 true) = .ok (canvas2, 0) ∧
      canvas2.status = VKL_OBJECT_STATUS_DESTROYED ∧ canvas2.frame_idx = 0 ∧
      CanvasOp.window_destroy ∈ canvas2.trace) := by
  refine ⟨fun _ _ _ => ⟨rfl, rfl⟩, fun _ _ _ => rfl, ?_, by decide,
    _, _, _, rfl, rfl, rfl, rfl, by decide, by decide, rfl, rfl, rfl, by decide⟩
  intro canvas canvas1 v fc cmds idx ud h
  unfold vkl_visual_fill_event at h
  by_cases hn : fc = NULL
  · rw [if_pos hn] at h; cases h
  · rw [if_neg hn] at h
    cases h
    rfl

/-- C27 fails: nothing clears the pending refill. `vkl_canvas_frame` and
`vkl_canvas_frame_submit` leave the status of the canvas as it is, so after the tick
that refills a canvas of status `NEED_UPDATE` and submits its frame the status is still
`NEED_UPDATE`, and the next tick refills again. On a new canvas, after one
`vkl_canvas_to_refill`, two ticks in a row with no other call each record the blank
frame again. -/
theorem refill_request_not_cleared :
    (∀ (canvas canvas1 : VklCanvas) (acquire : Nat × Nat),
      vkl_canvas_frame canvas acquire = .ok canvas1 → canvas1.status = canvas.status) ∧
    (∀ canvas : VklCanvas, (vkl_canvas_frame_submit canvas).status = canvas.status) ∧
    (∀ (e : CanvasEnv) (canvas : VklCanvas), refillSets 0 canvas.commands ≠ [] →
      e.same_images = true → canvas.status = VKL_OBJECT_STATUS_NEED_UPDATE →
      e.acquire.1 ≠ VKL_OBJECT_STATUS_INVALID →
      e.acquire.1 ≠ VKL_OBJECT_STATUS_NEED_RECREATE → ¬ canvas.closing e →
      ∃ canvas1, vkl_app_run_canvas e canvas = .ok (canvas1, 1) ∧
        canvas1.status = VKL_OBJECT_STATUS_NEED_UPDATE ∧
        canvas1.commands = canvas.commands ∧
        canvas1.trace = canvas.trace
          ++ [.window_poll_events, .fences_wait VKL_FENCE_RENDER_FINISHED canvas.cur_frame]
          ++ refillOps canvas
          ++ [.swapchain_acquire VKL_SEMAPHORE_IMG_AVAILABLE canvas.cur_frame]
          ++ submitOps (canvas.framed e)) ∧
    (∃ canvas0 canvas1 canvas2,
      vkl_canvas 8 3 = .ok canvas0 ∧
      vkl_app_run_canvas ⟨(VKL_OBJECT_STATUS_CREATED, 1), false, (800, 600), true⟩
        (vkl_canvas_to_refill canvas0 true) = .ok (canvas1, 1) ∧
      canvas1.status = VKL_OBJECT_STATUS_NEED_UPDATE ∧
      canvas1.trace = canvas0.trace
        ++ [.window_poll_events, .fences_wait VKL_FENCE_RENDER_FINISHED 0]
        ++ blankOps 1 3
        ++ [.swapchain_acquire VKL_SEMAPHORE_IMG_AVAILABLE 0]
        ++ submitOps ((vkl_canvas_to_refill canvas0 true).framed
            ⟨(VKL_OBJECT_STATUS_CREATED, 1), false, (800, 600), true⟩) ∧
      vkl_app_run_canvas ⟨(VKL_OBJECT_STATUS_CREATED, 2), false, (800, 600), true⟩ canvas1
        = .ok (canvas2, 1) ∧
      canvas2.status = VKL_OBJECT_STATUS_NEED_UPDATE ∧
      canvas2.trace = canvas1.trace
        ++ [.window_poll_events, .fences_wait VKL_FENCE_RENDER_FINISHED 1]
        ++ blankOps 1 3
        ++ [.swapchain_acquire VKL_SEMAPHORE_IMG_AVAILABLE 1]
        ++ submitOps (canvas1.framed
            ⟨(VKL_OBJECT_STATUS_CREATED, 2), false, (800, 600), true⟩)) := by
  refine ⟨fun canvas canvas1 acquire h => vkl_canvas_frame_status canvas acquire canvas1 h,
    fun _ => rfl, fun e canvas hk hs hst h1 h2 hc => ?_,
    _, _, _, rfl, rfl, rfl, rfl, rfl, rfl, rfl⟩
  have hb := vkl_app_run_canvas_eq e canvas hk hs
  rw [if_neg h1, if_neg h2, if_neg hc] at hb
  refine ⟨_, hb, hst, rfl, ?_⟩
  show canvas.trace ++ [CanvasOp.window_poll_events] ++ frameOps canvas ++ _ = _
  unfold frameOps
  rw [if_pos hst]
  simp only [List.append_assoc, List.singleton_append, List.cons_append, List.nil_append]

/-! ## Claims on the run loop -/

end Datoviz
